import Mathlib

/-!
A verification development for `server.c`.

A shallow embedding of the request pipeline of `server.c` (and of its
near-duplicate `server2.c`, which differs from it in comments only):
`parse`, `error`, `load`, `lookup`, `reset`, `connected` and the body of the
serve loop of `main`.

Conventions of the embedding.

* An octet is a natural number (`typedef char octet`); a buffer is a list of
  octets.  A C string is represented by the list of its octets before the
  terminating NUL; a raw buffer (such as `request`) is the list of all of its
  octets, NUL octets included.
* The global variables `root`, `cfd`, `request`, `file`, `body` are the fields
  of `Server`; every function of the source that touches them takes the state
  and returns the new state together with its return value.
* A client connection is a script: the results of the successive `read`
  calls, the results of the successive writes, and the octets written so
  far.  When the read script is exhausted the peer has closed the connection
  (`read` returns 0); when the write script is exhausted writes succeed.
* Memory allocation (`malloc`, `realloc`) is assumed to succeed.
* Behaviour that C leaves undefined and from which the source cannot recover
  (a NULL pointer handed to `strncpy`/`strcpy`, an array of non-positive
  length) is the result `none` of the serve-loop body.
* The strings built in the arrays `path`, `command` and `content` are lists;
  the capacities declared for these arrays are definitions of their own
  (`main_path_capacity`, `main_command_capacity`, `error_capacity`), to be
  compared with the sizes of the strings.
-/

namespace Webserver

/-! ## Octets and the C string functions used by the source -/

/-- An octet of a request or a response: `typedef char octet`. -/
abbrev octet := Nat

/-- The octets of a string literal of the source. -/
def bytes (s : String) : List octet := s.toList.map Char.toNat

/-- `#define LimitRequestFields 50` -/
def LimitRequestFields : Nat := 50

/-- `#define LimitRequestFieldSize 4094` -/
def LimitRequestFieldSize : Nat := 4094

/-- `#define LimitRequestLine 8190` -/
def LimitRequestLine : Nat := 8190

/-- `#define OCTETS 512` -/
def OCTETS : Nat := 512

/-- Whether `needle` occurs at the very start of `hay`. -/
def startsWith : List octet → List octet → Bool
  | _, [] => true
  | [], _ :: _ => false
  | h :: hs, n :: ns => h == n && startsWith hs ns

/-- `memmem(haystack, haystacklen, needle, needlelen)`: the offset of the
first occurrence of `needle` in the buffer `hay`, or `none` for NULL. -/
def memmem : List octet → List octet → Option Nat
  | [], needle => if needle = [] then some 0 else none
  | h :: hs, needle =>
    if startsWith (h :: hs) needle then some 0
    else (memmem hs needle).map (· + 1)

/-- The C string held in a raw buffer: its octets before the first NUL. -/
def cstr (buf : List octet) : List octet := buf.takeWhile (· != 0)

/-- `strstr(haystack, needle)` on C strings: offset of the first occurrence. -/
def strstr (haystack needle : List octet) : Option Nat := memmem haystack needle

/-- `strchr(s, c)` on a C string: the offset of the first `c`, where the
terminating NUL counts as part of the string. -/
def strchr (s : List octet) (c : octet) : Option Nat :=
  if c = 0 then some s.length
  else if s.contains c then some (s.indexOf c) else none

/-- `strncmp(s1, s2, n)` on C strings, up to the sign of a non-zero result:
0 when the strings agree on their first `n` octets, 1 otherwise. -/
def strncmp (s1 s2 : List octet) (n : Nat) : Int :=
  if s1.take n = s2.take n then 0 else 1

/-- `tolower` in the C locale. -/
def tolower (c : octet) : octet := if 65 ≤ c ∧ c ≤ 90 then c + 32 else c

/-- `strcasecmp(s1, s2)` on C strings, up to the sign of a non-zero result. -/
def strcasecmp (s1 s2 : List octet) : Int :=
  if s1.map tolower = s2.map tolower then 0 else 1

/-- `strcasestr(haystack, needle)` on C strings: offset of the first
occurrence of `needle` in `haystack`, ignoring case. -/
def strcasestr (haystack needle : List octet) : Option Nat :=
  memmem (haystack.map tolower) (needle.map tolower)

/-- The conversion of a 64-bit value to the `int` that `%i` prints. -/
def toInt32 (v : Int) : Int :=
  let r := v % 4294967296
  if r < 2147483648 then r else r - 4294967296

/-- The octets `%i` prints for the argument `v`. -/
def fmt_i (v : Int) : List octet :=
  let w := toInt32 v
  if w < 0 then 45 :: ((Nat.toDigits 10 w.natAbs).map Char.toNat)
  else (Nat.toDigits 10 w.natAbs).map Char.toNat

/-! ## Connections and the server state -/

/-- The result of one `read(cfd, buffer, OCTETS)`: `-1`, or the octets read
(none of them when `read` returns 0). -/
inductive ReadResult where
  | error : ReadResult
  | octets (bs : List octet) : ReadResult
  deriving DecidableEq, Repr

/-- The result of one `fread(buffer, 1, OCTETS, file)`: the octets read and
the values of `ferror(file)` and `feof(file)` after it. -/
structure FRead where
  octets : List octet
  ferror : Bool
  feof : Bool
  deriving DecidableEq, Repr

/-- A client socket. -/
structure Conn where
  /-- Results of the coming `read` calls; exhausted: the peer has closed. -/
  input : List ReadResult
  /-- Whether each of the coming writes succeeds; exhausted: they succeed. -/
  wscript : List Bool
  /-- The octets written to the socket so far. -/
  output : List octet
  deriving DecidableEq, Repr

/-- The global variables of the server. -/
structure Server where
  /-- The server's root, a C string (`char* root`). -/
  root : List octet
  /-- The client socket; `none` is `cfd == -1`. -/
  cfd : Option Conn
  /-- The buffer for the request; `none` is NULL. -/
  request : Option (List octet)
  /-- The open `FILE*`, as the results of the coming `fread` calls on it;
  `none` is NULL. -/
  file : Option (List FRead)
  /-- The buffer for the response body; `none` is NULL. -/
  body : Option (List octet)
  deriving DecidableEq, Repr

/-- The file system and the interpreter, seen through the calls of `main`. -/
structure World where
  /-- `access(path, F_OK) != -1` -/
  access_F_OK : List octet → Bool
  /-- `access(path, R_OK) != -1` -/
  access_R_OK : List octet → Bool
  /-- `fopen(path, "r")` -/
  fopen : List octet → Option (List FRead)
  /-- `popen(command, "r")` -/
  popen : List octet → Option (List FRead)

/-- One `dprintf(cfd, ...)` or `write(cfd, ...)` of the octets `bs`: the
success of the call and the socket after it. -/
def send (bs : List octet) (c : Conn) : Bool × Conn :=
  match c.wscript with
  | [] => (true, { c with output := c.output ++ bs })
  | true :: ws => (true, { c with wscript := ws, output := c.output ++ bs })
  | false :: ws => (false, { c with wscript := ws })

/-- A run of writes each of which is followed by
`if (... < 0) return false` (or `continue`): stops at the first failure. -/
def sendAll : List (List octet) → Conn → Bool × Conn
  | [], c => (true, c)
  | bs :: rest, c =>
    match send bs c with
    | (true, c1) => sendAll rest c1
    | (false, c1) => (false, c1)

/-! ## `error` -/

/-- The `switch` of `error` that determines the phrase of the Status-Line. -/
def phrase (code : Nat) : Option (List octet) :=
  if code = 400 then some (bytes "Bad Request")
  else if code = 403 then some (bytes "Forbidden")
  else if code = 404 then some (bytes "Not Found")
  else if code = 405 then some (bytes "Method Not Allowed")
  else if code = 413 then some (bytes "Request Entity Too Large")
  else if code = 414 then some (bytes "Request-URI Too Long")
  else if code = 418 then some (bytes "I'm a teapot")
  else if code = 500 then some (bytes "Internal Server Error")
  else if code = 501 then some (bytes "Not Implemented")
  else if code = 505 then some (bytes "HTTP Version Not Supported")
  else none

/-- The `sprintf` of `error` into `content`. -/
def errorContent (code : Nat) (phr : List octet) : List octet :=
  bytes "<html><head><title>" ++ fmt_i code ++ bytes " " ++ phr
    ++ bytes "</title></head><body><h1>" ++ fmt_i code ++ bytes " " ++ phr
    ++ bytes "</h1></body></html>"

/-- The six writes of `error`, in order. -/
def errorWrites (code : Nat) (phr : List octet) : List (List octet) :=
  let content := errorContent code phr
  let length : Int := content.length
  [ bytes "HTTP/1.1 " ++ fmt_i code ++ bytes " " ++ phr ++ bytes "\r\n",
    bytes "Connection: close\r\n",
    bytes "Content-Length: " ++ fmt_i length ++ bytes "\r\n",
    bytes "Content-Type: text/html\r\n",
    bytes "\r\n",
    content ]

/-- `bool error(unsigned short code)`: handles client errors (4xx) and server
errors (5xx). -/
def error (code : Nat) (s : Server) : Bool × Server :=
  match s.cfd with
  | none => (false, s)
  | some c =>
    if code < 400 ∨ code > 599 then (false, s)
    else
      match phrase code with
      | none => (false, s)
      | some phr =>
        let r := sendAll (errorWrites code phr) c
        (r.1, { s with cfd := some r.2 })

/-! ## `parse` -/

/-- The terminator of the header block, CRLF CRLF. -/
def CRLFCRLF : List octet := bytes "\r\n\r\n"

/-- The start of the search for CRLF CRLF in `parse`, as an offset into
`request`: `request + length - octets - offset` with
`offset = (length - octets < 3) ? length - octets : 3`; `length` already
counts the `octets` just read. -/
def parse_haystack (length octets : Nat) : Nat :=
  let offset := if length - octets < 3 then length - octets else 3
  length - octets - offset

/-- The `while (true)` loop of `parse`.  `input` is the read script of the
client socket `c`, `request` the global buffer (`none` for NULL); the local
`length` is the size of the buffer throughout. -/
def parseLoop : List ReadResult → Conn → Option (List octet) → Server → Int × Server
  | [], c, request, s =>
    -- read returns 0: return -1
    (-1, { s with cfd := some { c with input := [] }, request := request })
  | ReadResult.error :: rest, c, request, s =>
    -- error(500); return -1
    (-1, (error 500 { s with cfd := some { c with input := rest }, request := request }).2)
  | ReadResult.octets chunk :: rest, c, request, s =>
    let octets := chunk.length
    if octets > 0 then
      let buf := request.getD [] ++ chunk
      let length := buf.length
      -- search for CRLF CRLF
      let haystack := parse_haystack length octets
      match memmem (buf.drop haystack) CRLFCRLF with
      | some needle =>
        -- trim to one CRLF and null-terminate
        let length1 := haystack + needle + 2 + 1
        let buf1 := (buf.take length1).set (length1 - 1) 0
        ((length1 : Int), { s with cfd := some { c with input := rest }, request := some buf1 })
      | none =>
        if length - 1 ≥ LimitRequestLine + LimitRequestFields * LimitRequestFieldSize then
          (-1, (error 413 { s with cfd := some { c with input := rest }, request := some buf }).2)
        else
          parseLoop rest c (some buf) s
    else
      (-1, { s with cfd := some { c with input := rest }, request := request })

/-- `ssize_t parse(void)`: parses an HTTP request. -/
def parse (s : Server) : Int × Server :=
  match s.cfd with
  | none => (-1, s)
  | some c =>
    if s.request.isSome then (-1, s)
    else parseLoop c.input c none s

/-! ## `load`, `lookup`, `reset`, `connected` -/

/-- The `while (true)` loop of `load`.  The first argument is the `fread`
script of the open file, `body` the global buffer (`none` for NULL); the
local `size` is the size of the buffer throughout. -/
def loadLoop : List FRead → Option (List octet) → Server → Int × Server
  | [], body, s =>
    -- fread returns 0 at end of file: break
    (((body.getD []).length : Int), { s with file := some [], body := body })
  | r :: rest, body, s =>
    if r.ferror then
      (-1, { s with file := some rest, body := none })
    else
      let body1 := if r.octets.length > 0 then some (body.getD [] ++ r.octets) else body
      if r.feof then
        (((body1.getD []).length : Int), { s with file := some rest, body := body1 })
      else
        loadLoop rest body1 s

/-- `ssize_t load(void)`: loads file into message-body. -/
def load (s : Server) : Int × Server :=
  match s.file with
  | none => (-1, s)
  | some f =>
    if s.body.isSome then (-1, s)
    else loadLoop f none s

/-- `const char* lookup(const char* extension)`: the MIME type for supported
extensions, else NULL. -/
def lookup (extension : List octet) : Option (List octet) :=
  if strcasecmp (bytes "css") extension = 0 then some (bytes "text/css")
  else if strcasecmp (bytes "html") extension = 0 then some (bytes "text/html")
  else if strcasecmp (bytes "gif") extension = 0 then some (bytes "inmage/gif")
  else if strcasecmp (bytes "ico") extension = 0 then some (bytes "image/x-icon")
  else if strcasecmp (bytes "jpg") extension = 0 then some (bytes "image/jpeg")
  else if strcasecmp (bytes "js") extension = 0 then some (bytes "text/javascript")
  else if strcasecmp (bytes "png") extension = 0 then some (bytes "image/png")
  else none

/-- `void reset(void)`: resets server's state, deallocating any resources. -/
def reset (s : Server) : Server :=
  { s with body := none, file := none, request := none, cfd := none }

/-- `bool connected(void)`: `accepted` is the result of `accept`, `none` for
-1. -/
def connected (accepted : Option Conn) (s : Server) : Bool × Server :=
  match accepted with
  | none => (false, { s with cfd := none })
  | some c => (true, { s with cfd := some c })

/-! ## The serve loop of `main` -/

/-- How a stage of the serve-loop body ends: it goes on with a value, or it
calls `error(code)` and `continue`s, or its behaviour is undefined. -/
inductive Checked (α : Type) where
  | ok (a : α) : Checked α
  | error (code : Nat) : Checked α
  | undefined : Checked α
  deriving DecidableEq, Repr

/-- Lines 126-141 of `main`: extract the request-line from the buffer
`request`. -/
def main_line (request : List octet) : Checked (List octet) :=
  let haystack := cstr request
  match strstr haystack (bytes "\r\n") with
  | none => Checked.error 400
  | some needle =>
    if needle + 2 > LimitRequestLine then Checked.error 414
    else Checked.ok (haystack.take (needle + 2))

/-- Lines 148-203 of `main`: validate the request-line and extract
`abs_path`; the result is `abs_path` (a C string) with `ln_abs_path`. -/
def main_validate (line : List octet) : Checked (List octet × Int) :=
  -- method must be GET
  if strncmp line (bytes "GET") 3 ≠ 0 then Checked.error 405
  else
    -- request target must begin with "/"
    match strchr line 32 with
    | none => Checked.undefined   -- strncpy(target_init, NULL, 2)
    | some line_pt =>
      let target_init := (line.drop line_pt).take 2
      if strncmp target_init (bytes " /") 2 ≠ 0 then Checked.error 501
      -- request target must not contain "
      else if (strchr line 34).isSome then Checked.error 400
      else
        -- version must be "HTTP/1.1"
        match strcasestr line (bytes "HTTP/1.1") with
        | none => Checked.error 505
        | some needle_1_pt =>
          match strchr line 47 with
          | none => Checked.undefined
          | some line_pt1 =>
            let ln_abs_path : Int := (needle_1_pt : Int) - (line_pt1 : Int)
            if ln_abs_path ≤ 0 then Checked.undefined   -- char abs_path[ln_abs_path]
            else
              let abs_path := (line.drop line_pt1).take (ln_abs_path.toNat - 1)
              if (strchr abs_path 46).isNone then Checked.error 501
              else Checked.ok (abs_path, ln_abs_path)

/-- Lines 205-224 of `main`: extract the query from the request-target; the
result is `abs_path` without the query, and `query`. -/
def main_query (abs_path : List octet) : List octet × List octet :=
  match strchr abs_path 63 with
  | none => (abs_path, [])
  | some query_bg =>
    let query_end := abs_path.length
    let query_ln : Int := (query_end : Int) - (query_bg : Int)
    let query := if query_ln > 1 then abs_path.drop (query_bg + 1) else []
    (abs_path.take query_bg, query)

/-- The format of the interpreter command with `query` and `path` printed
into it by `sprintf`. -/
def main_command (query path : List octet) : List octet :=
  bytes "QUERY_STRING=\"" ++ query ++ bytes "\" REDIRECT_STATUS=200 SCRIPT_FILENAME=\""
    ++ path ++ bytes "\" php-cgi"

/-- Lines 256-310 of `main`: dynamic content. -/
def main_dynamic (w : World) (query path : List octet) (s : Server) : Server :=
  let command := main_command query path
  match w.popen command with
  | none => (error 500 s).2
  | some f =>
    let r := load { s with file := some f }
    if r.1 = -1 then (error 500 r.2).2
    else
      let haystack := r.2.body.getD []
      match memmem haystack CRLFCRLF with
      | none => (error 500 r.2).2
      | some needle =>
        let length : Int := r.1 - ((needle : Int) + 4)
        match r.2.cfd with
        | none => r.2
        | some c =>
          { r.2 with cfd := some (sendAll
              [ bytes "HTTP/1.1 200 OK\r\n",
                bytes "Connection: close\r\n",
                bytes "Content-Length: " ++ fmt_i length ++ bytes "\r\n",
                haystack ] c).2 }

/-- Lines 312-364 of `main`: static content. -/
def main_static (w : World) (extension path : List octet) (s : Server) : Server :=
  match lookup extension with
  | none => (error 501 s).2
  | some type =>
    match w.fopen path with
    | none => (error 500 s).2
    | some f =>
      let r := load { s with file := some f }
      if r.1 = -1 then (error 500 r.2).2
      else
        match r.2.cfd with
        | none => r.2
        | some c =>
          { r.2 with cfd := some (sendAll
              [ bytes "HTTP/1.1 200 OK\r\n",
                bytes "Connection: close\r\n",
                bytes "Content-Length: " ++ fmt_i r.1 ++ bytes "\r\n",
                bytes "Content-Type: " ++ type ++ bytes "\r\n\r\n",
                r.2.body.getD [] ] c).2 }

/-- Lines 226-364 of `main`: concatenate root and absolute-path, ensure the
path exists and is readable, extract its extension and respond. -/
def main_serve (w : World) (abs_path query : List octet) (s : Server) : Option Server :=
  let path := s.root ++ abs_path
  if !w.access_F_OK path then some (error 404 s).2
  else if !w.access_R_OK path then some (error 403 s).2
  else
    match strchr path 46 with
    | none => none   -- strcpy(extension, NULL + 1)
    | some ext_pt_bg =>
      let extension := path.drop (ext_pt_bg + 1)
      if strcasecmp (bytes "php") extension = 0 then some (main_dynamic w query path s)
      else some (main_static w extension path s)

/-- Lines 124-370 of `main`: the serve-loop body after a successful `parse`;
`none` is undefined behaviour. -/
def main_respond (w : World) (s : Server) : Option Server :=
  match main_line (s.request.getD []) with
  | Checked.undefined => none
  | Checked.error code => some (error code s).2
  | Checked.ok line =>
    match main_validate line with
    | Checked.undefined => none
    | Checked.error code => some (error code s).2
    | Checked.ok (abs_path, _) =>
      let q := main_query abs_path
      main_serve w q.1 q.2 s

/-- Lines 115-370 of `main`: the body of `if (connected())`. -/
def main_handle (w : World) (s : Server) : Option Server :=
  let r := parse s
  if r.1 = -1 then some r.2
  else main_respond w r.2

/-- One iteration of the `while (true)` of `main`; `accepted` is the result of
the `accept` of this iteration. -/
def main_iteration (w : World) (accepted : Option Conn) (s : Server) : Option Server :=
  let r := connected accepted (reset s)
  if r.1 then main_handle w r.2 else some r.2

/-- The first iterations of the `while (true)` of `main`, one for each
element of `accepts`. -/
def main_loop (w : World) : List (Option Conn) → Server → Option Server
  | [], s => some s
  | a :: rest, s =>
    match main_iteration w a s with
    | none => none
    | some s1 => main_loop w rest s1

/-! ## Observations used to state the properties -/

/-- The octets that the reads of a script deliver before the peer closes the
connection or a read fails: the request byte stream. -/
def received : List ReadResult → List octet
  | ReadResult.octets bs :: rest => if bs = [] then [] else bs ++ received rest
  | _ => []

/-- What the caller of `parse` observes: the return value, the buffer
`request` when `parse` succeeded, and the octets written to the socket. -/
def parseOutcome (r : Int × Server) : Int × Option (List octet) × Option (List octet) :=
  (r.1, if r.1 = -1 then none else r.2.request, r.2.cfd.map (·.output))

/-- The status code of a response: the three octets after `HTTP/1.1 ` when
the response starts with it. -/
def responseStatus (response : List octet) : Option (List octet) :=
  if startsWith response (bytes "HTTP/1.1 ") then some ((response.drop 9).take 3) else none

/-- The server state `s1` is that of a server that has written, to the
client socket that was `c`, one response whose status code is among `codes`. -/
def Responds (c : Conn) (s1 : Server) (codes : List Nat) : Prop :=
  ∃ resp code, code ∈ codes ∧ s1.cfd.map (·.output) = some (c.output ++ resp)
    ∧ responseStatus resp = some (fmt_i code)

/-! ## Concrete inputs -/

/-- A request of `415 * 512 + n` octets `a`, sent as 415 reads of 512 octets
and one read of `n` octets. -/
def longRequest (n : Nat) : List (List octet) :=
  List.replicate 415 (List.replicate 512 97) ++ [List.replicate n 97]

/-- The server with root `/srv` right after `accept` returned a socket on
which the reads of `input` are pending. -/
def accepted (input : List ReadResult) : Server :=
  { root := bytes "/srv", cfd := some { input := input, wscript := [], output := [] },
    request := none, file := none, body := none }

/-- The 212890 octets `a` of `longRequest 410` followed by CRLF CRLF, with
the terminator in a read of its own. -/
def splitA : List (List octet) :=
  longRequest 410 ++ [[13, 10, 13, 10]]

/-- The same octets as `splitA`, with the CR of the terminator at the end of
the read before. -/
def splitB : List (List octet) :=
  List.replicate 415 (List.replicate 512 97) ++ [List.replicate 410 97 ++ [13], [10, 13, 10]]

/-- A world without files and without interpreter. -/
def noFiles : World :=
  { access_F_OK := fun _ => false, access_R_OK := fun _ => false,
    fopen := fun _ => none, popen := fun _ => none }

/-- The request buffer that `parse` leaves for a request line made of `start`
followed by `n` octets `a`, without header lines. -/
def longLine (start : List octet) (n : Nat) : List octet :=
  start ++ List.replicate n 97 ++ [13, 10, 0]

/-- The server with root `/srv` right after `parse` returned with the buffer
`request`, nothing written yet to the client socket. -/
def parsed (request : List octet) : Server :=
  { root := bytes "/srv", cfd := some { input := [], wscript := [], output := [] },
    request := some request, file := none, body := none }

/-- The octets that the `fread` calls of a script deliver up to the end of
file: the content of the file (or the whole output of the interpreter). -/
def fileBytes : List FRead → List octet
  | [] => []
  | r :: rest => if r.feof then r.octets else r.octets ++ fileBytes rest

/-- A world whose file system holds one readable file, at `path`, read by the
`fread` calls of `file`, and that has no interpreter. -/
def oneFile (path : List octet) (file : List FRead) : World :=
  { access_F_OK := fun p => p == path, access_R_OK := fun p => p == path,
    fopen := fun p => if p = path then some file else none, popen := fun _ => none }

/-- A world whose file system holds one readable file, at `path`, and whose
interpreter, whatever the command, writes what the `fread` calls of `output`
deliver. -/
def oneScript (path : List octet) (output : List FRead) : World :=
  { access_F_OK := fun p => p == path, access_R_OK := fun p => p == path,
    fopen := fun _ => none, popen := fun _ => some output }

/-- A file of 2^31 octets `a`, read as 2^22 full buffers of 512 octets; the
next `fread` finds the end of the file. -/
def bigFile : List FRead :=
  List.replicate 4194304 { octets := List.replicate 512 97, ferror := false, feof := false }

/-- The output of an interpreter: an empty header block, that is CRLF CRLF,
and then the 2^31 octets of `bigFile`. -/
def bigOutput : List FRead :=
  { octets := [13, 10, 13, 10], ferror := false, feof := false } :: bigFile

/-- The server with root `root` and an open client socket on which nothing
has been written and every write succeeds, no request, file or body. -/
def serving (root : List octet) : Server :=
  { root := root, cfd := some { input := [], wscript := [], output := [] },
    request := none, file := none, body := none }

/-- The request line `GET /x.ext HTTP/1.1` CRLF. -/
def requestLine (x ext : List octet) : List octet :=
  bytes "GET /" ++ x ++ bytes "." ++ ext ++ bytes " HTTP/1.1\r\n"

/-- The request `GET /x.ext HTTP/1.1` CRLF CRLF. -/
def simpleRequest (x ext : List octet) : List octet :=
  requestLine x ext ++ bytes "\r\n"

/-- The target `/x.ext`. -/
def simpleTarget (x ext : List octet) : List octet :=
  bytes "/" ++ x ++ bytes "." ++ ext

/-- The capacity declared for `content` in `error`:
`strlen(template) + 2 * ((int) log10(code) + 1 - 2) + 2 * (strlen(phrase) - 2) + 1`,
a `size_t`. -/
def error_capacity (code : Nat) (phr : List octet) : Int :=
  let template := bytes "<html><head><title>%i %s</title></head><body><h1>%i %s</h1></body></html>"
  ((template.length : Int) + 2 * ((Nat.log 10 code : Int) + 1 - 2) + 2 * ((phr.length : Int) - 2) + 1)
    % 18446744073709551616

/-- The reads of the loop of `parse` that deliver octets, up to the read at
which `parse` returns: for each of them the buffer `request` before the read
and the buffer after the `realloc` and `memcpy` of the octets read. -/
def parseReads : List ReadResult → Option (List octet) → List (List octet × List octet)
  | ReadResult.octets chunk :: rest, request =>
    if chunk.length > 0 then
      let buf := request.getD [] ++ chunk
      let haystack := parse_haystack buf.length chunk.length
      (request.getD [], buf) ::
        (match memmem (buf.drop haystack) CRLFCRLF with
         | some _ => []
         | none =>
           if buf.length - 1 ≥ LimitRequestLine + LimitRequestFields * LimitRequestFieldSize then []
           else parseReads rest (some buf))
    else []
  | _, _ => []

/-- The status lines the server writes: that of a response with status 200,
and those of `error`. -/
def StatusLine (line : List octet) : Prop :=
  line = bytes "HTTP/1.1 200 OK\r\n"
  ∨ ∃ code phr, phrase code = some phr
      ∧ line = bytes "HTTP/1.1 " ++ fmt_i code ++ bytes " " ++ phr ++ bytes "\r\n"

/-- The server state `s1` is that of a server that, on a client socket with
the octets `output` written so far and the write script `wscript`, has written
nothing more, or only a status line because the write after it failed, or a
status line followed at once by `Connection: close`. -/
def ClosesAfterStatus (output : List octet) (wscript : List Bool) (s1 : Server) : Prop :=
  ∃ resp, s1.cfd.map (·.output) = some (output ++ resp)
    ∧ (resp = []
      ∨ ∃ line, StatusLine line
          ∧ ((resp = line ∧ wscript[1]? = some false)
            ∨ (line ++ bytes "Connection: close\r\n") <+: resp))

/-- The capacity declared for `path` in `main`:
`strlen(root) + ln_abs_path - 1`, a `size_t`. -/
def main_path_capacity (root : List octet) (ln_abs_path : Int) : Int :=
  ((root.length : Int) + ln_abs_path - 1) % 18446744073709551616

/-- The `format` of the interpreter command in `main`. -/
def main_command_format : List octet :=
  bytes "QUERY_STRING=\"%s\" REDIRECT_STATUS=200 SCRIPT_FILENAME=\"%s\" php-cgi"

/-- What `sprintf` prints for a format whose only conversions are `%s`, with
the C strings `args` as arguments. -/
def sprintf_s : List octet → List (List octet) → List octet
  | 37 :: 115 :: rest, a :: args => a ++ sprintf_s rest args
  | c :: rest, args => c :: sprintf_s rest args
  | [], _ => []

/-- The capacity declared for `command` in `main`:
`strlen(format) + (strlen(path) - 2) + (strlen(query) - 2) + 1`, a `size_t`. -/
def main_command_capacity (query path : List octet) : Int :=
  ((main_command_format.length : Int) + ((path.length : Int) - 2) + ((query.length : Int) - 2) + 1)
    % 18446744073709551616

/-- The number of calls of `read` in the loop of `parse` up to the call at
which `parse` returns; on an exhausted script the call that returns 0 counts. -/
def parseReadCount : List ReadResult → Option (List octet) → Nat
  | ReadResult.octets chunk :: rest, request =>
    if chunk.length > 0 then
      let buf := request.getD [] ++ chunk
      let haystack := parse_haystack buf.length chunk.length
      match memmem (buf.drop haystack) CRLFCRLF with
      | some _ => 1
      | none =>
        if buf.length - 1 ≥ LimitRequestLine + LimitRequestFields * LimitRequestFieldSize then 1
        else 1 + parseReadCount rest (some buf)
    else 1
  | _, _ => 1

/-- A world whose file system holds one readable file, at `path`, and whose
interpreter writes what the `fread` calls of `output` deliver when it is
started with the command `command`, and cannot be started with any other
command. -/
def oneCommand (path command : List octet) (output : List FRead) : World :=
  { access_F_OK := fun p => p == path, access_R_OK := fun p => p == path,
    fopen := fun _ => none, popen := fun c => if c = command then some output else none }

/-! ## Properties of the string functions -/

theorem CRLFCRLF_eq : CRLFCRLF = [13, 10, 13, 10] := by decide

theorem startsWith_iff (l t : List octet) : startsWith l t = true ↔ t <+: l := by
  induction l generalizing t with
  | nil => cases t <;> simp [startsWith]
  | cons h hs ih =>
    cases t with
    | nil => simp [startsWith]
    | cons n ns =>
      simp only [startsWith, Bool.and_eq_true, beq_iff_eq, ih, List.cons_prefix_cons]
      constructor
      · rintro ⟨h1, h2⟩; exact ⟨h1.symm, h2⟩
      · rintro ⟨h1, h2⟩; exact ⟨h1.symm, h2⟩

theorem memmem_eq_some_iff (l t : List octet) (p : Nat) :
    memmem l t = some p ↔ t <+: l.drop p ∧ ∀ q, q < p → ¬ t <+: l.drop q := by
  induction l generalizing p with
  | nil =>
    simp only [memmem, List.drop_nil, List.prefix_nil]
    by_cases ht : t = []
    · subst ht
      simp only [if_true, true_and, not_true_eq_false, imp_false, not_lt]
      constructor
      · intro h; cases h; intro q; exact Nat.zero_le q
      · intro h; have := h 0; simp at this; rw [this]
    · simp [ht]
  | cons h hs ih =>
    rw [memmem]
    by_cases hs0 : startsWith (h :: hs) t = true
    · rw [if_pos hs0]
      have hp := (startsWith_iff _ _).1 hs0
      constructor
      · intro e; cases e; exact ⟨by simpa using hp, by intro q hq; omega⟩
      · rintro ⟨_, h2⟩
        cases p with
        | zero => rfl
        | succ p => exact absurd (by simpa using hp) (h2 0 (Nat.succ_pos p))
    · rw [if_neg hs0]
      have hp : ¬ t <+: h :: hs := fun hh => hs0 ((startsWith_iff _ _).2 hh)
      cases p with
      | zero =>
        simp only [List.drop_zero, Option.map_eq_some']
        constructor
        · rintro ⟨a, _, ha⟩; omega
        · rintro ⟨h1, _⟩; exact absurd h1 hp
      | succ p =>
        simp only [Option.map_eq_some', Nat.add_right_cancel_iff, exists_eq_right, ih,
          List.drop_succ_cons]
        constructor
        · rintro ⟨h1, h2⟩
          refine ⟨h1, ?_⟩
          intro q hq
          cases q with
          | zero => simpa using hp
          | succ q => simpa using h2 q (by omega)
        · rintro ⟨h1, h2⟩
          refine ⟨h1, ?_⟩
          intro q hq
          simpa using h2 (q + 1) (by omega)

theorem memmem_eq_none_iff (l t : List octet) :
    memmem l t = none ↔ ∀ q, ¬ t <+: l.drop q := by
  constructor
  · intro h q hq
    -- take the least occurrence
    have hex : ∃ n, t <+: l.drop n := ⟨q, hq⟩
    classical
    have hsp := Nat.find_spec hex
    have : memmem l t = some (Nat.find hex) :=
      (memmem_eq_some_iff l t _).2 ⟨hsp, fun r hr => Nat.find_min hex hr⟩
    rw [h] at this
    cases this
  · intro h
    cases hm : memmem l t with
    | none => rfl
    | some p => exact absurd ((memmem_eq_some_iff l t p).1 hm).1 (h p)

theorem prefix_drop_append {t a : List octet} (b : List octet) {q : Nat}
    (h : t <+: a.drop q) : t <+: (a ++ b).drop q := by
  by_cases hq : q ≤ a.length
  · rw [List.drop_append_of_le_length hq]
    exact h.trans (List.prefix_append _ _)
  · have : a.drop q = [] := List.drop_eq_nil_of_le (by omega)
    rw [this, List.prefix_nil] at h
    subst h
    exact List.nil_prefix

theorem prefix_drop_of_append {t a b : List octet} {q : Nat}
    (h : t <+: (a ++ b).drop q) (hq : q + t.length ≤ a.length) : t <+: a.drop q := by
  rw [List.drop_append_of_le_length (by omega)] at h
  exact List.prefix_of_prefix_length_le h (List.prefix_append _ _)
    (by rw [List.length_drop]; omega)

theorem prefix_drop_length {t l : List octet} {q : Nat} (h : t <+: l.drop q) (ht : t ≠ []) :
    q + t.length ≤ l.length := by
  have := h.length_le
  rw [List.length_drop] at this
  have h0 : 0 < t.length := List.length_pos.2 ht
  omega

theorem memmem_append_of_some {a t : List octet} (b : List octet) {p : Nat} (ht : t ≠ [])
    (h : memmem a t = some p) : memmem (a ++ b) t = some p := by
  rw [memmem_eq_some_iff] at h ⊢
  refine ⟨prefix_drop_append b h.1, ?_⟩
  intro q hq hh
  have := prefix_drop_length h.1 ht
  exact h.2 q hq (prefix_drop_of_append hh (by omega))

theorem memmem_of_append {a b t : List octet} {p : Nat}
    (h : memmem (a ++ b) t = some p) (hp : p + t.length ≤ a.length) :
    memmem a t = some p := by
  rw [memmem_eq_some_iff] at h ⊢
  refine ⟨prefix_drop_of_append h.1 hp, ?_⟩
  intro q hq hh
  exact h.2 q hq (prefix_drop_append b hh)

theorem memmem_some_length {l t : List octet} {p : Nat} (ht : t ≠ [])
    (h : memmem l t = some p) : p + t.length ≤ l.length :=
  prefix_drop_length ((memmem_eq_some_iff l t p).1 h).1 ht

theorem memmem_drop (t : List octet) : ∀ (k : Nat) (l : List octet),
    (∀ q, q < k → ¬ t <+: l.drop q) →
    memmem l t = (memmem (l.drop k) t).map (k + ·)
  | 0, l, _ => by simp
  | k + 1, [], h => by
    have h0 := h 0 (Nat.succ_pos k)
    simp only [List.drop_nil, List.prefix_nil] at h0
    simp [memmem, h0]
  | k + 1, x :: xs, h => by
    have h0 : ¬ startsWith (x :: xs) t = true := fun hh =>
      h 0 (Nat.succ_pos k) (by simpa using (startsWith_iff _ _).1 hh)
    rw [memmem, if_neg h0, List.drop_succ_cons,
      memmem_drop t k xs (fun q hq => by simpa using h (q + 1) (by omega))]
    cases memmem (xs.drop k) t with
    | none => rfl
    | some n => simp only [Option.map_some', Option.some.injEq]; omega

/-- The window of `parse` finds what a search of the whole buffer finds. -/
theorem memmem_window (old chunk : List octet) (h : memmem old CRLFCRLF = none) :
    (memmem ((old ++ chunk).drop (parse_haystack (old ++ chunk).length chunk.length))
        CRLFCRLF).map (parse_haystack (old ++ chunk).length chunk.length + ·)
      = memmem (old ++ chunk) CRLFCRLF := by
  symm
  apply memmem_drop
  intro q hq hh
  have hlen : CRLFCRLF.length = 4 := by decide
  rw [memmem_eq_none_iff] at h
  refine h q (prefix_drop_of_append hh ?_)
  rw [hlen]
  simp only [parse_haystack, List.length_append, Nat.add_sub_cancel] at hq
  split at hq <;> omega

theorem take_succ_set (x : octet) : ∀ (l : List octet) (n : Nat), n < l.length →
    (l.take (n + 1)).set n x = l.take n ++ [x]
  | [], n, h => by simp at h
  | y :: ys, 0, _ => by simp
  | y :: ys, n + 1, h => by
    simp only [List.take_succ_cons, List.set_cons_succ, List.cons_append, List.cons.injEq,
      true_and]
    exact take_succ_set x ys n (by simpa using h)

theorem take_add_of_prefix {t l : List octet} {p : Nat} (h : t <+: l.drop p) :
    l.take (p + t.length) = l.take p ++ t := by
  rw [List.take_add]
  congr 1
  exact (List.prefix_iff_eq_take.1 h).symm

/-! ## Properties of `error` -/

theorem sendAll_wscript_nil : ∀ (ws : List (List octet)) (c : Conn), c.wscript = [] →
    sendAll ws c = (true, { c with output := c.output ++ ws.flatten })
  | [], c, _ => by simp [sendAll]
  | bs :: ws, c, h => by
    rw [sendAll, send, h]
    simp only
    rw [sendAll_wscript_nil ws _ rfl]
    simp [List.append_assoc]

theorem send_input (bs : List octet) (c : Conn) (i : List ReadResult) :
    send bs { c with input := i } = ((send bs c).1, { (send bs c).2 with input := i }) := by
  unfold send
  cases hw : c.wscript with
  | nil => simp
  | cons b ws => cases b <;> simp

theorem sendAll_input : ∀ (ws : List (List octet)) (c : Conn) (i : List ReadResult),
    sendAll ws { c with input := i } = ((sendAll ws c).1, { (sendAll ws c).2 with input := i })
  | [], c, i => by simp [sendAll]
  | bs :: ws, c, i => by
    rw [sendAll, sendAll, send_input]
    cases hs : send bs c with
    | mk b c1 =>
      cases b
      · simp
      · simp only
        exact sendAll_input ws c1 i

/-- The octets `error` writes depend neither on the pending reads nor on the
request buffer. -/
theorem error_output_input (code : Nat) (s : Server) (c : Conn) (i : List ReadResult)
    (r : Option (List octet)) :
    (error code { s with cfd := some { c with input := i }, request := r }).2.cfd.map (·.output)
      = (error code { s with cfd := some c }).2.cfd.map (·.output) := by
  unfold error
  simp only
  split
  · rfl
  · cases phrase code with
    | none => rfl
    | some phr => simp only [sendAll_input]; rfl

/-- When every write succeeds `error` appends the whole response. -/
theorem error_wscript_nil (code : Nat) (phr : List octet) (s : Server) (c : Conn)
    (hc : s.cfd = some c) (hw : c.wscript = []) (h1 : 400 ≤ code) (h2 : code ≤ 599)
    (hp : phrase code = some phr) :
    error code s =
      (true, { s with cfd := some { c with output := c.output ++ (errorWrites code phr).flatten } }) := by
  unfold error
  rw [hc]
  simp only
  rw [if_neg (by omega), hp]
  simp only
  rw [sendAll_wscript_nil _ _ hw]

set_option maxRecDepth 100000 in
theorem errorWrites_413 : (errorWrites 413 (bytes "Request Entity Too Large")).flatten =
    bytes "HTTP/1.1 413 Request Entity Too Large\r\nConnection: close\r\nContent-Length: 119\r\nContent-Type: text/html\r\n\r\n<html><head><title>413 Request Entity Too Large</title></head><body><h1>413 Request Entity Too Large</h1></body></html>" := by
  decide

/-! ## Properties of `parse` -/

theorem limit_eq : LimitRequestLine + LimitRequestFields * LimitRequestFieldSize = 212890 := by
  decide

/-- One iteration of the loop of `parse` on a read of at least one octet, in
terms of a search of the whole buffer. -/
theorem parseLoop_octets (chunk : List octet) (rest : List ReadResult) (c : Conn)
    (request : Option (List octet)) (s : Server)
    (hnone : memmem (request.getD []) CRLFCRLF = none) (hpos : chunk ≠ []) :
    parseLoop (ReadResult.octets chunk :: rest) c request s =
      match memmem (request.getD [] ++ chunk) CRLFCRLF with
      | some p =>
        (((p + 3 : Nat) : Int),
          { s with cfd := some { c with input := rest },
                   request := some ((request.getD [] ++ chunk).take p ++ [13, 10, 0]) })
      | none =>
        if 212891 ≤ (request.getD [] ++ chunk).length then
          (-1, (error 413 { s with cfd := some { c with input := rest },
                                   request := some (request.getD [] ++ chunk) }).2)
        else parseLoop rest c (some (request.getD [] ++ chunk)) s := by
  have hlen : 0 < chunk.length := List.length_pos.2 hpos
  have hw := memmem_window (request.getD []) chunk hnone
  rw [parseLoop]
  simp only [gt_iff_lt, hlen, if_true, limit_eq]
  generalize hk : parse_haystack (request.getD [] ++ chunk).length chunk.length = k at hw ⊢
  cases hm : memmem ((request.getD [] ++ chunk).drop k) CRLFCRLF with
  | none =>
    rw [hm] at hw
    simp only [Option.map_none'] at hw
    rw [← hw]
    simp only [ge_iff_le]
    have : (212890 ≤ (request.getD [] ++ chunk).length - 1) ↔
        (212891 ≤ (request.getD [] ++ chunk).length) := by omega
    simp only [this]
  | some n =>
    rw [hm] at hw
    simp only [Option.map_some'] at hw
    rw [← hw]
    simp only
    have hp := (memmem_eq_some_iff _ _ _).1 hw.symm
    have hl := prefix_drop_length hp.1 (by decide)
    have h4 : CRLFCRLF.length = 4 := by decide
    rw [h4] at hl
    have e1 : k + n + 2 + 1 - 1 = k + n + 2 := by omega
    rw [e1, take_succ_set 0 _ (k + n + 2) (by omega)]
    have e2 : (request.getD [] ++ chunk).take (k + n + 2) =
        (request.getD [] ++ chunk).take (k + n) ++ [13, 10] := by
      have hpre : [13, 10] <+: (request.getD [] ++ chunk).drop (k + n) :=
        List.IsPrefix.trans (by rw [CRLFCRLF_eq]; exact ⟨[13, 10], rfl⟩) hp.1
      exact take_add_of_prefix hpre
    rw [e2]
    simp [Nat.add_assoc]

theorem memmem_none_of_append {a b t : List octet} (ht : t ≠ [])
    (h : memmem (a ++ b) t = none) : memmem a t = none := by
  cases hm : memmem a t with
  | none => rfl
  | some p => rw [memmem_append_of_some b ht hm] at h; cases h

theorem CRLFCRLF_ne_nil : CRLFCRLF ≠ [] := by decide

/-- Reads that leave the buffer unterminated and within the limit only
accumulate. -/
theorem parseLoop_accumulate (c : Conn) (s : Server) (tail : List ReadResult) :
    ∀ (pre : List (List octet)) (request : Option (List octet)),
      (∀ ch ∈ pre, ch ≠ []) →
      memmem (request.getD [] ++ pre.flatten) CRLFCRLF = none →
      (request.getD [] ++ pre.flatten).length ≤ 212890 →
      ∃ req, req.getD [] = request.getD [] ++ pre.flatten ∧ (pre = [] → req = request) ∧
        parseLoop (pre.map ReadResult.octets ++ tail) c request s = parseLoop tail c req s
  | [], request, _, _, _ => ⟨request, by simp, fun _ => rfl, rfl⟩
  | ch :: pre, request, hne, hnone, hlen => by
    have hch : ch ≠ [] := hne ch (List.mem_cons_self _ _)
    rw [List.flatten_cons, ← List.append_assoc] at hnone hlen
    have hnone1 := memmem_none_of_append CRLFCRLF_ne_nil hnone
    have hnone0 := memmem_none_of_append CRLFCRLF_ne_nil hnone1
    have hlen1 : ¬ 212891 ≤ (request.getD [] ++ ch).length := by
      rw [List.length_append] at hlen; omega
    obtain ⟨req, h1, _, h3⟩ := parseLoop_accumulate c s tail pre (some (request.getD [] ++ ch))
      (fun x hx => hne x (List.mem_cons_of_mem _ hx)) hnone hlen
    refine ⟨req, ?_, ?_, ?_⟩
    · rw [h1]; simp [List.append_assoc]
    · intro h; cases h
    · rw [List.map_cons, List.cons_append, parseLoop_octets ch _ c request s hnone0 hch, hnone1]
      simp only [if_neg hlen1]
      exact h3

/-- The terminator lies within the first 212891 octets: `parse` succeeds. -/
theorem parseLoop_found (c : Conn) (s : Server) (tail : List ReadResult) (p : Nat)
    (hp : p + 4 ≤ 212891) :
    ∀ (cs : List (List octet)) (request : Option (List octet)),
      (∀ ch ∈ cs, ch ≠ []) →
      memmem (request.getD []) CRLFCRLF = none →
      memmem (request.getD [] ++ cs.flatten) CRLFCRLF = some p →
      ∃ rest, parseLoop (cs.map ReadResult.octets ++ tail) c request s =
        (((p + 3 : Nat) : Int),
          { s with cfd := some { c with input := rest },
                   request := some ((request.getD [] ++ cs.flatten).take p ++ [13, 10, 0]) })
  | [], request, _, hnone, hsome => by
    rw [List.flatten_nil, List.append_nil, hnone] at hsome; cases hsome
  | ch :: cs, request, hne, hnone, hsome => by
    have hch : ch ≠ [] := hne ch (List.mem_cons_self _ _)
    have h4 : CRLFCRLF.length = 4 := by decide
    rw [List.flatten_cons, ← List.append_assoc] at hsome
    rw [List.map_cons, List.cons_append, parseLoop_octets ch _ c request s hnone hch]
    cases hm : memmem (request.getD [] ++ ch) CRLFCRLF with
    | some q =>
      have hq := memmem_append_of_some cs.flatten CRLFCRLF_ne_nil hm
      rw [hsome] at hq
      cases hq
      have hl := memmem_some_length CRLFCRLF_ne_nil hm
      rw [h4] at hl
      refine ⟨cs.map ReadResult.octets ++ tail, ?_⟩
      have e : (request.getD [] ++ ch ++ cs.flatten).take p = (request.getD [] ++ ch).take p :=
        List.take_append_of_le_length (by omega)
      simp only
      rw [List.flatten_cons, ← List.append_assoc, e]
    | none =>
      simp only
      by_cases hlim : 212891 ≤ (request.getD [] ++ ch).length
      · have := memmem_of_append hsome (by rw [h4]; omega)
        rw [hm] at this; cases this
      · rw [if_neg hlim]
        obtain ⟨rest, hr⟩ := parseLoop_found c s tail p hp cs (some (request.getD [] ++ ch))
          (fun x hx => hne x (List.mem_cons_of_mem _ hx)) hm hsome
        refine ⟨rest, ?_⟩
        rw [hr]
        simp [List.append_assoc]

/-- No terminator within the first 213402 octets, and more than 212890
octets: `parse` calls `error(413)`. -/
theorem parseLoop_too_large (c : Conn) (s : Server) (tail : List ReadResult) :
    ∀ (cs : List (List octet)) (request : Option (List octet)),
      (∀ ch ∈ cs, ch ≠ []) →
      memmem (request.getD []) CRLFCRLF = none →
      (request.getD []).length ≤ 212890 →
      212891 ≤ (request.getD [] ++ cs.flatten).length →
      (∀ p, memmem (request.getD [] ++ cs.flatten) CRLFCRLF = some p →
        213402 < p + 4 ∧ ∀ ch ∈ cs, ch.length ≤ 512) →
      ∃ rest req, parseLoop (cs.map ReadResult.octets ++ tail) c request s =
        (-1, (error 413 { s with cfd := some { c with input := rest }, request := req }).2)
  | [], request, _, _, hle, hge, _ => by
    rw [List.flatten_nil, List.append_nil] at hge; omega
  | ch :: cs, request, hne, hnone, hle, hge, hlate => by
    have hch : ch ≠ [] := hne ch (List.mem_cons_self _ _)
    have h4 : CRLFCRLF.length = 4 := by decide
    rw [List.flatten_cons, ← List.append_assoc] at hge hlate
    rw [List.map_cons, List.cons_append, parseLoop_octets ch _ c request s hnone hch]
    cases hm : memmem (request.getD [] ++ ch) CRLFCRLF with
    | some q =>
      have hq := memmem_append_of_some cs.flatten CRLFCRLF_ne_nil hm
      have hl := memmem_some_length CRLFCRLF_ne_nil hm
      rw [h4, List.length_append] at hl
      obtain ⟨h1, h2⟩ := hlate q hq
      have := h2 ch (List.mem_cons_self _ _)
      omega
    | none =>
      simp only
      by_cases hlim : 212891 ≤ (request.getD [] ++ ch).length
      · rw [if_pos hlim]
        exact ⟨_, _, rfl⟩
      · rw [if_neg hlim]
        exact parseLoop_too_large c s tail cs (some (request.getD [] ++ ch))
          (fun x hx => hne x (List.mem_cons_of_mem _ hx)) hm (by simp only [Option.getD_some]; omega)
          hge (fun p hp => ⟨(hlate p hp).1, fun x hx => (hlate p hp).2 x (List.mem_cons_of_mem _ hx)⟩)

/-- `parse` on a fresh request, in terms of its loop. -/
theorem parse_eq_parseLoop (s : Server) (c : Conn) (hc : s.cfd = some c)
    (hreq : s.request = none) : parse s = parseLoop c.input c none s := by
  unfold parse
  rw [hc]
  simp only [hreq, Option.isSome_none, Bool.false_eq_true, if_false]

/-- After reads `pre` that leave the buffer unterminated and within the
limit, a read `chunk` that completes the terminator makes `parse` return. -/
theorem parse_found_at_read (pre : List (List octet)) (chunk : List octet)
    (rest : List ReadResult) (c : Conn) (s : Server) (p : Nat)
    (hpre : ∀ ch ∈ pre, ch ≠ []) (hchunk : chunk ≠ [])
    (hold : memmem pre.flatten CRLFCRLF = none) (hlen : pre.flatten.length ≤ 212890)
    (hc : s.cfd = some c) (hreq : s.request = none)
    (hin : c.input = (pre ++ [chunk]).map ReadResult.octets ++ rest)
    (hp : memmem (pre.flatten ++ chunk) CRLFCRLF = some p) :
    parse s = (((p + 3 : Nat) : Int),
      { s with cfd := some { c with input := rest },
               request := some ((pre.flatten ++ chunk).take p ++ [13, 10, 0]) }) := by
  rw [parse_eq_parseLoop s c hc hreq, hin]
  simp only [List.map_append, List.map_cons, List.map_nil, List.append_assoc,
    List.singleton_append]
  obtain ⟨req, h1, _, h3⟩ := parseLoop_accumulate c s (ReadResult.octets chunk :: rest) pre none
    hpre (by simpa using hold) (by simpa using hlen)
  rw [h3]
  simp only [Option.getD_none, List.nil_append] at h1
  rw [parseLoop_octets chunk rest c req s (by rw [h1]; exact hold) hchunk, h1, hp]

/-- After reads `pre` that leave the buffer unterminated and within the
limit, a read `ch` that takes the buffer, still unterminated, beyond 212890
octets makes `parse` call `error(413)`. -/
theorem parse_too_large_at_read (pre : List (List octet)) (ch : List octet)
    (rest : List ReadResult) (c : Conn) (s : Server)
    (hpre : ∀ x ∈ pre, x ≠ []) (hch : ch ≠ [])
    (hnone : memmem (pre.flatten ++ ch) CRLFCRLF = none)
    (hlen : pre.flatten.length ≤ 212890) (hbig : 212891 ≤ (pre.flatten ++ ch).length)
    (hc : s.cfd = some c) (hreq : s.request = none)
    (hin : c.input = (pre ++ [ch]).map ReadResult.octets ++ rest) :
    parse s = (-1, (error 413 { s with cfd := some { c with input := rest },
                                       request := some (pre.flatten ++ ch) }).2) := by
  rw [parse_eq_parseLoop s c hc hreq, hin]
  simp only [List.map_append, List.map_cons, List.map_nil, List.append_assoc,
    List.singleton_append]
  obtain ⟨req, h1, _, h3⟩ := parseLoop_accumulate c s (ReadResult.octets ch :: rest) pre none
    hpre (by simpa using memmem_none_of_append CRLFCRLF_ne_nil hnone) (by simpa using hlen)
  simp only [Option.getD_none, List.nil_append] at h1
  rw [h3, parseLoop_octets ch rest c req s
    (by rw [h1]; exact memmem_none_of_append CRLFCRLF_ne_nil hnone) hch, h1, hnone]
  simp only [if_pos hbig]

/-! ## The claims about `parse` -/

/-- C1: in `parse`, for every buffer `old` that contained no CRLF CRLF before
the current read and every newly read non-empty chunk, the search window
starts `min 3 old.length` octets before the new chunk, and searching only that
window finds CRLF CRLF exactly when a search of the whole accumulated buffer
does, at the same first position; hence for every way `pre` of splitting the
octets of `old` into earlier non-empty reads (the buffer still within the size
limit), `parse` returns at this read, with the buffer cut after the first
CRLF of the terminator, as soon as the accumulated buffer contains the
terminator. -/
theorem parse_window_search (old chunk : List octet)
    (hold : memmem old CRLFCRLF = none) (hchunk : chunk ≠ []) :
    parse_haystack (old ++ chunk).length chunk.length = old.length - min 3 old.length
    ∧ (memmem ((old ++ chunk).drop (parse_haystack (old ++ chunk).length chunk.length))
          CRLFCRLF).map (parse_haystack (old ++ chunk).length chunk.length + ·)
        = memmem (old ++ chunk) CRLFCRLF
    ∧ ∀ (pre : List (List octet)) (rest : List ReadResult) (c : Conn) (s : Server) (p : Nat),
        (∀ ch ∈ pre, ch ≠ []) → pre.flatten = old → old.length ≤ 212890 →
        s.cfd = some c → s.request = none →
        c.input = (pre ++ [chunk]).map ReadResult.octets ++ rest →
        memmem (old ++ chunk) CRLFCRLF = some p →
        parse s = (((p + 3 : Nat) : Int),
          { s with cfd := some { c with input := rest },
                   request := some ((old ++ chunk).take p ++ [13, 10, 0]) }) := by
  refine ⟨?_, memmem_window old chunk hold, ?_⟩
  · simp only [parse_haystack, List.length_append, Nat.add_sub_cancel]
    split <;> omega
  · intro pre rest c s p hpre hflat hlen hc hreq hin hp
    subst hflat
    exact parse_found_at_read pre chunk rest c s p hpre hchunk hold hlen hc hreq hin hp

/-- C1, at a terminator that straddles two reads. -/
theorem parse_window_search_witness :
    memmem (bytes "GET / HTTP/1.1\r\n\r" ++ bytes "\n") CRLFCRLF = some 14
    ∧ (memmem ((bytes "GET / HTTP/1.1\r\n\r" ++ bytes "\n").drop 14) CRLFCRLF).map (14 + ·)
        = some 14 := by
  have h := parse_window_search (bytes "GET / HTTP/1.1\r\n\r") (bytes "\n") (by decide) (by decide)
  have e : parse_haystack (bytes "GET / HTTP/1.1\r\n\r" ++ bytes "\n").length (bytes "\n").length
      = 14 := by decide
  have h2 := h.2.1
  rw [e] at h2
  have e2 : memmem (bytes "GET / HTTP/1.1\r\n\r" ++ bytes "\n") CRLFCRLF = some 14 := by decide
  exact ⟨e2, h2.trans e2⟩

/-- Whenever the loop of `parse` succeeds, it has found the first terminator
of the octets received and returns the octets before it, CRLF and NUL. -/
theorem parseLoop_success (c : Conn) (s : Server) :
    ∀ (input : List ReadResult) (request : Option (List octet)),
      memmem (request.getD []) CRLFCRLF = none →
      (parseLoop input c request s).1 ≠ -1 →
      ∃ p, memmem (request.getD [] ++ received input) CRLFCRLF = some p
        ∧ (parseLoop input c request s).1 = ((p + 3 : Nat) : Int)
        ∧ (parseLoop input c request s).2.request
            = some ((request.getD [] ++ received input).take p ++ [13, 10, 0])
  | [], request, _, h => by simp [parseLoop] at h
  | ReadResult.error :: rest, request, _, h => by simp [parseLoop] at h
  | ReadResult.octets chunk :: rest, request, hnone, h => by
    by_cases hch : chunk = []
    · subst hch; simp [parseLoop] at h
    · have h4 : CRLFCRLF.length = 4 := by decide
      rw [parseLoop_octets chunk rest c request s hnone hch] at h ⊢
      simp only [received, if_neg hch]
      cases hm : memmem (request.getD [] ++ chunk) CRLFCRLF with
      | some q =>
        have hl := memmem_some_length CRLFCRLF_ne_nil hm
        rw [h4] at hl
        refine ⟨q, ?_, rfl, ?_⟩
        · rw [← List.append_assoc]
          exact memmem_append_of_some _ CRLFCRLF_ne_nil hm
        · have e : (request.getD [] ++ chunk ++ received rest).take q
              = (request.getD [] ++ chunk).take q :=
            List.take_append_of_le_length (by omega)
          simp only
          rw [← List.append_assoc, e]
      | none =>
        rw [hm] at h
        simp only at h ⊢
        by_cases hlim : 212891 ≤ (request.getD [] ++ chunk).length
        · rw [if_pos hlim] at h; simp at h
        · rw [if_neg hlim] at h ⊢
          obtain ⟨p, h1, h2, h3⟩ := parseLoop_success c s rest (some (request.getD [] ++ chunk))
            hm h
          simp only [Option.getD_some, List.append_assoc] at h1 h3
          exact ⟨p, h1, h2, h3⟩

/-- C2 (as amended): for every byte stream on which `parse` finds the
terminator, the returned buffer is exactly the stream's octets before its
first CRLF CRLF (the request line and every header line), followed by one
CRLF and a NUL octet, and nothing else. -/
theorem parse_buffer_on_success (s : Server) (c : Conn) (hc : s.cfd = some c)
    (hok : (parse s).1 ≠ -1) :
    ∃ p, memmem (received c.input) CRLFCRLF = some p
      ∧ (parse s).2.request = some ((received c.input).take p ++ bytes "\r\n" ++ [0]) := by
  unfold parse at hok ⊢
  rw [hc] at hok ⊢
  simp only at hok ⊢
  by_cases hr : s.request.isSome = true
  · rw [if_pos hr] at hok; simp at hok
  · rw [if_neg hr] at hok ⊢
    obtain ⟨p, h1, _, h3⟩ := parseLoop_success c s c.input none (by decide) hok
    simp only [Option.getD_none, List.nil_append] at h1 h3
    refine ⟨p, h1, ?_⟩
    rw [h3]
    have : bytes "\r\n" = [13, 10] := by decide
    rw [this]
    simp

/-- C2 (as amended), on a request with one header line. -/
theorem parse_buffer_on_success_witness :
    ∃ p, memmem (bytes "GET / HTTP/1.1\r\nHost: x\r\n\r\n") CRLFCRLF = some p
      ∧ (parse (accepted [ReadResult.octets (bytes "GET / HTTP/1.1\r\nHost: x\r\n\r\n")])).2.request
          = some ((bytes "GET / HTTP/1.1\r\nHost: x\r\n\r\n").take p ++ bytes "\r\n" ++ [0]) :=
  parse_buffer_on_success
    (accepted [ReadResult.octets (bytes "GET / HTTP/1.1\r\nHost: x\r\n\r\n")])
    ⟨[ReadResult.octets (bytes "GET / HTTP/1.1\r\nHost: x\r\n\r\n")], [], []⟩ rfl (by decide)

/-- C2, refuted as stated: on a request with a header line the buffer that
`parse` returns holds the header line too, not only the request line and its
CRLF. -/
theorem parse_buffer_keeps_headers :
    (parse (accepted [ReadResult.octets (bytes "GET / HTTP/1.1\r\nHost: x\r\n\r\n")])).2.request
      = some (bytes "GET / HTTP/1.1\r\nHost: x\r\n" ++ [0])
    ∧ (parse (accepted [ReadResult.octets (bytes "GET / HTTP/1.1\r\nHost: x\r\n\r\n")])).2.request
      ≠ some (bytes "GET / HTTP/1.1\r\n" ++ [0]) := by
  constructor <;> decide

theorem phrase_413 : phrase 413 = some (bytes "Request Entity Too Large") := by decide

/-- The 413 response of `error`, every write succeeding, whatever the pending
reads and the request buffer. -/
theorem error_413_output (s : Server) (c : Conn) (i : List ReadResult)
    (r : Option (List octet)) (hw : c.wscript = []) :
    (error 413 { s with cfd := some { c with input := i }, request := r }).2.cfd.map (·.output)
      = some (c.output ++ bytes "HTTP/1.1 413 Request Entity Too Large\r\nConnection: close\r\nContent-Length: 119\r\nContent-Type: text/html\r\n\r\n<html><head><title>413 Request Entity Too Large</title></head><body><h1>413 Request Entity Too Large</h1></body></html>") := by
  rw [error_wscript_nil 413 _ _ { c with input := i } rfl hw (by omega) (by omega) phrase_413,
    errorWrites_413]
  rfl

/-- An unterminated request read to its end: `parse` returns -1, and the 413
response is written exactly when more than 212890 octets were sent. -/
theorem parse_unterminated (cs : List (List octet)) (s : Server) (c : Conn)
    (hne : ∀ ch ∈ cs, ch ≠ []) (hnone : memmem cs.flatten CRLFCRLF = none)
    (hc : s.cfd = some c) (hreq : s.request = none)
    (hin : c.input = cs.map ReadResult.octets) (hw : c.wscript = []) :
    (parse s).1 = -1
    ∧ (parse s).2.cfd.map (·.output) = some
        (if 212891 ≤ cs.flatten.length then
          c.output ++ bytes "HTTP/1.1 413 Request Entity Too Large\r\nConnection: close\r\nContent-Length: 119\r\nContent-Type: text/html\r\n\r\n<html><head><title>413 Request Entity Too Large</title></head><body><h1>413 Request Entity Too Large</h1></body></html>"
        else c.output) := by
  unfold parse
  rw [hc]
  simp only [hreq, Option.isSome_none, Bool.false_eq_true, if_false, hin]
  by_cases hlim : 212891 ≤ cs.flatten.length
  · rw [if_pos hlim]
    obtain ⟨rest, req, h⟩ := parseLoop_too_large c s [] cs none hne (by decide) (by simp)
      (by simpa using hlim) (by intro p hp; simp only [Option.getD_none, List.nil_append] at hp
                                rw [hnone] at hp; cases hp)
    rw [List.append_nil] at h
    rw [h]
    exact ⟨rfl, error_413_output s c rest req hw⟩
  · rw [if_neg hlim]
    obtain ⟨req, _, _, h⟩ := parseLoop_accumulate c s [] cs none hne (by simpa using hnone)
      (by simp only [Option.getD_none, List.nil_append]; omega)
    rw [List.append_nil] at h
    rw [h]
    simp [parseLoop]

/-- The read at which the buffer of an unterminated request first exceeds
212890 octets is the last one of `parse`. -/
theorem parse_unterminated_stops (pre post : List (List octet)) (ch : List octet) (s : Server)
    (c : Conn) (hne : ∀ x ∈ pre ++ ch :: post, x ≠ [])
    (hnone : memmem (pre.flatten ++ ch) CRLFCRLF = none)
    (hc : s.cfd = some c) (hreq : s.request = none)
    (hin : c.input = (pre ++ ch :: post).map ReadResult.octets) (hw : c.wscript = [])
    (hpre : pre.flatten.length ≤ 212890) (hch : 212891 ≤ (pre.flatten ++ ch).length) :
    (parse s).2.cfd.map (·.input) = some (post.map ReadResult.octets) := by
  rw [parse_too_large_at_read pre ch (post.map ReadResult.octets) c s
    (fun x hx => hne x (List.mem_append_left _ hx)) (hne ch (by simp)) hnone hpre hch hc hreq
    (by rw [hin]; simp),
    error_wscript_nil 413 _ _ { c with input := post.map ReadResult.octets } rfl hw
    (by omega) (by omega) phrase_413]
  rfl

theorem memmem_none_of_not_mem {l : List octet} (h : 10 ∉ l) : memmem l CRLFCRLF = none := by
  rw [memmem_eq_none_iff]
  intro q hq
  apply h
  apply List.mem_of_mem_drop (n := q)
  apply hq.subset
  rw [CRLFCRLF_eq]
  simp

theorem chunks_flatten (k m n : Nat) (x : octet) :
    (List.replicate k (List.replicate m x) ++ [List.replicate n x]).flatten
      = List.replicate (k * m + n) x := by
  rw [List.flatten_append, List.flatten_replicate_replicate, List.replicate_add,
    List.flatten_cons, List.flatten_nil, List.append_nil]

theorem replicate_ne_nil (n : Nat) (x : octet) (hn : 0 < n) : List.replicate n x ≠ [] := by
  intro h
  have := congrArg List.length h
  rw [List.length_replicate, List.length_nil] at this
  omega

theorem longRequest_flatten (n : Nat) :
    (longRequest n).flatten = List.replicate (415 * 512 + n) 97 :=
  chunks_flatten 415 512 n 97

theorem longRequest_length (n : Nat) : (longRequest n).flatten.length = 212480 + n := by
  rw [longRequest_flatten, List.length_replicate]

theorem longRequest_ne_nil (n : Nat) (hn : 0 < n) : ∀ ch ∈ longRequest n, ch ≠ [] := by
  intro ch h
  rw [longRequest, List.mem_append, List.mem_replicate, List.mem_singleton] at h
  rcases h with ⟨_, h⟩ | h
  · rw [h]; exact replicate_ne_nil 512 97 (by omega)
  · rw [h]; exact replicate_ne_nil n 97 hn

theorem longRequest_unterminated (n : Nat) : memmem (longRequest n).flatten CRLFCRLF = none := by
  rw [longRequest_flatten]
  apply memmem_none_of_not_mem
  intro h
  exact absurd (List.mem_replicate.1 h).2 (by decide)

/-- C3 (as amended): for every unterminated request (no CRLF CRLF among the
octets sent, read in non-empty chunks until the peer closes), `parse` fails; it
fails with status 413 exactly when the total accumulated length reaches
8190 + 50*4094 + 1 = 212891 octets, at the very read at which the length
first reaches 212891, and not while the total is 212890 octets or fewer. -/
theorem parse_too_large_boundary (cs : List (List octet)) (s : Server) (c : Conn)
    (hne : ∀ ch ∈ cs, ch ≠ []) (hnone : memmem cs.flatten CRLFCRLF = none)
    (hc : s.cfd = some c) (hreq : s.request = none)
    (hin : c.input = cs.map ReadResult.octets) (hw : c.wscript = []) :
    (parse s).1 = -1
    ∧ (parse s).2.cfd.map (·.output) = some
        (if LimitRequestLine + LimitRequestFields * LimitRequestFieldSize + 1 ≤ cs.flatten.length
        then
          c.output ++ bytes "HTTP/1.1 413 Request Entity Too Large\r\nConnection: close\r\nContent-Length: 119\r\nContent-Type: text/html\r\n\r\n<html><head><title>413 Request Entity Too Large</title></head><body><h1>413 Request Entity Too Large</h1></body></html>"
        else c.output)
    ∧ ∀ (pre post : List (List octet)) (ch : List octet), cs = pre ++ ch :: post →
        pre.flatten.length ≤ 212890 → 212891 ≤ (pre.flatten ++ ch).length →
        (parse s).2.cfd.map (·.input) = some (post.map ReadResult.octets) := by
  obtain ⟨h1, h2⟩ := parse_unterminated cs s c hne hnone hc hreq hin hw
  rw [limit_eq]
  refine ⟨h1, h2, ?_⟩
  intro pre post ch hcs hpre hch
  subst hcs
  refine parse_unterminated_stops pre post ch s c hne ?_ hc hreq hin hw hpre hch
  rw [List.flatten_append, List.flatten_cons, ← List.append_assoc] at hnone
  exact memmem_none_of_append CRLFCRLF_ne_nil hnone

/-- C3 (as amended), at 212891 octets: the 413 response is written. -/
theorem parse_too_large_boundary_witness :
    (parse (accepted ((longRequest 411).map ReadResult.octets))).1 = -1
    ∧ (parse (accepted ((longRequest 411).map ReadResult.octets))).2.cfd.map (·.output) = some
        (bytes "HTTP/1.1 413 Request Entity Too Large\r\nConnection: close\r\nContent-Length: 119\r\nContent-Type: text/html\r\n\r\n<html><head><title>413 Request Entity Too Large</title></head><body><h1>413 Request Entity Too Large</h1></body></html>") := by
  have h := parse_too_large_boundary (longRequest 411)
    (accepted ((longRequest 411).map ReadResult.octets))
    ⟨(longRequest 411).map ReadResult.octets, [], []⟩
    (longRequest_ne_nil 411 (by omega)) (longRequest_unterminated 411) rfl rfl rfl rfl
  refine ⟨h.1, ?_⟩
  have h2 := h.2.1
  rw [limit_eq, longRequest_length, if_pos (by omega)] at h2
  exact h2

/-- C3, refuted as stated: an unterminated request whose accumulated length
reaches 8190 + 50*4094 = 212890 octets does not get the 413 response;
nothing is written. -/
theorem parse_no_413_at_212890 :
    (longRequest 410).flatten.length = 8190 + 50 * 4094
    ∧ memmem (longRequest 410).flatten CRLFCRLF = none
    ∧ (parse (accepted ((longRequest 410).map ReadResult.octets))).1 = -1
    ∧ (parse (accepted ((longRequest 410).map ReadResult.octets))).2.cfd.map (·.output)
        = some [] := by
  have h := parse_unterminated (longRequest 410)
    (accepted ((longRequest 410).map ReadResult.octets))
    ⟨(longRequest 410).map ReadResult.octets, [], []⟩
    (longRequest_ne_nil 410 (by omega)) (longRequest_unterminated 410) rfl rfl rfl rfl
  refine ⟨?_, longRequest_unterminated 410, h.1, ?_⟩
  · rw [longRequest_length]
  · have h2 := h.2
    rw [longRequest_length, if_neg (by omega)] at h2
    exact h2

theorem memmem_append_terminator (a : List octet) (h : 13 ∉ a) :
    memmem (a ++ CRLFCRLF) CRLFCRLF = some a.length := by
  rw [memmem_eq_some_iff]
  constructor
  · rw [List.drop_left]
  · intro q hq hpre
    rw [List.drop_append_of_le_length (by omega)] at hpre
    have hne : a.drop q ≠ [] := by
      intro h0
      have := congrArg List.length h0
      rw [List.length_drop, List.length_nil] at this
      omega
    obtain ⟨x, xs, hx⟩ := List.exists_cons_of_ne_nil hne
    rw [hx, CRLFCRLF_eq, List.cons_append, List.cons_prefix_cons] at hpre
    apply h
    apply List.mem_of_mem_drop (n := q)
    rw [hx, hpre.1]
    exact List.mem_cons_self _ _

/-- C4 (as amended): the outcome of `parse` (the same trimmed buffer, or 413
in both, or connection-closed in both) is the same for any two ways of
splitting a request byte stream into reads of 1..512 octets, provided the
first CRLF CRLF of the stream, if there is one, ends within the first 212891
octets or after the first 213402 octets. -/
theorem parse_split_independent (cs1 cs2 : List (List octet)) (s : Server) (c : Conn)
    (h1 : ∀ ch ∈ cs1, ch ≠ [] ∧ ch.length ≤ 512) (h2 : ∀ ch ∈ cs2, ch ≠ [] ∧ ch.length ≤ 512)
    (hsame : cs1.flatten = cs2.flatten) (hreq : s.request = none)
    (hwin : ∀ p, memmem cs1.flatten CRLFCRLF = some p → p + 4 ≤ 212891 ∨ 213402 < p + 4) :
    parseOutcome (parse { s with cfd := some { c with input := cs1.map ReadResult.octets } })
      = parseOutcome
          (parse { s with cfd := some { c with input := cs2.map ReadResult.octets } }) := by
  have h4 : CRLFCRLF.length = 4 := by decide
  -- the three outcomes, for any one split
  have found : ∀ (cs : List (List octet)) (p : Nat), (∀ ch ∈ cs, ch ≠ [] ∧ ch.length ≤ 512) →
      memmem cs.flatten CRLFCRLF = some p → p + 4 ≤ 212891 →
      parseOutcome (parse { s with cfd := some { c with input := cs.map ReadResult.octets } })
        = (((p + 3 : Nat) : Int), some (cs.flatten.take p ++ [13, 10, 0]), some c.output) := by
    intro cs p hcs hp hle
    rw [parse_eq_parseLoop { s with cfd := some { c with input := cs.map ReadResult.octets } }
      { c with input := cs.map ReadResult.octets } rfl hreq]
    obtain ⟨rest, hr⟩ := parseLoop_found { c with input := cs.map ReadResult.octets }
      { s with cfd := some { c with input := cs.map ReadResult.octets } } [] p hle cs none
      (fun ch hch => (hcs ch hch).1) (by decide) (by simpa using hp)
    rw [List.append_nil] at hr
    rw [hr]
    have hne : ((p + 3 : Nat) : Int) ≠ -1 := by omega
    simp only [parseOutcome, if_neg hne, Option.map_some', Option.getD_none, List.nil_append]
  have large : ∀ (cs : List (List octet)), (∀ ch ∈ cs, ch ≠ [] ∧ ch.length ≤ 512) →
      212891 ≤ cs.flatten.length →
      (∀ p, memmem cs.flatten CRLFCRLF = some p → 213402 < p + 4) →
      parseOutcome (parse { s with cfd := some { c with input := cs.map ReadResult.octets } })
        = (-1, none, (error 413 { s with cfd := some c }).2.cfd.map (·.output)) := by
    intro cs hcs hbig hlate
    rw [parse_eq_parseLoop { s with cfd := some { c with input := cs.map ReadResult.octets } }
      { c with input := cs.map ReadResult.octets } rfl hreq]
    obtain ⟨rest, req, hr⟩ := parseLoop_too_large { c with input := cs.map ReadResult.octets }
      { s with cfd := some { c with input := cs.map ReadResult.octets } } [] cs none
      (fun ch hch => (hcs ch hch).1) (by decide) (by simp) (by simpa using hbig)
      (fun p hp => ⟨hlate p (by simpa using hp), fun ch hch => (hcs ch hch).2⟩)
    rw [List.append_nil] at hr
    rw [hr]
    simp only [parseOutcome, if_true]
    exact congrArg (fun o => ((-1 : Int), (none : Option (List octet)), o))
      (error_output_input 413 s c rest req)
  have closed : ∀ (cs : List (List octet)), (∀ ch ∈ cs, ch ≠ [] ∧ ch.length ≤ 512) →
      cs.flatten.length ≤ 212890 → memmem cs.flatten CRLFCRLF = none →
      parseOutcome (parse { s with cfd := some { c with input := cs.map ReadResult.octets } })
        = (-1, none, some c.output) := by
    intro cs hcs hle hnone
    rw [parse_eq_parseLoop { s with cfd := some { c with input := cs.map ReadResult.octets } }
      { c with input := cs.map ReadResult.octets } rfl hreq]
    obtain ⟨req, _, _, hr⟩ := parseLoop_accumulate { c with input := cs.map ReadResult.octets }
      { s with cfd := some { c with input := cs.map ReadResult.octets } } [] cs none
      (fun ch hch => (hcs ch hch).1) (by simpa using hnone) (by simpa using hle)
    rw [List.append_nil] at hr
    rw [hr]
    simp [parseOutcome, parseLoop]
  cases hm : memmem cs1.flatten CRLFCRLF with
  | none =>
    by_cases hbig : 212891 ≤ cs1.flatten.length
    · rw [large cs1 h1 hbig (by intro p hp; rw [hm] at hp; cases hp),
        large cs2 h2 (hsame ▸ hbig) (by intro p hp; rw [← hsame, hm] at hp; cases hp)]
    · rw [closed cs1 h1 (by omega) hm, closed cs2 h2 (hsame ▸ (by omega)) (hsame ▸ hm)]
  | some p =>
    rcases hwin p hm with hle | hlate
    · rw [found cs1 p h1 hm hle, found cs2 p h2 (hsame ▸ hm) hle, hsame]
    · have hl := memmem_some_length CRLFCRLF_ne_nil hm
      rw [h4] at hl
      rw [large cs1 h1 (by omega) (by intro q hq; rw [hm] at hq; cases hq; exact hlate),
        large cs2 h2 (hsame ▸ (by omega))
          (by intro q hq; rw [← hsame, hm] at hq; cases hq; exact hlate)]

/-- C4 (as amended), on a request sent in one read and in two reads. -/
theorem parse_split_independent_witness :
    parseOutcome (parse (accepted [ReadResult.octets (bytes "GET / HTTP/1.1\r\n\r\n")]))
      = parseOutcome (parse (accepted
          [ReadResult.octets (bytes "GET / HTTP/1.1\r\n\r"), ReadResult.octets (bytes "\n")])) :=
  parse_split_independent [bytes "GET / HTTP/1.1\r\n\r\n"]
    [bytes "GET / HTTP/1.1\r\n\r", bytes "\n"] (accepted []) ⟨[], [], []⟩
    (by decide) (by decide) (by decide) rfl (by decide)

theorem splitA_flatten : splitA.flatten = List.replicate (415 * 512 + 410) 97 ++ CRLFCRLF := by
  rw [splitA, List.flatten_append, longRequest_flatten, CRLFCRLF_eq, List.flatten_cons,
    List.flatten_nil, List.append_nil]

theorem splitB_flatten : splitB.flatten = List.replicate (415 * 512 + 410) 97 ++ CRLFCRLF := by
  rw [splitB, List.flatten_append, List.flatten_replicate_replicate, CRLFCRLF_eq,
    List.flatten_cons, List.flatten_cons, List.flatten_nil, List.append_nil, List.replicate_add,
    List.append_assoc, List.append_assoc]
  rfl

theorem parse_splitA : (parse (accepted (splitA.map ReadResult.octets))).1 = 212893 := by
  have hp : memmem ((longRequest 410).flatten ++ [13, 10, 13, 10]) CRLFCRLF
      = some (415 * 512 + 410) := by
    have := memmem_append_terminator (List.replicate (415 * 512 + 410) 97)
      (fun h => absurd (List.mem_replicate.1 h).2 (by decide))
    rw [List.length_replicate] at this
    rw [longRequest_flatten, ← CRLFCRLF_eq]
    exact this
  rw [parse_found_at_read (longRequest 410) [13, 10, 13, 10] [] ⟨splitA.map ReadResult.octets, [], []⟩
    (accepted (splitA.map ReadResult.octets)) (415 * 512 + 410)
    (longRequest_ne_nil 410 (by omega)) (by decide) (longRequest_unterminated 410)
    (by rw [longRequest_length]) rfl rfl (by rw [List.append_nil]; rfl) hp]
  exact (by norm_num : ((415 * 512 + 410 + 3 : Nat) : Int) = 212893)

theorem parse_splitB : (parse (accepted (splitB.map ReadResult.octets))).1 = -1
    ∧ (parse (accepted (splitB.map ReadResult.octets))).2.cfd.map (·.output)
      = some (bytes "HTTP/1.1 413 Request Entity Too Large\r\nConnection: close\r\nContent-Length: 119\r\nContent-Type: text/html\r\n\r\n<html><head><title>413 Request Entity Too Large</title></head><body><h1>413 Request Entity Too Large</h1></body></html>") := by
  have hflat : (List.replicate 415 (List.replicate 512 (97 : octet))).flatten
      = List.replicate (415 * 512) 97 := List.flatten_replicate_replicate
  have hnone : memmem ((List.replicate 415 (List.replicate 512 (97 : octet))).flatten
      ++ (List.replicate 410 97 ++ [13])) CRLFCRLF = none := by
    apply memmem_none_of_not_mem
    rw [hflat]
    intro h
    rw [List.mem_append, List.mem_append, List.mem_replicate, List.mem_replicate,
      List.mem_singleton] at h
    rcases h with ⟨_, h⟩ | ⟨_, h⟩ | h <;> exact absurd h (by decide)
  rw [parse_too_large_at_read (List.replicate 415 (List.replicate 512 97))
    (List.replicate 410 97 ++ [13]) [ReadResult.octets [10, 13, 10]]
    ⟨splitB.map ReadResult.octets, [], []⟩ (accepted (splitB.map ReadResult.octets))
    (fun x hx => by rw [(List.mem_replicate.1 hx).2]; exact replicate_ne_nil 512 97 (by omega))
    (by intro h; have := congrArg List.length h
        rw [List.length_append, List.length_replicate] at this; simp at this)
    hnone (by rw [hflat, List.length_replicate]; omega)
    (by rw [hflat, List.length_append, List.length_append, List.length_replicate,
          List.length_replicate, List.length_singleton])
    rfl rfl
    (by show List.map ReadResult.octets splitB = _
        rw [splitB]
        simp only [List.map_append, List.map_cons, List.map_nil, List.append_assoc,
          List.cons_append, List.nil_append])]
  exact ⟨rfl, error_413_output (accepted (splitB.map ReadResult.octets))
    ⟨splitB.map ReadResult.octets, [], []⟩ _ _ rfl⟩

/-- C4, refuted as stated: the same byte stream (212890 octets `a`, then
CRLF CRLF), split in two ways into reads of 1..512 octets, makes `parse`
succeed with one split and fail with 413 with the other. -/
theorem parse_outcome_depends_on_split :
    splitA.flatten = splitB.flatten
    ∧ (∀ ch ∈ splitA, 1 ≤ ch.length ∧ ch.length ≤ 512)
    ∧ (∀ ch ∈ splitB, 1 ≤ ch.length ∧ ch.length ≤ 512)
    ∧ (parse (accepted (splitA.map ReadResult.octets))).1 = 212893
    ∧ (parse (accepted (splitB.map ReadResult.octets))).1 = -1
    ∧ (parse (accepted (splitB.map ReadResult.octets))).2.cfd.map (·.output)
      = some (bytes "HTTP/1.1 413 Request Entity Too Large\r\nConnection: close\r\nContent-Length: 119\r\nContent-Type: text/html\r\n\r\n<html><head><title>413 Request Entity Too Large</title></head><body><h1>413 Request Entity Too Large</h1></body></html>") := by
  refine ⟨splitA_flatten.trans splitB_flatten.symm, ?_, ?_, parse_splitA, parse_splitB⟩
  · intro ch h
    rw [splitA, longRequest, List.mem_append, List.mem_append, List.mem_replicate,
      List.mem_singleton, List.mem_singleton] at h
    rcases h with (⟨_, h⟩ | h) | h <;> rw [h]
    · rw [List.length_replicate]; omega
    · rw [List.length_replicate]; omega
    · decide
  · intro ch h
    rw [splitB, List.mem_append, List.mem_replicate, List.mem_cons, List.mem_singleton] at h
    rcases h with ⟨_, h⟩ | h | h <;> rw [h]
    · rw [List.length_replicate]; omega
    · rw [List.length_append, List.length_replicate, List.length_singleton]; omega
    · decide

set_option maxRecDepth 100000 in
theorem errorWrites_500 : (errorWrites 500 (bytes "Internal Server Error")).flatten =
    bytes "HTTP/1.1 500 Internal Server Error\r\nConnection: close\r\nContent-Length: 113\r\nContent-Type: text/html\r\n\r\n<html><head><title>500 Internal Server Error</title></head><body><h1>500 Internal Server Error</h1></body></html>" := by
  decide

theorem phrase_500 : phrase 500 = some (bytes "Internal Server Error") := by decide

/-- C5 (as amended): for every state of `parse` (any earlier reads `pre`
that left the buffer unterminated and within the limit), when a read returns
zero bytes `parse` fails (returns -1) and no response bytes at all are
written to the connection; when a read returns an error `parse` fails
(returns -1) after calling `error(500)`, so that, the writes succeeding, the
500 response and nothing else is written to the connection. -/
theorem parse_read_failure (pre : List (List octet)) (rest : List ReadResult) (s : Server)
    (c : Conn) (hpre : ∀ ch ∈ pre, ch ≠ []) (hnone : memmem pre.flatten CRLFCRLF = none)
    (hlen : pre.flatten.length ≤ 212890) (hreq : s.request = none) :
    ((parse { s with cfd := some { c with input := pre.map ReadResult.octets ++ ReadResult.octets [] :: rest } }).1 = -1
      ∧ (parse { s with cfd := some { c with input := pre.map ReadResult.octets ++ ReadResult.octets [] :: rest } }).2.cfd.map (·.output)
          = some c.output)
    ∧ ((parse { s with cfd := some { c with input := pre.map ReadResult.octets } }).1 = -1
      ∧ (parse { s with cfd := some { c with input := pre.map ReadResult.octets } }).2.cfd.map (·.output) = some c.output)
    ∧ ((parse { s with cfd := some { c with input := pre.map ReadResult.octets ++ ReadResult.error :: rest } }).1 = -1
      ∧ (parse { s with cfd := some { c with input := pre.map ReadResult.octets ++ ReadResult.error :: rest } }).2.cfd.map (·.output)
          = (error 500 { s with cfd := some c }).2.cfd.map (·.output)
      ∧ (c.wscript = [] →
          (parse { s with cfd := some { c with input := pre.map ReadResult.octets ++ ReadResult.error :: rest } }).2.cfd.map (·.output)
          = some (c.output ++ bytes "HTTP/1.1 500 Internal Server Error\r\nConnection: close\r\nContent-Length: 113\r\nContent-Type: text/html\r\n\r\n<html><head><title>500 Internal Server Error</title></head><body><h1>500 Internal Server Error</h1></body></html>"))) := by
  have step : ∀ (tail : List ReadResult),
      ∃ req, parse { s with cfd := some { c with input := pre.map ReadResult.octets ++ tail } }
        = parseLoop tail { c with input := pre.map ReadResult.octets ++ tail } req
            { s with cfd := some { c with input := pre.map ReadResult.octets ++ tail } } := by
    intro tail
    rw [parse_eq_parseLoop
      { s with cfd := some { c with input := pre.map ReadResult.octets ++ tail } }
      { c with input := pre.map ReadResult.octets ++ tail } rfl hreq]
    obtain ⟨req, _, _, h⟩ := parseLoop_accumulate
      { c with input := pre.map ReadResult.octets ++ tail }
      { s with cfd := some { c with input := pre.map ReadResult.octets ++ tail } } tail pre none
      hpre (by simpa using hnone) (by simpa using hlen)
    exact ⟨req, h⟩
  refine ⟨?_, ?_, ?_⟩
  · obtain ⟨req, h⟩ := step (ReadResult.octets [] :: rest)
    rw [h]
    simp [parseLoop]
  · obtain ⟨req, h⟩ := step []
    rw [List.append_nil] at h
    rw [h]
    simp [parseLoop]
  · obtain ⟨req, h⟩ := step (ReadResult.error :: rest)
    rw [h]
    simp only [parseLoop, true_and]
    have e := error_output_input 500 s c rest req
    refine ⟨e, ?_⟩
    intro hw
    rw [e, error_wscript_nil 500 _ { s with cfd := some c } c rfl hw (by omega) (by omega)
      phrase_500, errorWrites_500]
    rfl

/-- C5 (as amended), on a connection that fails after the first read. -/
theorem parse_read_failure_witness :
    (parse (accepted [ReadResult.octets (bytes "GET /"), ReadResult.error])).1 = -1
    ∧ (parse (accepted [ReadResult.octets (bytes "GET /"), ReadResult.error])).2.cfd.map (·.output)
        = some (bytes "HTTP/1.1 500 Internal Server Error\r\nConnection: close\r\nContent-Length: 113\r\nContent-Type: text/html\r\n\r\n<html><head><title>500 Internal Server Error</title></head><body><h1>500 Internal Server Error</h1></body></html>") := by
  have h := (parse_read_failure [bytes "GET /"] [] (accepted []) ⟨[], [], []⟩ (by decide)
    (by decide) (by decide) rfl).2.2
  exact ⟨h.1, h.2.2 rfl⟩

set_option maxRecDepth 100000 in
/-- C5, refuted as stated: when the first read returns an error, `parse`
returns -1 and the 500 response has been written to the connection. -/
theorem parse_read_error_writes_500 :
    (parse (accepted [ReadResult.error])).1 = -1
    ∧ (parse (accepted [ReadResult.error])).2.cfd.map (·.output)
        = some (bytes "HTTP/1.1 500 Internal Server Error\r\nConnection: close\r\nContent-Length: 113\r\nContent-Type: text/html\r\n\r\n<html><head><title>500 Internal Server Error</title></head><body><h1>500 Internal Server Error</h1></body></html>") := by
  constructor <;> decide

/-! ## Properties of the serve loop -/

theorem memmem_crlfcrlf_none_of_crlf {l : List octet} (h : memmem l (bytes "\r\n") = none) :
    memmem l CRLFCRLF = none := by
  rw [memmem_eq_none_iff] at h ⊢
  intro q hq
  refine h q (List.IsPrefix.trans ?_ hq)
  exact ⟨[13, 10], by decide⟩

/-- C6 (as amended): for every request byte stream that contains no CRLF at
all (read in non-empty chunks until the peer closes), handling of the request
terminates without a crash and the server does not respond 400: it writes no
response at all when the stream has at most 212890 octets, and responds with
status 413 when it has more. -/
theorem main_handle_without_crlf (w : World) (cs : List (List octet)) (s : Server) (c : Conn)
    (hne : ∀ ch ∈ cs, ch ≠ []) (hno : memmem cs.flatten (bytes "\r\n") = none)
    (hc : s.cfd = some c) (hreq : s.request = none)
    (hin : c.input = cs.map ReadResult.octets) (hw : c.wscript = []) :
    ∃ s1, main_handle w s = some s1
      ∧ s1.cfd.map (·.output) = some
        (if 212891 ≤ cs.flatten.length then
          c.output ++ bytes "HTTP/1.1 413 Request Entity Too Large\r\nConnection: close\r\nContent-Length: 119\r\nContent-Type: text/html\r\n\r\n<html><head><title>413 Request Entity Too Large</title></head><body><h1>413 Request Entity Too Large</h1></body></html>"
        else c.output) := by
  obtain ⟨h1, h2⟩ := parse_unterminated cs s c hne (memmem_crlfcrlf_none_of_crlf hno) hc hreq
    hin hw
  refine ⟨(parse s).2, ?_, h2⟩
  unfold main_handle
  simp only [h1, if_true]

/-- C6 (as amended), on a request line that the peer never terminates. -/
theorem main_handle_without_crlf_witness :
    ∃ s1, main_handle noFiles (accepted [ReadResult.octets (bytes "GET / HTTP/1.1")]) = some s1
      ∧ s1.cfd.map (·.output) = some [] := by
  have h := main_handle_without_crlf noFiles [bytes "GET / HTTP/1.1"]
    (accepted [ReadResult.octets (bytes "GET / HTTP/1.1")])
    ⟨[ReadResult.octets (bytes "GET / HTTP/1.1")], [], []⟩ (by decide) (by decide) rfl rfl rfl rfl
  rw [if_neg (by decide)] at h
  exact h

/-- C6, refuted as stated: a request without any CRLF, after which the peer
closes the connection, gets no response at all, and so no 400. -/
theorem main_handle_no_400_without_crlf :
    memmem (bytes "GET / HTTP/1.1") (bytes "\r\n") = none
    ∧ (main_handle noFiles (accepted [ReadResult.octets (bytes "GET / HTTP/1.1")])).map
        (fun s1 => s1.cfd.map (·.output)) = some (some []) := by
  constructor <;> decide

theorem Responds.mono {c : Conn} {s1 : Server} {l1 l2 : List Nat} (h : Responds c s1 l1)
    (hsub : ∀ x ∈ l1, x ∈ l2) : Responds c s1 l2 := by
  obtain ⟨resp, code, h1, h2, h3⟩ := h
  exact ⟨resp, code, hsub code h1, h2, h3⟩

set_option maxRecDepth 100000 in
theorem error_status_table : ∀ code ∈ [400, 403, 404, 405, 413, 414, 418, 500, 501, 505],
    (400 ≤ code ∧ code ≤ 599)
    ∧ (phrase code).map (fun phr => responseStatus (errorWrites code phr).flatten)
        = some (some (fmt_i code)) := by
  decide

/-- Every write succeeding, `error` with a supported code writes a response
with that status code. -/
theorem error_responds (code : Nat)
    (hcode : code ∈ [400, 403, 404, 405, 413, 414, 418, 500, 501, 505])
    (s : Server) (c : Conn) (hc : s.cfd = some c) (hw : c.wscript = []) :
    Responds c (error code s).2 [code] := by
  obtain ⟨⟨h1, h2⟩, h3⟩ := error_status_table code hcode
  cases hp : phrase code with
  | none => rw [hp] at h3; simp at h3
  | some phr =>
    rw [hp] at h3
    simp only [Option.map_some', Option.some.injEq] at h3
    rw [error_wscript_nil code phr s c hc hw h1 h2 hp]
    exact ⟨_, code, List.mem_singleton.2 rfl, rfl, h3⟩

theorem loadLoop_cfd : ∀ (f : List FRead) (body : Option (List octet)) (s : Server),
    (loadLoop f body s).2.cfd = s.cfd
  | [], _, _ => rfl
  | r :: rest, body, s => by
    rw [loadLoop]
    by_cases h1 : r.ferror = true
    · rw [if_pos h1]
    · rw [if_neg h1]
      by_cases h2 : r.feof = true
      · simp only [h2, if_true]
      · simp only [h2, Bool.false_eq_true, if_false]
        exact loadLoop_cfd rest _ s

theorem load_cfd (s : Server) : (load s).2.cfd = s.cfd := by
  unfold load
  split
  · rfl
  · split
    · rfl
    · exact loadLoop_cfd _ _ s

theorem responseStatus_200 (rest : List octet) :
    responseStatus (bytes "HTTP/1.1 200 OK\r\n" ++ rest) = some (fmt_i 200) := by
  rfl

theorem main_static_responds (w : World) (extension path : List octet) (s : Server) (c : Conn)
    (hc : s.cfd = some c) (hw : c.wscript = []) :
    Responds c (main_static w extension path s) [501, 500, 200] := by
  unfold main_static
  split
  · exact (error_responds 501 (by decide) s c hc hw).mono (by decide)
  · split
    · exact (error_responds 500 (by decide) s c hc hw).mono (by decide)
    · rename_i f _
      have hcfd : (load { s with file := some f }).2.cfd = some c := by rw [load_cfd]; exact hc
      simp only
      split
      · exact (error_responds 500 (by decide) _ c hcfd hw).mono (by decide)
      · rw [hcfd]
        simp only
        rw [sendAll_wscript_nil _ _ hw]
        refine ⟨_, 200, by decide, rfl, ?_⟩
        rw [List.flatten_cons]
        exact responseStatus_200 _

theorem main_dynamic_responds (w : World) (query path : List octet) (s : Server) (c : Conn)
    (hc : s.cfd = some c) (hw : c.wscript = []) :
    Responds c (main_dynamic w query path s) [500, 200] := by
  unfold main_dynamic
  simp only
  split
  · exact (error_responds 500 (by decide) s c hc hw).mono (by decide)
  · rename_i f _
    have hcfd : (load { s with file := some f }).2.cfd = some c := by rw [load_cfd]; exact hc
    split
    · exact (error_responds 500 (by decide) _ c hcfd hw).mono (by decide)
    · split
      · exact (error_responds 500 (by decide) _ c hcfd hw).mono (by decide)
      · rw [hcfd]
        simp only
        rw [sendAll_wscript_nil _ _ hw]
        refine ⟨_, 200, by decide, rfl, ?_⟩
        rw [List.flatten_cons]
        exact responseStatus_200 _

theorem main_serve_responds (w : World) (abs_path query : List octet) (s s1 : Server) (c : Conn)
    (hc : s.cfd = some c) (hw : c.wscript = []) (h : main_serve w abs_path query s = some s1) :
    Responds c s1 [404, 403, 500, 501, 200] := by
  unfold main_serve at h
  simp only at h
  split at h
  · cases h; exact (error_responds 404 (by decide) s c hc hw).mono (by decide)
  · split at h
    · cases h; exact (error_responds 403 (by decide) s c hc hw).mono (by decide)
    · split at h
      · cases h
      · split at h
        · cases h; exact (main_dynamic_responds w _ _ s c hc hw).mono (by decide)
        · cases h; exact (main_static_responds w _ _ s c hc hw).mono (by decide)

theorem main_validate_codes (line : List octet) (code : Nat)
    (h : main_validate line = Checked.error code) : code ∈ [405, 501, 400, 505] := by
  unfold main_validate at h
  by_cases h1 : strncmp line (bytes "GET") 3 = 0
  swap
  · rw [if_pos h1] at h; cases h; decide
  rw [if_neg (not_not.2 h1)] at h
  cases h2 : strchr line 32 with
  | none => rw [h2] at h; cases h
  | some sp =>
    rw [h2] at h
    simp only at h
    by_cases h3 : strncmp ((line.drop sp).take 2) (bytes " /") 2 = 0
    swap
    · rw [if_pos h3] at h; cases h; decide
    rw [if_neg (not_not.2 h3)] at h
    by_cases h4 : (strchr line 34).isSome = true
    · rw [if_pos h4] at h; cases h; decide
    rw [if_neg h4] at h
    cases h5 : strcasestr line (bytes "HTTP/1.1") with
    | none => rw [h5] at h; cases h; decide
    | some n1 =>
      rw [h5] at h
      simp only at h
      cases h6 : strchr line 47 with
      | none => rw [h6] at h; cases h
      | some sl =>
        rw [h6] at h
        simp only at h
        by_cases h7 : (n1 : Int) - (sl : Int) ≤ 0
        · rw [if_pos h7] at h; cases h
        rw [if_neg h7] at h
        by_cases h8 : (strchr ((line.drop sl).take (((n1 : Int) - (sl : Int)).toNat - 1)) 46).isNone
            = true
        · rw [if_pos h8] at h; cases h; decide
        · rw [if_neg h8] at h; cases h

set_option maxRecDepth 100000 in
theorem errorWrites_414 : (errorWrites 414 (bytes "Request-URI Too Long")).flatten =
    bytes "HTTP/1.1 414 Request-URI Too Long\r\nConnection: close\r\nContent-Length: 111\r\nContent-Type: text/html\r\n\r\n<html><head><title>414 Request-URI Too Long</title></head><body><h1>414 Request-URI Too Long</h1></body></html>" := by
  decide

set_option maxRecDepth 100000 in
theorem errorWrites_405 : (errorWrites 405 (bytes "Method Not Allowed")).flatten =
    bytes "HTTP/1.1 405 Method Not Allowed\r\nConnection: close\r\nContent-Length: 107\r\nContent-Type: text/html\r\n\r\n<html><head><title>405 Method Not Allowed</title></head><body><h1>405 Method Not Allowed</h1></body></html>" := by
  decide

theorem main_line_of_crlf (req : List octet) (k : Nat)
    (hk : strstr (cstr req) (bytes "\r\n") = some k) :
    main_line req
      = if k + 2 > 8190 then Checked.error 414 else Checked.ok ((cstr req).take (k + 2)) := by
  unfold main_line
  simp only [hk, LimitRequestLine]

/-- A request line of more than 8190 octets is answered with 414. -/
theorem main_respond_414 (w : World) (s : Server) (c : Conn) (req : List octet) (k : Nat)
    (hreq : s.request = some req) (hc : s.cfd = some c) (hw : c.wscript = [])
    (hk : strstr (cstr req) (bytes "\r\n") = some k) (hlong : 8191 ≤ k + 2) :
    main_respond w s = some { s with cfd := some { c with output := (c.output ++
      bytes "HTTP/1.1 414 Request-URI Too Long\r\nConnection: close\r\nContent-Length: 111\r\nContent-Type: text/html\r\n\r\n<html><head><title>414 Request-URI Too Long</title></head><body><h1>414 Request-URI Too Long</h1></body></html>") } } := by
  have hg : s.request.getD [] = req := by rw [hreq]; rfl
  unfold main_respond
  rw [hg, main_line_of_crlf req k hk, if_pos (by omega)]
  simp only
  rw [error_wscript_nil 414 (bytes "Request-URI Too Long") s c hc hw (by omega) (by omega)
    (by decide), errorWrites_414]

/-- A request line of at most 8190 octets goes through the checks of
`main_validate`. -/
theorem main_respond_of_line (w : World) (s : Server) (req : List octet) (k : Nat)
    (hreq : s.request = some req) (hk : strstr (cstr req) (bytes "\r\n") = some k)
    (hshort : k + 2 ≤ 8190) :
    main_respond w s =
      match main_validate ((cstr req).take (k + 2)) with
      | Checked.undefined => none
      | Checked.error code => some (error code s).2
      | Checked.ok (abs_path, _) =>
        main_serve w (main_query abs_path).1 (main_query abs_path).2 s := by
  have hg : s.request.getD [] = req := by rw [hreq]; rfl
  unfold main_respond
  rw [hg, main_line_of_crlf req k hk, if_neg (by omega)]

theorem main_validate_405 (line : List octet) (h : line.take 3 ≠ bytes "GET") :
    main_validate line = Checked.error 405 := by
  unfold main_validate
  have : strncmp line (bytes "GET") 3 ≠ 0 := by
    unfold strncmp
    have e : (bytes "GET").take 3 = bytes "GET" := by decide
    rw [e, if_neg h]
    decide
  rw [if_pos this]

theorem validate_codes_supported : ∀ code ∈ [405, 501, 400, 505],
    code ∈ [400, 403, 404, 405, 413, 414, 418, 500, 501, 505] := by
  decide

theorem validate_codes_later : ∀ code ∈ [405, 501, 400, 505],
    code ∈ [405, 501, 400, 505, 404, 403, 500, 200] := by
  decide

/-- The response to a request line of at most 8190 octets has one of the
status codes of the later checks. -/
theorem main_respond_short_line (w : World) (s s1 : Server) (c : Conn) (req : List octet)
    (k : Nat) (hreq : s.request = some req) (hc : s.cfd = some c) (hw : c.wscript = [])
    (hk : strstr (cstr req) (bytes "\r\n") = some k) (hshort : k + 2 ≤ 8190)
    (h : main_respond w s = some s1) :
    Responds c s1 [405, 501, 400, 505, 404, 403, 500, 200] := by
  rw [main_respond_of_line w s req k hreq hk hshort] at h
  cases hv : main_validate ((cstr req).take (k + 2)) with
  | undefined => rw [hv] at h; cases h
  | error code =>
    rw [hv] at h
    simp only [Option.some.injEq] at h
    subst h
    have hcode := main_validate_codes _ _ hv
    exact (error_responds code (validate_codes_supported code hcode) s c hc hw).mono
      (by intro x hx; rw [List.mem_singleton.1 hx]; exact validate_codes_later code hcode)
  | ok a =>
    rw [hv] at h
    exact (main_serve_responds w _ _ s s1 c hc hw h).mono (by decide)

theorem fmt_i_ne_414 : ∀ code : Nat, code ∈ [405, 501, 400, 505, 404, 403, 500, 200] →
    fmt_i code ≠ bytes "414" := by
  decide

/-- C7: for every parsed request, the request-line length check uses the
length `k + 2` of the line including its trailing CRLF (`k` is the offset of
the first CRLF): if the length is 8190 or less, no 414 is produced and
validation continues with the line (the response, if any, has a status code
of the later checks); if the length is 8191 or more, the response is 414,
whatever the rest of the line contains. -/
theorem main_line_length_check (w : World) (s : Server) (c : Conn) (req : List octet) (k : Nat)
    (hreq : s.request = some req) (hc : s.cfd = some c) (hw : c.wscript = [])
    (hk : strstr (cstr req) (bytes "\r\n") = some k) :
    (k + 2 ≤ 8190 →
        main_line req = Checked.ok ((cstr req).take (k + 2))
        ∧ ∀ s1, main_respond w s = some s1 →
            Responds c s1 [405, 501, 400, 505, 404, 403, 500, 200]
            ∧ ∀ resp, s1.cfd.map (·.output) = some (c.output ++ resp) →
                responseStatus resp ≠ some (bytes "414"))
    ∧ (8191 ≤ k + 2 →
        main_respond w s = some { s with cfd := some { c with output := (c.output ++
          bytes "HTTP/1.1 414 Request-URI Too Long\r\nConnection: close\r\nContent-Length: 111\r\nContent-Type: text/html\r\n\r\n<html><head><title>414 Request-URI Too Long</title></head><body><h1>414 Request-URI Too Long</h1></body></html>") } }) := by
  refine ⟨fun hshort => ⟨?_, ?_⟩, main_respond_414 w s c req k hreq hc hw hk⟩
  · rw [main_line_of_crlf req k hk, if_neg (by omega)]
  · intro s1 h1
    have hr := main_respond_short_line w s s1 c req k hreq hc hw hk hshort h1
    refine ⟨hr, ?_⟩
    intro resp hresp
    obtain ⟨resp1, code, hcode, h2, h3⟩ := hr
    rw [h2] at hresp
    have : resp1 = resp := List.append_cancel_left (Option.some.inj hresp)
    subst this
    rw [h3]
    intro h4
    exact fmt_i_ne_414 code hcode (Option.some.inj h4)

theorem memmem_append_needle (a b t : List octet) (x : octet) (h : x ∉ a) :
    memmem (a ++ (x :: t) ++ b) (x :: t) = some a.length := by
  rw [memmem_eq_some_iff]
  constructor
  · rw [List.append_assoc, List.drop_left]
    exact List.prefix_append _ _
  · intro q hq hpre
    rw [List.append_assoc, List.drop_append_of_le_length (by omega)] at hpre
    have hne : a.drop q ≠ [] := by
      intro h0
      have := congrArg List.length h0
      rw [List.length_drop, List.length_nil] at this
      omega
    obtain ⟨y, ys, hy⟩ := List.exists_cons_of_ne_nil hne
    rw [hy, List.cons_append, List.cons_prefix_cons] at hpre
    apply h
    apply List.mem_of_mem_drop (n := q)
    rw [hy, hpre.1]
    exact List.mem_cons_self _ _

theorem cstr_append_nul : ∀ (a b : List octet), 0 ∉ a → cstr (a ++ 0 :: b) = a
  | [], b, _ => by simp [cstr]
  | x :: xs, b, h => by
    have hx : x ≠ 0 := fun e => h (by rw [e]; exact List.mem_cons_self _ _)
    have ih := cstr_append_nul xs b (fun hm => h (List.mem_cons_of_mem _ hm))
    unfold cstr at ih ⊢
    rw [List.cons_append, List.takeWhile_cons, ih]
    simp [hx]

theorem longLine_cstr (start : List octet) (n : Nat) (h0 : 0 ∉ start) :
    cstr (longLine start n) = start ++ List.replicate n 97 ++ [13, 10] := by
  have e : longLine start n = (start ++ List.replicate n 97 ++ [13, 10]) ++ 0 :: [] := by
    rw [longLine, List.append_assoc _ [13, 10]]
    rfl
  rw [e]
  apply cstr_append_nul
  intro h
  rw [List.mem_append, List.mem_append, List.mem_replicate] at h
  rcases h with (h | ⟨_, h⟩) | h
  · exact h0 h
  · exact absurd h (by decide)
  · exact absurd h (by decide)

theorem longLine_strstr (start : List octet) (n : Nat) (h0 : 0 ∉ start) (h13 : 13 ∉ start) :
    strstr (cstr (longLine start n)) (bytes "\r\n") = some (start.length + n) := by
  rw [longLine_cstr start n h0]
  have e : bytes "\r\n" = 13 :: [10] := by decide
  have := memmem_append_needle (start ++ List.replicate n 97) [] [10] 13 (by
    intro h
    rw [List.mem_append, List.mem_replicate] at h
    rcases h with h | ⟨_, h⟩
    · exact h13 h
    · exact absurd h (by decide))
  rw [List.append_nil, List.length_append, List.length_replicate] at this
  rw [strstr, e]
  exact this

/-- C7, on a request line of 5 + 8190 + 2 octets. -/
theorem main_line_length_check_witness :
    main_respond noFiles (parsed (longLine (bytes "GET /") 8190))
      = some { parsed (longLine (bytes "GET /") 8190) with cfd := some ⟨[], [], bytes "HTTP/1.1 414 Request-URI Too Long\r\nConnection: close\r\nContent-Length: 111\r\nContent-Type: text/html\r\n\r\n<html><head><title>414 Request-URI Too Long</title></head><body><h1>414 Request-URI Too Long</h1></body></html>"⟩ } :=
  (main_line_length_check noFiles (parsed (longLine (bytes "GET /") 8190)) ⟨[], [], []⟩
    (longLine (bytes "GET /") 8190) ((bytes "GET /").length + 8190) rfl rfl rfl
    (longLine_strstr (bytes "GET /") 8190 (by decide) (by decide))).2 (by decide)

set_option maxRecDepth 100000 in
/-- C8 (as amended): for every request whose request line has at most 8190
octets and does not begin with the three octets GET, the response status is
405, regardless of the target and of the rest of the line. -/
theorem main_method_check (w : World) (s : Server) (c : Conn) (req : List octet) (k : Nat)
    (hreq : s.request = some req) (hc : s.cfd = some c) (hw : c.wscript = [])
    (hk : strstr (cstr req) (bytes "\r\n") = some k) (hshort : k + 2 ≤ 8190)
    (hget : ((cstr req).take (k + 2)).take 3 ≠ bytes "GET") :
    main_respond w s = some { s with cfd := some { c with output := (c.output ++
      bytes "HTTP/1.1 405 Method Not Allowed\r\nConnection: close\r\nContent-Length: 107\r\nContent-Type: text/html\r\n\r\n<html><head><title>405 Method Not Allowed</title></head><body><h1>405 Method Not Allowed</h1></body></html>") } } := by
  rw [main_respond_of_line w s req k hreq hk hshort, main_validate_405 _ hget]
  simp only
  rw [error_wscript_nil 405 (bytes "Method Not Allowed") s c hc hw (by omega) (by omega)
    (by decide), errorWrites_405]

set_option maxRecDepth 100000 in
/-- C8 (as amended), on `POST /index.html HTTP/1.1`. -/
theorem main_method_check_witness :
    main_respond noFiles (parsed (bytes "POST /index.html HTTP/1.1\r\n" ++ [0]))
      = some { parsed (bytes "POST /index.html HTTP/1.1\r\n" ++ [0]) with cfd := some ⟨[], [], bytes "HTTP/1.1 405 Method Not Allowed\r\nConnection: close\r\nContent-Length: 107\r\nContent-Type: text/html\r\n\r\n<html><head><title>405 Method Not Allowed</title></head><body><h1>405 Method Not Allowed</h1></body></html>"⟩ } :=
  main_method_check noFiles (parsed (bytes "POST /index.html HTTP/1.1\r\n" ++ [0])) ⟨[], [], []⟩
    (bytes "POST /index.html HTTP/1.1\r\n" ++ [0]) 25 rfl rfl rfl (by decide) (by decide)
    (by decide)

set_option maxRecDepth 100000 in
/-- C8, refuted as stated: the method `GETX` is not exactly GET and the
response status is 501, not 405; and a request line of more than 8190 octets
with the method POST gets the response status 414, not 405. -/
theorem main_method_not_405 :
    (main_handle noFiles (accepted [ReadResult.octets (bytes "GETX /a HTTP/1.1\r\n\r\n")])).map
        (fun s1 => s1.cfd.map (·.output))
      = some (some (bytes "HTTP/1.1 501 Not Implemented\r\nConnection: close\r\nContent-Length: 101\r\nContent-Type: text/html\r\n\r\n<html><head><title>501 Not Implemented</title></head><body><h1>501 Not Implemented</h1></body></html>"))
    ∧ main_respond noFiles (parsed (longLine (bytes "POST /") 8190))
      = some { parsed (longLine (bytes "POST /") 8190) with cfd := some ⟨[], [], bytes "HTTP/1.1 414 Request-URI Too Long\r\nConnection: close\r\nContent-Length: 111\r\nContent-Type: text/html\r\n\r\n<html><head><title>414 Request-URI Too Long</title></head><body><h1>414 Request-URI Too Long</h1></body></html>"⟩ } := by
  constructor
  · decide
  · exact main_respond_414 noFiles (parsed (longLine (bytes "POST /") 8190)) ⟨[], [], []⟩
      (longLine (bytes "POST /") 8190) ((bytes "POST /").length + 8190) rfl rfl rfl
      (longLine_strstr (bytes "POST /") 8190 (by decide) (by decide)) (by decide)

/-- C9, on the failing input `GET` CRLF CRLF: the request line `GET` CRLF
passes the length and the method check and holds no space, so that
`strchr(line, ' ')` is NULL and `strncpy(target_init, line_pt, 2)` reads from
it: the behaviour is undefined, no 501 is sent. -/
theorem main_no_space_undefined (w : World) :
    (parse (accepted [ReadResult.octets (bytes "GET\r\n\r\n")])).2.request
      = some (bytes "GET\r\n" ++ [0])
    ∧ main_line (bytes "GET\r\n" ++ [0]) = Checked.ok (bytes "GET\r\n")
    ∧ strchr (bytes "GET\r\n") 32 = none
    ∧ main_validate (bytes "GET\r\n") = Checked.undefined
    ∧ main_handle w (accepted [ReadResult.octets (bytes "GET\r\n\r\n")]) = none := by
  refine ⟨by decide, by decide, by decide, by decide, ?_⟩
  rfl

/-- C10, on the failing input `GET"` CRLF CRLF: the request line holds a
double quote and no space, passes the length and the method check, and the
behaviour is undefined at `strncpy(target_init, line_pt, 2)` before the
double-quote check is reached: handling does not end in an error response. -/
theorem main_quote_no_space_undefined (w : World) :
    (parse (accepted [ReadResult.octets (bytes "GET\"\r\n\r\n")])).2.request
      = some (bytes "GET\"\r\n" ++ [0])
    ∧ main_line (bytes "GET\"\r\n" ++ [0]) = Checked.ok (bytes "GET\"\r\n")
    ∧ 34 ∈ bytes "GET\"\r\n"
    ∧ main_validate (bytes "GET\"\r\n") = Checked.undefined
    ∧ main_handle w (accepted [ReadResult.octets (bytes "GET\"\r\n\r\n")]) = none := by
  refine ⟨by decide, by decide, by decide, by decide, ?_⟩
  rfl

/-- What an accepted request line has passed. -/
theorem main_validate_ok (line : List octet) (a : List octet × Int)
    (h : main_validate line = Checked.ok a) :
    strncmp line (bytes "GET") 3 = 0
    ∧ ∃ sp n1 sl, strchr line 32 = some sp
      ∧ strncmp ((line.drop sp).take 2) (bytes " /") 2 = 0
      ∧ ¬ (strchr line 34).isSome = true
      ∧ strcasestr line (bytes "HTTP/1.1") = some n1
      ∧ strchr line 47 = some sl
      ∧ 0 < (n1 : Int) - (sl : Int)
      ∧ a = ((line.drop sl).take (((n1 : Int) - (sl : Int)).toNat - 1), (n1 : Int) - (sl : Int))
      ∧ ¬ (strchr a.1 46).isNone = true := by
  unfold main_validate at h
  by_cases h1 : strncmp line (bytes "GET") 3 = 0
  swap
  · rw [if_pos h1] at h; cases h
  rw [if_neg (not_not.2 h1)] at h
  cases h2 : strchr line 32 with
  | none => rw [h2] at h; cases h
  | some sp =>
    rw [h2] at h
    simp only at h
    by_cases h3 : strncmp ((line.drop sp).take 2) (bytes " /") 2 = 0
    swap
    · rw [if_pos h3] at h; cases h
    rw [if_neg (not_not.2 h3)] at h
    by_cases h4 : (strchr line 34).isSome = true
    · rw [if_pos h4] at h; cases h
    rw [if_neg h4] at h
    cases h5 : strcasestr line (bytes "HTTP/1.1") with
    | none => rw [h5] at h; cases h
    | some n1 =>
      rw [h5] at h
      simp only at h
      cases h6 : strchr line 47 with
      | none => rw [h6] at h; cases h
      | some sl =>
        rw [h6] at h
        simp only at h
        by_cases h7 : (n1 : Int) - (sl : Int) ≤ 0
        · rw [if_pos h7] at h; cases h
        rw [if_neg h7] at h
        by_cases h8 : (strchr ((line.drop sl).take (((n1 : Int) - (sl : Int)).toNat - 1)) 46).isNone
            = true
        · rw [if_pos h8] at h; cases h
        · rw [if_neg h8] at h
          cases h
          exact ⟨h1, sp, n1, sl, rfl, h3, h4, rfl, rfl, by omega, rfl, h8⟩

theorem strchr_isSome_of_mem {s : List octet} {x : octet} (hx : x ≠ 0) (h : x ∈ s) :
    (strchr s x).isSome = true := by
  unfold strchr
  rw [if_neg hx]
  have : s.contains x = true := by simpa using h
  rw [if_pos this]
  rfl

/-- A request line with a double quote is never accepted. -/
theorem main_validate_quote (line : List octet) (hq : 34 ∈ line) (a : List octet × Int) :
    main_validate line ≠ Checked.ok a := by
  intro h
  obtain ⟨_, sp, n1, sl, _, _, h4, _⟩ := main_validate_ok line a h
  exact h4 (strchr_isSome_of_mem (by decide) hq)

/-- Neither the absolute path nor the query of an accepted request holds a
double quote. -/
theorem main_validate_ok_no_quote (line : List octet) (a : List octet × Int)
    (h : main_validate line = Checked.ok a) :
    34 ∉ a.1 ∧ 34 ∉ (main_query a.1).1 ∧ 34 ∉ (main_query a.1).2 := by
  have hline : 34 ∉ line := fun hq => main_validate_quote line hq a h
  obtain ⟨_, sp, n1, sl, _, _, _, _, _, _, ha, _⟩ := main_validate_ok line a h
  have h1 : 34 ∉ a.1 := by
    rw [ha]
    exact fun hm => hline (List.mem_of_mem_drop (List.mem_of_mem_take hm))
  refine ⟨h1, ?_, ?_⟩
  · unfold main_query
    split
    · exact h1
    · exact fun hm => h1 (List.mem_of_mem_take hm)
  · unfold main_query
    split
    · simp
    · simp only
      split
      · exact fun hm => h1 (List.mem_of_mem_drop hm)
      · simp

/-- A request line that begins with GET and whose first space is not
followed by a slash is answered with 501. -/
theorem main_validate_501 (line : List octet) (sp : Nat) (hget : line.take 3 = bytes "GET")
    (hsp : strchr line 32 = some sp) (hslash : (line.drop sp).take 2 ≠ bytes " /") :
    main_validate line = Checked.error 501 := by
  unfold main_validate
  have h1 : strncmp line (bytes "GET") 3 = 0 := by
    unfold strncmp
    have e : (bytes "GET").take 3 = bytes "GET" := by decide
    rw [e, if_pos hget]
  have h3 : strncmp ((line.drop sp).take 2) (bytes " /") 2 ≠ 0 := by
    unfold strncmp
    have e : (bytes " /").take 2 = bytes " /" := by decide
    rw [e, List.take_take, Nat.min_self, if_neg hslash]
    decide
  rw [if_neg (not_not.2 h1), hsp]
  simp only
  rw [if_pos h3]

/-! ## The claims about the request line and the target -/

/-- C11, on the failing input `GET/index.html` CRLF CRLF: the request line
passes the length check and the method check; the next check in the order,
space-then-slash, cannot hold since the line has no space, yet no 501 is
sent: `strchr(line, ' ')` is NULL and `strncpy(target_init, line_pt, 2)`
reads from it, the behaviour is undefined. -/
theorem main_order_no_space_undefined (w : World) :
    main_line (bytes "GET/index.html\r\n" ++ [0]) = Checked.ok (bytes "GET/index.html\r\n")
    ∧ strncmp (bytes "GET/index.html\r\n") (bytes "GET") 3 = 0
    ∧ 32 ∉ bytes "GET/index.html\r\n"
    ∧ main_validate (bytes "GET/index.html\r\n") = Checked.undefined
    ∧ main_handle w (accepted [ReadResult.octets (bytes "GET/index.html\r\n\r\n")]) = none := by
  refine ⟨by decide, by decide, by decide, by decide, ?_⟩
  rfl

/-- C13, on the failing input `GET /a?b.c HTTP/1.1` with root `/srv` and a
readable file `/srv/a`: the request line passes every check, the dot check
too (the dot is in the query), the absolute path `/a` holds no dot, and
neither does `/srv/a`; `strchr(path, '.')` is NULL and
`strcpy(extension, ext_pt_bg + 1)` reads from it, the behaviour is
undefined. -/
theorem main_dot_in_query_undefined :
    main_validate (bytes "GET /a?b.c HTTP/1.1\r\n") = Checked.ok (bytes "/a?b.c", 7)
    ∧ main_query (bytes "/a?b.c") = (bytes "/a", bytes "b.c")
    ∧ 46 ∉ bytes "/a"
    ∧ strchr (bytes "/srv" ++ bytes "/a") 46 = none
    ∧ main_handle (oneFile (bytes "/srv/a") [])
        (accepted [ReadResult.octets (bytes "GET /a?b.c HTTP/1.1\r\n\r\n")]) = none := by
  refine ⟨by decide, by decide, by decide, by decide, by decide⟩

theorem strchr_of_mem {s : List octet} {x : octet} (hx : x ≠ 0) (h : x ∈ s) :
    strchr s x = some (s.indexOf x) := by
  unfold strchr
  rw [if_neg hx]
  have : s.contains x = true := by simpa using h
  rw [if_pos this]

theorem strchr_of_not_mem {s : List octet} {x : octet} (hx : x ≠ 0) (h : x ∉ s) :
    strchr s x = none := by
  unfold strchr
  rw [if_neg hx]
  have : ¬ s.contains x = true := by simpa using h
  rw [if_neg this]

theorem take_indexOf_append_drop {s : List octet} {x : octet} (h : x ∈ s) :
    s.take (s.indexOf x) ++ x :: s.drop (s.indexOf x + 1) = s := by
  induction s with
  | nil => simp at h
  | cons y ys ih =>
    by_cases hy : y = x
    · subst hy; simp
    · have hx : x ∈ ys := by
        rcases List.mem_cons.1 h with h1 | h1
        · exact absurd h1.symm hy
        · exact h1
      rw [List.indexOf_cons_ne _ hy]
      simp only [List.take_succ_cons, List.drop_succ_cons, List.cons_append, List.cons.injEq,
        true_and]
      exact ih hx

theorem not_mem_take_indexOf (s : List octet) (x : octet) : x ∉ s.take (s.indexOf x) := by
  induction s with
  | nil => simp
  | cons y ys ih =>
    by_cases hy : y = x
    · subst hy; simp
    · rw [List.indexOf_cons_ne _ hy, List.take_succ_cons, List.mem_cons]
      rintro (h | h)
      · exact hy h.symm
      · exact ih h

/-- C14: for every extracted target `t`: if `t` contains `?`, then the path is
the part of `t` before its first `?` (it contains no `?`), the query is
everything after that first `?` (possibly empty, possibly containing further
`?`), and path ++ "?" ++ query = `t`; if `t` contains no `?`, then the path is
`t` and the query is the empty string. -/
theorem main_query_split (t : List octet) :
    (63 ∈ t →
        (main_query t).1 = t.take (t.indexOf 63)
        ∧ 63 ∉ (main_query t).1
        ∧ (main_query t).2 = t.drop (t.indexOf 63 + 1)
        ∧ (main_query t).1 ++ bytes "?" ++ (main_query t).2 = t)
    ∧ (63 ∉ t → main_query t = (t, [])) := by
  constructor
  · intro h
    have hq : (main_query t).2 = t.drop (t.indexOf 63 + 1) := by
      unfold main_query
      rw [strchr_of_mem (by decide) h]
      simp only
      split
      · rfl
      · rename_i hn
        have hlt : t.indexOf 63 < t.length := List.indexOf_lt_length.2 h
        symm
        apply List.drop_eq_nil_of_le
        omega
    have hp : (main_query t).1 = t.take (t.indexOf 63) := by
      unfold main_query
      rw [strchr_of_mem (by decide) h]
    refine ⟨hp, ?_, hq, ?_⟩
    · rw [hp]; exact not_mem_take_indexOf t 63
    · rw [hp, hq]
      have e : bytes "?" = [63] := by decide
      rw [e, List.append_assoc]
      exact take_indexOf_append_drop h
  · intro h
    unfold main_query
    rw [strchr_of_not_mem (by decide) h]

/-- C17, on the failing input `gif`: `lookup` returns the type `inmage/gif`,
not `image/gif`. -/
theorem lookup_gif :
    lookup (bytes "gif") = some (bytes "inmage/gif")
    ∧ lookup (bytes "gif") ≠ some (bytes "image/gif") := by
  constructor <;> decide

theorem strcasecmp_eq_zero (a b : List octet) :
    strcasecmp a b = 0 ↔ a.map tolower = b.map tolower := by
  unfold strcasecmp
  split <;> simp [*]

/-- The table of `lookup`: the extension is compared ignoring case, and every
extension outside the table has no type. -/
theorem lookup_table (ext : List octet) :
    lookup ext =
      if ext.map tolower = bytes "css" then some (bytes "text/css")
      else if ext.map tolower = bytes "html" then some (bytes "text/html")
      else if ext.map tolower = bytes "gif" then some (bytes "inmage/gif")
      else if ext.map tolower = bytes "ico" then some (bytes "image/x-icon")
      else if ext.map tolower = bytes "jpg" then some (bytes "image/jpeg")
      else if ext.map tolower = bytes "js" then some (bytes "text/javascript")
      else if ext.map tolower = bytes "png" then some (bytes "image/png")
      else none := by
  have e1 : (bytes "css").map tolower = bytes "css" := by decide
  have e2 : (bytes "html").map tolower = bytes "html" := by decide
  have e3 : (bytes "gif").map tolower = bytes "gif" := by decide
  have e4 : (bytes "ico").map tolower = bytes "ico" := by decide
  have e5 : (bytes "jpg").map tolower = bytes "jpg" := by decide
  have e6 : (bytes "js").map tolower = bytes "js" := by decide
  have e7 : (bytes "png").map tolower = bytes "png" := by decide
  have hc : ∀ a : List octet, strcasecmp a ext = 0 ↔ ext.map tolower = a.map tolower :=
    fun a => (strcasecmp_eq_zero a ext).trans eq_comm
  unfold lookup
  simp only [hc, e1, e2, e3, e4, e5, e6, e7]

theorem strncmp_eq_zero (a b : List octet) (n : Nat) :
    strncmp a b n = 0 ↔ a.take n = b.take n := by
  unfold strncmp
  split <;> simp [*]

/-- The slash of an accepted space-then-slash check. -/
theorem mem_slash_of_check {line : List octet} {sp : Nat}
    (hslash : strncmp ((line.drop sp).take 2) (bytes " /") 2 = 0) : 47 ∈ line := by
  rw [strncmp_eq_zero, List.take_take, Nat.min_self] at hslash
  have e : (bytes " /").take 2 = [32, 47] := by decide
  rw [e] at hslash
  have : (47 : octet) ∈ (line.drop sp).take 2 := by rw [hslash]; decide
  exact List.mem_of_mem_drop (List.mem_of_mem_take this)

/-- The end of `main_validate` on a line that passes the method, space-slash,
quote and version checks and whose first slash lies before the match of
HTTP/1.1. -/
theorem main_validate_target (line : List octet) (sp n1 : Nat)
    (hget : strncmp line (bytes "GET") 3 = 0)
    (hsp : strchr line 32 = some sp)
    (hslash : strncmp ((line.drop sp).take 2) (bytes " /") 2 = 0)
    (hquote : 34 ∉ line)
    (hver : strcasestr line (bytes "HTTP/1.1") = some n1)
    (hlt : line.indexOf 47 < n1) :
    main_validate line =
      if 46 ∈ (line.drop (line.indexOf 47)).take (n1 - line.indexOf 47 - 1) then
        Checked.ok ((line.drop (line.indexOf 47)).take (n1 - line.indexOf 47 - 1),
          (n1 : Int) - (line.indexOf 47 : Int))
      else Checked.error 501 := by
  have hmem : 47 ∈ line := mem_slash_of_check hslash
  unfold main_validate
  rw [if_neg (not_not.2 hget), hsp]
  simp only
  rw [if_neg (not_not.2 hslash), strchr_of_not_mem (by decide) hquote]
  simp only [Option.isSome_none, Bool.false_eq_true, if_false]
  rw [hver]
  simp only
  rw [strchr_of_mem (by decide) hmem]
  simp only
  have hpos : ¬ ((n1 : Int) - (line.indexOf 47 : Int) ≤ 0) := by omega
  rw [if_neg hpos]
  have e : ((n1 : Int) - (line.indexOf 47 : Int)).toNat - 1 = n1 - line.indexOf 47 - 1 := by
    omega
  rw [e]
  by_cases hdot : 46 ∈ (line.drop (line.indexOf 47)).take (n1 - line.indexOf 47 - 1)
  · rw [if_pos hdot, strchr_of_mem (by decide) hdot]
    simp
  · rw [if_neg hdot, strchr_of_not_mem (by decide) hdot]
    simp

/-- C12 (as amended): for every request line that passes the length,
method, space-slash, quote and version checks and whose first `/` lies before
the first case-insensitive match of HTTP/1.1, the extracted request target is
the substring of the line from its first `/` up to (excluding) the start of
that match with its last octet removed, whatever that octet is (it is the
trailing space when a space precedes the match); the line is then accepted
exactly when this target contains a `.`, and gets 501 otherwise. -/
theorem main_target_extraction (line : List octet) (sp n1 : Nat)
    (hget : strncmp line (bytes "GET") 3 = 0)
    (hsp : strchr line 32 = some sp)
    (hslash : strncmp ((line.drop sp).take 2) (bytes " /") 2 = 0)
    (hquote : 34 ∉ line)
    (hver : strcasestr line (bytes "HTTP/1.1") = some n1)
    (hlt : line.indexOf 47 < n1) :
    ∃ t last, (line.drop (line.indexOf 47)).take (n1 - line.indexOf 47) = t ++ [last]
      ∧ main_validate line =
          if 46 ∈ t then Checked.ok (t, (n1 : Int) - (line.indexOf 47 : Int))
          else Checked.error 501 := by
  have hn1 : n1 ≤ line.length := by
    have h8 : ((bytes "HTTP/1.1").map tolower).length = 8 := by decide
    have := memmem_some_length (t := (bytes "HTTP/1.1").map tolower) (by decide) hver
    rw [h8, List.length_map] at this
    omega
  have hk : n1 - line.indexOf 47 - 1 < (line.drop (line.indexOf 47)).length := by
    rw [List.length_drop]; omega
  refine ⟨(line.drop (line.indexOf 47)).take (n1 - line.indexOf 47 - 1),
    (line.drop (line.indexOf 47))[n1 - line.indexOf 47 - 1], ?_,
    main_validate_target line sp n1 hget hsp hslash hquote hver hlt⟩
  have e : n1 - line.indexOf 47 = (n1 - line.indexOf 47 - 1) + 1 := by omega
  conv_lhs => rw [e]
  rw [List.take_succ, List.getElem?_eq_getElem hk]
  rfl

/-- C12 (as amended), on `GET /index.html HTTP/1.1`. -/
theorem main_target_extraction_witness :
    ∃ t last, bytes "/index.html " = t ++ [last]
      ∧ main_validate (bytes "GET /index.html HTTP/1.1\r\n") =
          if 46 ∈ t then Checked.ok (t, 12) else Checked.error 501 :=
  main_target_extraction (bytes "GET /index.html HTTP/1.1\r\n") 3 16 (by decide) (by decide)
    (by decide) (by decide) (by decide) (by decide)

/-- C12, refuted as stated: the line `GET /a.htmlHTTP/1.1` passes the
length, method, space-slash, quote and version checks; the substring from its
first `/` to the match of HTTP/1.1 is `/a.html`, without trailing space, and
the extracted target is `/a.htm`. -/
theorem main_target_loses_octet :
    main_line (bytes "GET /a.htmlHTTP/1.1\r\n" ++ [0])
      = Checked.ok (bytes "GET /a.htmlHTTP/1.1\r\n")
    ∧ strcasestr (bytes "GET /a.htmlHTTP/1.1\r\n") (bytes "HTTP/1.1") = some 11
    ∧ (bytes "GET /a.htmlHTTP/1.1\r\n").indexOf 47 = 4
    ∧ ((bytes "GET /a.htmlHTTP/1.1\r\n").drop 4).take (11 - 4) = bytes "/a.html"
    ∧ main_validate (bytes "GET /a.htmlHTTP/1.1\r\n") = Checked.ok (bytes "/a.htm", 7) := by
  refine ⟨by decide, by decide, by decide, by decide, by decide⟩

/-! ## The claims about the resolved path and the extension -/

theorem indexOf_split {pre ext : List octet} {x : octet} (h : x ∉ pre) :
    (pre ++ x :: ext).indexOf x = pre.length := by
  induction pre with
  | nil => simp
  | cons y ys ih =>
    have hy : y ≠ x := fun e => h (by rw [e]; exact List.mem_cons_self _ _)
    rw [List.cons_append, List.indexOf_cons_ne _ hy, ih (fun hm => h (List.mem_cons_of_mem _ hm))]
    rfl

set_option maxRecDepth 100000 in
/-- C15: for every root and every query-stripped path `p` of an accepted
request, the resolved path is exactly the octet string root ++ `p`, with no
normalisation: the answer of the server depends on the file system only
through `access`, `fopen` and the interpreter command at root ++ `p`; its
length is |root| + |p|, and every segment of `p` (such as `..` or `//`)
appears in it unchanged, `p` being its end.  So the target `/../x.html`
resolves to root ++ `/../x.html`: under the root `/srv` it is found when the
file system holds `/srv/../x.html` (and then gets 501 for its extension
`./x.html`), and is not found (404) when it holds `/x.html` or `/srv/x.html`
instead. -/
theorem main_serve_resolved_path (p query : List octet) (s : Server) :
    (∃ F : Bool → Bool → Option (List FRead) → Option (List FRead) → Option Server,
        ∀ w : World, main_serve w p query s =
          F (w.access_F_OK (s.root ++ p)) (w.access_R_OK (s.root ++ p)) (w.fopen (s.root ++ p))
            (w.popen (main_command query (s.root ++ p))))
    ∧ (s.root ++ p).length = s.root.length + p.length
    ∧ p <:+ s.root ++ p
    ∧ (∀ seg, seg <:+: p → seg <:+: s.root ++ p)
    ∧ main_serve (oneFile (bytes "/srv/../x.html") []) (bytes "/../x.html") []
          (serving (bytes "/srv")) = some (error 501 (serving (bytes "/srv"))).2
    ∧ main_serve (oneFile (bytes "/x.html") []) (bytes "/../x.html") []
          (serving (bytes "/srv")) = some (error 404 (serving (bytes "/srv"))).2
    ∧ main_serve (oneFile (bytes "/srv/x.html") []) (bytes "/../x.html") []
          (serving (bytes "/srv")) = some (error 404 (serving (bytes "/srv"))).2 := by
  refine ⟨⟨fun a b c d => main_serve ⟨fun _ => a, fun _ => b, fun _ => c, fun _ => d⟩ p query s,
    fun w => rfl⟩, List.length_append _ _, List.suffix_append _ _, ?_, by decide, by decide,
    by decide⟩
  intro seg h
  exact h.trans (List.suffix_append _ _).isInfix

/-- The dispatch of `main_serve` for a file that exists and is readable and
whose resolved path is `pre`, a dot and `ext`, `pre` without any dot. -/
theorem main_serve_of_split (w : World) (p query pre ext : List octet) (s : Server)
    (hsplit : s.root ++ p = pre ++ 46 :: ext) (hpre : 46 ∉ pre)
    (hF : w.access_F_OK (s.root ++ p) = true) (hR : w.access_R_OK (s.root ++ p) = true) :
    main_serve w p query s =
      some (if strcasecmp (bytes "php") ext = 0 then main_dynamic w query (s.root ++ p) s
            else main_static w ext (s.root ++ p) s) := by
  unfold main_serve
  simp only [hF, hR, Bool.not_true, Bool.false_eq_true, if_false]
  have hmem : (46 : octet) ∈ s.root ++ p := by rw [hsplit]; simp
  rw [strchr_of_mem (by decide) hmem]
  simp only
  have e : (s.root ++ p).drop ((s.root ++ p).indexOf 46 + 1) = ext := by
    rw [hsplit, indexOf_split hpre, List.drop_append]
    rfl
  rw [e]
  split <;> rfl

/-- C16: for every resolved path that contains a `.`, written as `pre`, the
first `.` and `ext` (`pre` holds no `.`), of a file that exists and is
readable, the extension used for dispatch (the comparison with `php`) and for
the MIME lookup is `ext`, the substring after the first `.` of the full
resolved path (root included) up to its end, not the substring after the last
`.`. -/
theorem main_serve_extension (w : World) (p query pre ext : List octet) (s : Server)
    (hsplit : s.root ++ p = pre ++ 46 :: ext) (hpre : 46 ∉ pre)
    (hF : w.access_F_OK (s.root ++ p) = true) (hR : w.access_R_OK (s.root ++ p) = true) :
    main_serve w p query s =
      some (if strcasecmp (bytes "php") ext = 0 then main_dynamic w query (s.root ++ p) s
            else main_static w ext (s.root ++ p) s)
    ∧ (strcasecmp (bytes "php") ext = 0 ↔ ext.map tolower = bytes "php")
    ∧ (lookup ext = none → main_static w ext (s.root ++ p) s = (error 501 s).2) := by
  refine ⟨main_serve_of_split w p query pre ext s hsplit hpre hF hR, ?_, ?_⟩
  · rw [strcasecmp_eq_zero]
    have e : (bytes "php").map tolower = bytes "php" := by decide
    rw [e]
    exact eq_comm
  · intro h
    unfold main_static
    rw [h]

set_option maxRecDepth 100000 in
/-- C16, on a path ending in `/a.tar.gz` (extension `tar.gz`) and on a root
with a dot (`/srv.d`, extension `d/x.html`). -/
theorem main_serve_extension_witness :
    main_serve (oneFile (bytes "/srv/a.tar.gz") []) (bytes "/a.tar.gz") [] (serving (bytes "/srv"))
      = some (main_static (oneFile (bytes "/srv/a.tar.gz") []) (bytes "tar.gz")
          (bytes "/srv/a.tar.gz") (serving (bytes "/srv")))
    ∧ main_serve (oneFile (bytes "/srv.d/x.html") []) (bytes "/x.html") []
        (serving (bytes "/srv.d"))
      = some (main_static (oneFile (bytes "/srv.d/x.html") []) (bytes "d/x.html")
          (bytes "/srv.d/x.html") (serving (bytes "/srv.d"))) := by
  have h1 := (main_serve_extension (oneFile (bytes "/srv/a.tar.gz") []) (bytes "/a.tar.gz") []
    (bytes "/srv/a") (bytes "tar.gz") (serving (bytes "/srv")) (by decide) (by decide)
    (by decide) (by decide)).1
  have h2 := (main_serve_extension (oneFile (bytes "/srv.d/x.html") []) (bytes "/x.html") []
    (bytes "/srv") (bytes "d/x.html") (serving (bytes "/srv.d")) (by decide) (by decide)
    (by decide) (by decide)).1
  rw [if_neg (by decide)] at h1 h2
  exact ⟨h1, h2⟩

/-! ## Properties of `load` and of the responses with status 200 -/

theorem loadLoop_ok : ∀ (f : List FRead) (body : Option (List octet)) (s : Server),
    (∀ r ∈ f, r.ferror = false) →
    (loadLoop f body s).1 = ((body.getD [] ++ fileBytes f).length : Int)
    ∧ (loadLoop f body s).2.body.getD [] = body.getD [] ++ fileBytes f
  | [], body, s, _ => by simp [loadLoop, fileBytes]
  | r :: rest, body, s, h => by
    have hr : r.ferror = false := h r (List.mem_cons_self _ _)
    have hb : (if r.octets.length > 0 then some (body.getD [] ++ r.octets) else body).getD []
        = body.getD [] ++ r.octets := by
      split
      · rfl
      · rename_i h0
        have : r.octets = [] := List.length_eq_zero.1 (by omega)
        rw [this, List.append_nil]
    rw [loadLoop, fileBytes]
    simp only [hr, Bool.false_eq_true, if_false]
    by_cases he : r.feof = true
    · simp only [he, if_true]
      rw [hb]
      exact ⟨rfl, rfl⟩
    · simp only [he, if_false]
      have ih := loadLoop_ok rest
        (if r.octets.length > 0 then some (body.getD [] ++ r.octets) else body) s
        (fun x hx => h x (List.mem_cons_of_mem _ hx))
      rw [hb, List.append_assoc] at ih
      exact ih

/-- `load` on a file read without error: it returns the size of the file
and leaves its content in `body`. -/
theorem load_ok (s : Server) (f : List FRead) (hb : s.body = none)
    (hf : ∀ r ∈ f, r.ferror = false) :
    (load { s with file := some f }).1 = ((fileBytes f).length : Int)
    ∧ (load { s with file := some f }).2.body.getD [] = fileBytes f
    ∧ (load { s with file := some f }).2.cfd = s.cfd := by
  have h := loadLoop_ok f none { s with file := some f } hf
  simp only [Option.getD_none, List.nil_append, hb] at h
  refine ⟨?_, ?_, load_cfd _⟩
  · unfold load
    simp only [hb, Option.isSome_none, Bool.false_eq_true, if_false]
    exact h.1
  · unfold load
    simp only [hb, Option.isSome_none, Bool.false_eq_true, if_false]
    exact h.2

/-- `%i` prints a size below 2^31 in decimal. -/
theorem fmt_i_small (n : Nat) (h : n < 2147483648) : fmt_i (n : Int) = bytes (toString n) := by
  have e : toInt32 (n : Int) = (n : Int) := by
    unfold toInt32
    have h1 : (n : Int) % 4294967296 = (n : Int) := by omega
    simp only [h1]
    rw [if_pos (by omega)]
  unfold fmt_i
  simp only [e]
  rw [if_neg (by omega)]
  rfl

theorem fmt_i_big : fmt_i ((2147483648 : Nat) : Int) = bytes "-2147483648" := by decide

theorem fileBytes_replicate (m : Nat) (x : octet) : ∀ k : Nat,
    fileBytes (List.replicate k { octets := List.replicate m x, ferror := false, feof := false })
      = List.replicate (k * m) x
  | 0 => by simp [fileBytes]
  | k + 1 => by
    rw [List.replicate_succ, fileBytes, fileBytes_replicate m x k]
    simp only [Bool.false_eq_true, if_false]
    rw [← List.replicate_add]
    congr 1
    rw [Nat.succ_mul, Nat.add_comm]

theorem bigFile_bytes : fileBytes bigFile = List.replicate (4194304 * 512) 97 :=
  fileBytes_replicate 512 97 4194304

theorem bigFile_ok : ∀ r ∈ bigFile, r.ferror = false := by
  intro r h
  rw [(List.mem_replicate.1 h).2]

/-- A static response, every read and every write succeeding. -/
theorem main_static_ok (w : World) (extension path type : List octet) (s : Server) (c : Conn)
    (f : List FRead) (hc : s.cfd = some c) (hw : c.wscript = []) (hb : s.body = none)
    (hl : lookup extension = some type) (hfo : w.fopen path = some f)
    (hf : ∀ r ∈ f, r.ferror = false) :
    (main_static w extension path s).cfd.map (·.output) = some
      (c.output ++ (bytes "HTTP/1.1 200 OK\r\nConnection: close\r\nContent-Length: "
        ++ fmt_i ((fileBytes f).length : Int) ++ bytes "\r\nContent-Type: " ++ type
        ++ bytes "\r\n\r\n" ++ fileBytes f)) := by
  obtain ⟨h1, h2, h3⟩ := load_ok s f hb hf
  unfold main_static
  rw [hl]
  simp only
  rw [hfo]
  simp only
  generalize load { s with file := some f } = r at h1 h2 h3 ⊢
  have hne : ¬ r.1 = -1 := by rw [h1]; omega
  rw [if_neg hne, h3, hc]
  simp only
  rw [sendAll_wscript_nil _ _ hw, h1, h2]
  have e : bytes "HTTP/1.1 200 OK\r\nConnection: close\r\nContent-Length: "
      = bytes "HTTP/1.1 200 OK\r\n" ++ bytes "Connection: close\r\n" ++ bytes "Content-Length: " := by
    decide
  have e2 : bytes "\r\nContent-Type: " = bytes "\r\n" ++ bytes "Content-Type: " := by decide
  rw [e, e2]
  simp [List.append_assoc]

/-- A dynamic response, every read and every write succeeding, when the
output of the interpreter holds CRLF CRLF, first at offset `k`. -/
theorem main_dynamic_ok (w : World) (query path : List octet) (s : Server) (c : Conn)
    (f : List FRead) (k : Nat) (hc : s.cfd = some c) (hw : c.wscript = []) (hb : s.body = none)
    (hpo : w.popen (main_command query path) = some f) (hf : ∀ r ∈ f, r.ferror = false)
    (hk : memmem (fileBytes f) CRLFCRLF = some k) :
    (main_dynamic w query path s).cfd.map (·.output) = some
      (c.output ++ (bytes "HTTP/1.1 200 OK\r\nConnection: close\r\nContent-Length: "
        ++ fmt_i (((fileBytes f).length : Int) - ((k : Int) + 4)) ++ bytes "\r\n"
        ++ fileBytes f)) := by
  obtain ⟨h1, h2, h3⟩ := load_ok s f hb hf
  unfold main_dynamic
  simp only
  rw [hpo]
  simp only
  generalize load { s with file := some f } = r at h1 h2 h3 ⊢
  have hne : ¬ r.1 = -1 := by rw [h1]; omega
  rw [if_neg hne, h2, hk]
  simp only
  rw [h3, hc]
  simp only
  rw [sendAll_wscript_nil _ _ hw, h1]
  have e : bytes "HTTP/1.1 200 OK\r\nConnection: close\r\nContent-Length: "
      = bytes "HTTP/1.1 200 OK\r\n" ++ bytes "Connection: close\r\n" ++ bytes "Content-Length: " := by
    decide
  rw [e]
  simp [List.append_assoc]

/-- A dynamic request whose interpreter output holds no CRLF CRLF gets the
500 response, and nothing else is written. -/
theorem main_dynamic_no_terminator (w : World) (query path : List octet) (s : Server) (c : Conn)
    (f : List FRead) (hc : s.cfd = some c) (hw : c.wscript = []) (hb : s.body = none)
    (hpo : w.popen (main_command query path) = some f) (hf : ∀ r ∈ f, r.ferror = false)
    (hk : memmem (fileBytes f) CRLFCRLF = none) :
    (main_dynamic w query path s).cfd.map (·.output) = some
      (c.output ++ bytes "HTTP/1.1 500 Internal Server Error\r\nConnection: close\r\nContent-Length: 113\r\nContent-Type: text/html\r\n\r\n<html><head><title>500 Internal Server Error</title></head><body><h1>500 Internal Server Error</h1></body></html>") := by
  obtain ⟨h1, h2, h3⟩ := load_ok s f hb hf
  unfold main_dynamic
  simp only
  rw [hpo]
  simp only
  generalize load { s with file := some f } = r at h1 h2 h3 ⊢
  have hne : ¬ r.1 = -1 := by rw [h1]; omega
  rw [if_neg hne, h2, hk]
  simp only
  rw [error_wscript_nil 500 (bytes "Internal Server Error") _ c (h3.trans hc) hw (by omega)
    (by omega) phrase_500, errorWrites_500]
  rfl

/-! ## Requests of the form `GET /x.ext HTTP/1.1` -/

theorem tolower_eq_dot {c : Nat} (h : tolower c = 46) : c = 46 := by
  unfold tolower at h
  by_cases hc : 65 ≤ c ∧ c ≤ 90
  · rw [if_pos hc] at h
    have h1 : c + 32 = (46 : Nat) := h
    omega
  · rw [if_neg hc] at h
    exact h

theorem tolower_ge {c : Nat} (h : 65 ≤ c) : (65 : Nat) ≤ tolower c := by
  unfold tolower
  by_cases hc : 65 ≤ c ∧ c ≤ 90
  · rw [if_pos hc]
    show 65 ≤ c + 32
    omega
  · rw [if_neg hc]
    exact h

theorem prefix_getElem? {t l : List octet} {q i : Nat} (h : t <+: l.drop q) (hi : i < t.length) :
    l[q + i]? = t[i]? := by
  obtain ⟨r, hr⟩ := h
  have : (l.drop q)[i]? = t[i]? := by
    rw [← hr, List.getElem?_append_left hi]
  rw [← this, List.getElem?_drop]

/-- In `u.e http/1.1` CRLF, where `u` holds no dot and `e` is not empty and
made of octets from 65 on, the first occurrence of `http/1.1` is the one
after the space. -/
theorem memmem_version (u e : List octet) (hu : 46 ∉ u) (he : ∀ d ∈ e, 65 ≤ d) (he0 : e ≠ []) :
    memmem (u ++ 46 :: (e ++ [32, 104, 116, 116, 112, 47, 49, 46, 49, 13, 10]))
        [104, 116, 116, 112, 47, 49, 46, 49]
      = some (u.length + 1 + e.length + 1) := by
  rw [memmem_eq_some_iff]
  constructor
  · have e1 : u ++ 46 :: (e ++ [32, 104, 116, 116, 112, 47, 49, 46, 49, 13, 10])
        = (u ++ 46 :: e ++ [32]) ++ ([104, 116, 116, 112, 47, 49, 46, 49] ++ [13, 10]) := by
      simp
    have e2 : u.length + 1 + e.length + 1 = (u ++ 46 :: e ++ [32]).length := by
      simp; omega
    rw [e1, e2, List.drop_left]
    exact List.prefix_append _ _
  · intro q hq hpre
    have h6 := prefix_getElem? (i := 6) hpre (by decide)
    have h7 := prefix_getElem? (i := 7) hpre (by decide)
    simp only [List.getElem?_cons_succ, List.getElem?_cons_zero] at h6 h7
    have hepos : 0 < e.length := List.length_pos.2 he0
    rcases Nat.lt_trichotomy (q + 6) u.length with hlt | heq | hgt
    · rw [List.getElem?_append_left hlt] at h6
      exact hu (List.getElem?_mem h6)
    · rw [List.getElem?_append_right (by omega)] at h7
      have e3 : q + 7 - u.length = 0 + 1 := by omega
      rw [e3, List.getElem?_cons_succ, List.getElem?_append_left hepos] at h7
      exact absurd (he 49 (List.getElem?_mem h7)) (by decide)
    · rw [List.getElem?_append_right (by omega)] at h6
      obtain ⟨j, hj⟩ : ∃ j, q + 6 - u.length = j + 1 := ⟨q + 6 - u.length - 1, by omega⟩
      rw [hj, List.getElem?_cons_succ] at h6
      by_cases hje : j < e.length
      · rw [List.getElem?_append_left hje] at h6
        exact absurd (he 46 (List.getElem?_mem h6)) (by decide)
      · rw [List.getElem?_append_right (by omega)] at h6
        have hk : j - e.length < 7 := by omega
        generalize j - e.length = k at h6 hk
        interval_cases k <;> simp at h6

theorem requestLine_eq (x ext : List octet) :
    requestLine x ext
      = 71 :: 69 :: 84 :: 32 :: 47
          :: (x ++ 46 :: (ext ++ [32, 72, 84, 84, 80, 47, 49, 46, 49, 13, 10])) := by
  have e1 : bytes "GET /" = [71, 69, 84, 32, 47] := by decide
  have e2 : bytes "." = [46] := by decide
  have e3 : bytes " HTTP/1.1\r\n" = [32, 72, 84, 84, 80, 47, 49, 46, 49, 13, 10] := by decide
  unfold requestLine
  rw [e1, e2, e3]
  simp

theorem simpleTarget_eq (x ext : List octet) : simpleTarget x ext = 47 :: (x ++ 46 :: ext) := by
  have e1 : bytes "/" = [47] := by decide
  have e2 : bytes "." = [46] := by decide
  unfold simpleTarget
  rw [e1, e2]
  simp

theorem requestLine_length (x ext : List octet) :
    (requestLine x ext).length = x.length + ext.length + 17 := by
  rw [requestLine_eq]
  simp
  omega

/-- The first match of HTTP/1.1, ignoring case, in the request line of
`GET /x.ext HTTP/1.1` is the version. -/
theorem requestLine_version (x ext : List octet) (hx : 46 ∉ x) (he : ∀ d ∈ ext, 65 ≤ d)
    (he0 : ext ≠ []) :
    strcasestr (requestLine x ext) (bytes "HTTP/1.1") = some (x.length + ext.length + 7) := by
  have e : (bytes "HTTP/1.1").map tolower = [104, 116, 116, 112, 47, 49, 46, 49] := by decide
  have d1 : tolower 71 = 103 ∧ tolower 69 = 101 ∧ tolower 84 = 116 ∧ tolower 32 = 32
      ∧ tolower 47 = 47 ∧ tolower 46 = 46 := by decide
  have d2 : List.map tolower [32, 72, 84, 84, 80, 47, 49, 46, 49, 13, 10]
      = [32, 104, 116, 116, 112, 47, 49, 46, 49, 13, 10] := by decide
  have e2 : (requestLine x ext).map tolower
      = ([103, 101, 116, 32, 47] ++ x.map tolower)
          ++ 46 :: (ext.map tolower ++ [32, 104, 116, 116, 112, 47, 49, 46, 49, 13, 10]) := by
    rw [requestLine_eq]
    simp only [List.map_cons, List.map_append, d1.1, d1.2.1, d1.2.2.1, d1.2.2.2.1,
      d1.2.2.2.2.1, d1.2.2.2.2.2, d2]
    rfl
  unfold strcasestr
  rw [e, e2, memmem_version]
  · simp
    omega
  · intro h
    rcases List.mem_append.1 h with h1 | h1
    · revert h1; decide
    · obtain ⟨c, hc, hc2⟩ := List.mem_map.1 h1
      have := tolower_eq_dot hc2
      exact hx (this ▸ hc)
  · intro d hd
    obtain ⟨c, hc, hc2⟩ := List.mem_map.1 hd
    rw [← hc2]
    exact tolower_ge (he c hc)
  · intro h
    exact he0 (List.map_eq_nil_iff.1 h)

theorem requestLine_not_mem (x ext : List octet) (y : octet) (hx : y ∉ x)
    (he : ∀ d ∈ ext, 65 ≤ d) (hy : y < 65)
    (hlit : y ∉ [71, 69, 84, 32, 47, 46, 32, 72, 84, 84, 80, 47, 49, 46, 49, 13, 10]) :
    y ∉ 71 :: 69 :: 84 :: 32 :: 47
          :: (x ++ 46 :: (ext ++ [32, 72, 84, 84, 80, 47, 49, 46, 49, 13, 10])) := by
  intro h
  have hext : y ∉ ext := fun hm => absurd (he y hm) (Nat.not_le.2 hy)
  simp only [List.mem_cons, List.mem_append, List.mem_nil_iff, or_false] at h hlit
  simp only [hx, hext, false_or] at h
  exact hlit (by tauto)

/-- The request line of `GET /x.ext HTTP/1.1` passes every check of
`main_validate`, which extracts the target `/x.ext`. -/
theorem main_validate_requestLine (x ext : List octet) (hx : 46 ∉ x) (hq : 34 ∉ x)
    (he : ∀ d ∈ ext, 65 ≤ d) (he0 : ext ≠ []) :
    main_validate (requestLine x ext)
      = Checked.ok (simpleTarget x ext, ((x.length + ext.length + 3 : Nat) : Int)) := by
  have hver := requestLine_version x ext hx he he0
  have hquote : 34 ∉ requestLine x ext := by
    rw [requestLine_eq]
    exact requestLine_not_mem x ext 34 hq he (by decide) (by decide)
  have hidx : (requestLine x ext).indexOf 47 = 4 := by
    rw [requestLine_eq]
    rfl
  have hsp : strchr (requestLine x ext) 32 = some 3 := by
    have hm : (32 : octet) ∈ requestLine x ext := by
      rw [requestLine_eq]
      simp
    rw [strchr_of_mem (by decide) hm, requestLine_eq]
    rfl
  have hget : strncmp (requestLine x ext) (bytes "GET") 3 = 0 := by
    have e : (bytes "GET").take 3 = [71, 69, 84] := by decide
    rw [strncmp_eq_zero, requestLine_eq, e]
    rfl
  have hslash : strncmp (((requestLine x ext).drop 3).take 2) (bytes " /") 2 = 0 := by
    have e : (bytes " /").take 2 = [32, 47] := by decide
    rw [strncmp_eq_zero, requestLine_eq, e]
    rfl
  have h := main_validate_target (requestLine x ext) 3 (x.length + ext.length + 7) hget hsp
    hslash hquote hver (by rw [hidx]; omega)
  rw [hidx] at h
  have e : ((requestLine x ext).drop 4).take (x.length + ext.length + 7 - 4 - 1)
      = simpleTarget x ext := by
    rw [requestLine_eq, simpleTarget_eq]
    have e1 : (71 :: 69 :: 84 :: 32 :: 47
          :: (x ++ 46 :: (ext ++ [32, 72, 84, 84, 80, 47, 49, 46, 49, 13, 10]))).drop 4
        = (47 :: (x ++ 46 :: ext)) ++ [32, 72, 84, 84, 80, 47, 49, 46, 49, 13, 10] := by
      simp
    rw [e1]
    apply List.take_left'
    simp
    omega
  rw [e] at h
  have hdot : 46 ∈ simpleTarget x ext := by
    rw [simpleTarget_eq]
    simp
  rw [if_pos hdot] at h
  rw [h]
  congr 2
  omega

theorem requestLine_crlf (x ext : List octet) :
    requestLine x ext
      = (71 :: 69 :: 84 :: 32 :: 47 :: (x ++ 46 :: (ext ++ [32, 72, 84, 84, 80, 47, 49, 46, 49])))
          ++ [13, 10] := by
  rw [requestLine_eq]
  simp

theorem requestLine_crlf_not_mem (x ext : List octet) (y : octet) (hx : y ∉ x)
    (he : ∀ d ∈ ext, 65 ≤ d) (hy : y < 65)
    (hlit : y ∉ [71, 69, 84, 32, 47, 46, 32, 72, 84, 84, 80, 47, 49, 46, 49]) :
    y ∉ 71 :: 69 :: 84 :: 32 :: 47 :: (x ++ 46 :: (ext ++ [32, 72, 84, 84, 80, 47, 49, 46, 49])) := by
  intro h
  have hext : y ∉ ext := fun hm => absurd (he y hm) (Nat.not_le.2 hy)
  simp only [List.mem_cons, List.mem_append, List.mem_nil_iff, or_false] at h hlit
  simp only [hx, hext, false_or] at h
  exact hlit (by tauto)

/-- The function `parse` on the octets of `GET /x.ext HTTP/1.1` CRLF CRLF, however
they are split into reads: the buffer is the request line and a NUL. -/
theorem parse_simpleRequest (x ext : List octet) (s : Server) (c : Conn)
    (cs : List (List octet)) (tail : List ReadResult)
    (hc : s.cfd = some c) (hreq : s.request = none)
    (hin : c.input = cs.map ReadResult.octets ++ tail)
    (hne : ∀ ch ∈ cs, ch ≠ []) (hfl : cs.flatten = simpleRequest x ext)
    (h13 : 13 ∉ x) (he : ∀ d ∈ ext, 65 ≤ d) (hlen : (requestLine x ext).length ≤ 8190) :
    ∃ rest, parse s = ((((requestLine x ext).length + 1 : Nat) : Int),
      { s with cfd := some { c with input := rest },
               request := some (requestLine x ext ++ [0]) }) := by
  have hlen2 := requestLine_length x ext
  have e4 : bytes "\r\n" = [13, 10] := by decide
  have e5 : CRLFCRLF = [13, 10] ++ [13, 10] := by decide
  generalize hpre : (71 :: 69 :: 84 :: 32 :: 47
      :: (x ++ 46 :: (ext ++ [32, 72, 84, 84, 80, 47, 49, 46, 49]))) = pre
  have hline : requestLine x ext = pre ++ [13, 10] := by rw [← hpre]; exact requestLine_crlf x ext
  have hpre13 : 13 ∉ pre := by
    rw [← hpre]
    exact requestLine_crlf_not_mem x ext 13 h13 he (by decide) (by decide)
  have hsimple : simpleRequest x ext = pre ++ CRLFCRLF := by
    unfold simpleRequest
    rw [hline, e4, e5]
    simp
  have hplen : pre.length + 2 = (requestLine x ext).length := by
    rw [hline]
    simp
  have hm : memmem (Option.getD (none : Option (List octet)) [] ++ cs.flatten) CRLFCRLF
      = some pre.length := by
    rw [hfl, hsimple]
    exact memmem_append_terminator pre hpre13
  obtain ⟨rest, hr⟩ := parseLoop_found c s tail pre.length (by omega) cs none hne (by decide) hm
  refine ⟨rest, ?_⟩
  rw [parse_eq_parseLoop s c hc hreq, hin, hr]
  have e6 : (Option.getD (none : Option (List octet)) [] ++ cs.flatten).take pre.length = pre := by
    rw [hfl, hsimple]
    exact List.take_left' rfl
  rw [e6, hline]
  have e7 : pre.length + 3 = (pre ++ [13, 10]).length + 1 := by simp
  rw [e7]
  simp

/-- The request line in the buffer that `parse` leaves for
`GET /x.ext HTTP/1.1`. -/
theorem main_line_requestLine (x ext : List octet) (h0 : 0 ∉ x) (h13 : 13 ∉ x)
    (he : ∀ d ∈ ext, 65 ≤ d) :
    cstr (requestLine x ext ++ [0]) = requestLine x ext
    ∧ strstr (cstr (requestLine x ext ++ [0])) (bytes "\r\n")
        = some ((requestLine x ext).length - 2) := by
  have hnul : 0 ∉ requestLine x ext := by
    rw [requestLine_eq]
    exact requestLine_not_mem x ext 0 h0 he (by decide) (by decide)
  have hc := cstr_append_nul (requestLine x ext) [] hnul
  refine ⟨hc, ?_⟩
  rw [hc]
  have e4 : bytes "\r\n" = [13, 10] := by decide
  generalize hpre : (71 :: 69 :: 84 :: 32 :: 47
      :: (x ++ 46 :: (ext ++ [32, 72, 84, 84, 80, 47, 49, 46, 49]))) = pre
  have hline : requestLine x ext = pre ++ [13, 10] := by rw [← hpre]; exact requestLine_crlf x ext
  have hpre13 : 13 ∉ pre := by
    rw [← hpre]
    exact requestLine_crlf_not_mem x ext 13 h13 he (by decide) (by decide)
  have h := memmem_append_needle pre [] [10] 13 hpre13
  rw [List.append_nil] at h
  unfold strstr
  rw [hline, e4, h]
  simp

theorem main_query_none (t : List octet) (h : 63 ∉ t) : main_query t = (t, []) := by
  unfold main_query
  rw [strchr_of_not_mem (by decide) h]

/-- The handling of `GET /x.ext HTTP/1.1` CRLF CRLF, for a file that exists and
is readable: the request reaches the dispatch on the extension `ext`. -/
theorem simple_request_handled (w : World) (x ext : List octet) (s : Server) (c : Conn)
    (cs : List (List octet)) (tail : List ReadResult)
    (hc : s.cfd = some c) (hreq : s.request = none)
    (hin : c.input = cs.map ReadResult.octets ++ tail)
    (hne : ∀ ch ∈ cs, ch ≠ []) (hfl : cs.flatten = simpleRequest x ext)
    (hroot : 46 ∉ s.root)
    (hdot : 46 ∉ x) (hqm : 63 ∉ x) (hq : 34 ∉ x) (h13 : 13 ∉ x) (h0 : 0 ∉ x)
    (he : ∀ d ∈ ext, 65 ≤ d) (he0 : ext ≠ []) (hlen : (requestLine x ext).length ≤ 8190)
    (hF : w.access_F_OK (s.root ++ simpleTarget x ext) = true)
    (hR : w.access_R_OK (s.root ++ simpleTarget x ext) = true) :
    ∃ rest, main_handle w s = some
      (if strcasecmp (bytes "php") ext = 0 then
        main_dynamic w [] (s.root ++ simpleTarget x ext)
          { s with cfd := some { c with input := rest },
                   request := some (requestLine x ext ++ [0]) }
      else
        main_static w ext (s.root ++ simpleTarget x ext)
          { s with cfd := some { c with input := rest },
                   request := some (requestLine x ext ++ [0]) }) := by
  obtain ⟨rest, hp⟩ := parse_simpleRequest x ext s c cs tail hc hreq hin hne hfl h13 he hlen
  obtain ⟨hcs, hk⟩ := main_line_requestLine x ext h0 h13 he
  have hlen2 := requestLine_length x ext
  refine ⟨rest, ?_⟩
  unfold main_handle
  simp only
  rw [hp]
  have hne1 : ¬ ((((requestLine x ext).length + 1 : Nat) : Int) = -1) := by omega
  simp only [if_neg hne1]
  generalize hs1 : ({ s with cfd := some { c with input := rest }, request := some (requestLine x ext ++ [0]) } : Server) = s1
  have hreq1 : s1.request = some (requestLine x ext ++ [0]) := by rw [← hs1]
  have hroot1 : s1.root = s.root := by rw [← hs1]
  rw [main_respond_of_line w s1 _ _ hreq1 hk (by omega), hcs]
  have e1 : (requestLine x ext).take ((requestLine x ext).length - 2 + 2) = requestLine x ext := by
    apply List.take_of_length_le
    omega
  rw [e1, main_validate_requestLine x ext hdot hq he he0]
  simp only
  have h63 : 63 ∉ simpleTarget x ext := by
    rw [simpleTarget_eq]
    intro h
    rcases List.mem_cons.1 h with h1 | h1
    · exact absurd h1 (by decide)
    · rcases List.mem_append.1 h1 with h2 | h2
      · exact hqm h2
      · rcases List.mem_cons.1 h2 with h3 | h3
        · exact absurd h3 (by decide)
        · exact absurd (he 63 h3) (by decide)
  rw [main_query_none _ h63]
  simp only
  have hsplit : s1.root ++ simpleTarget x ext = (s.root ++ 47 :: x) ++ 46 :: ext := by
    rw [hroot1, simpleTarget_eq]
    simp
  have hpre : 46 ∉ s.root ++ 47 :: x := by
    intro h
    rcases List.mem_append.1 h with h1 | h1
    · exact hroot h1
    · rcases List.mem_cons.1 h1 with h2 | h2
      · exact absurd h2 (by decide)
      · exact hdot h2
  rw [main_serve_of_split w (simpleTarget x ext) [] (s.root ++ 47 :: x) ext s1 hsplit hpre
    (by rw [hroot1]; exact hF) (by rw [hroot1]; exact hR), hroot1]

/-! ## The claims about the responses with status 200 -/

/-- An extension with a MIME type is made of letters, is not empty and is
not `php`. -/
theorem lookup_letters (ext type : List octet) (h : lookup ext = some type) :
    (∀ d ∈ ext, 65 ≤ d) ∧ ext ≠ [] ∧ strcasecmp (bytes "php") ext ≠ 0 := by
  have key : ∀ t : List octet, ext.map tolower = t → (∀ y ∈ t, 97 ≤ y) → t ≠ [] →
      t ≠ bytes "php" →
      (∀ d ∈ ext, 65 ≤ d) ∧ ext ≠ [] ∧ strcasecmp (bytes "php") ext ≠ 0 := by
    intro t ht hy h0 hp
    refine ⟨fun d hd => ?_, ?_, ?_⟩
    · have hm : tolower d ∈ t := ht ▸ List.mem_map_of_mem _ hd
      have h97 := hy _ hm
      unfold tolower at h97
      by_cases hc : 65 ≤ d ∧ d ≤ 90
      · exact hc.1
      · rw [if_neg hc] at h97
        exact le_trans (by decide) h97
    · intro e
      rw [e] at ht
      exact h0 ht.symm
    · rw [Ne, strcasecmp_eq_zero]
      intro e
      have e1 : (bytes "php").map tolower = bytes "php" := by decide
      rw [e1, ht] at e
      exact hp e.symm
  rw [lookup_table] at h
  by_cases h1 : ext.map tolower = bytes "css"
  · exact key _ h1 (by decide) (by decide) (by decide)
  by_cases h2 : ext.map tolower = bytes "html"
  · exact key _ h2 (by decide) (by decide) (by decide)
  by_cases h3 : ext.map tolower = bytes "gif"
  · exact key _ h3 (by decide) (by decide) (by decide)
  by_cases h4 : ext.map tolower = bytes "ico"
  · exact key _ h4 (by decide) (by decide) (by decide)
  by_cases h5 : ext.map tolower = bytes "jpg"
  · exact key _ h5 (by decide) (by decide) (by decide)
  by_cases h6 : ext.map tolower = bytes "js"
  · exact key _ h6 (by decide) (by decide) (by decide)
  by_cases h7 : ext.map tolower = bytes "png"
  · exact key _ h7 (by decide) (by decide) (by decide)
  rw [if_neg h1, if_neg h2, if_neg h3, if_neg h4, if_neg h5, if_neg h6, if_neg h7] at h
  cases h

/-- The static response to `GET /x.ext HTTP/1.1` CRLF CRLF, from a server
state without request buffer and without body. -/
theorem static_request_handled (w : World) (x ext type : List octet) (s : Server) (c : Conn)
    (cs : List (List octet)) (tail : List ReadResult) (f : List FRead)
    (hc : s.cfd = some c) (hreq : s.request = none) (hb : s.body = none)
    (hin : c.input = cs.map ReadResult.octets ++ tail) (hw : c.wscript = [])
    (hne : ∀ ch ∈ cs, ch ≠ []) (hfl : cs.flatten = simpleRequest x ext)
    (hroot : 46 ∉ s.root)
    (hdot : 46 ∉ x) (hqm : 63 ∉ x) (hq : 34 ∉ x) (h13 : 13 ∉ x) (h0 : 0 ∉ x)
    (hlen : (requestLine x ext).length ≤ 8190)
    (hl : lookup ext = some type)
    (hF : w.access_F_OK (s.root ++ simpleTarget x ext) = true)
    (hR : w.access_R_OK (s.root ++ simpleTarget x ext) = true)
    (hfo : w.fopen (s.root ++ simpleTarget x ext) = some f)
    (hf : ∀ r ∈ f, r.ferror = false)
    (hsize : (fileBytes f).length < 2147483648) :
    ∃ s1, main_handle w s = some s1
      ∧ s1.cfd.map (·.output) = some (c.output
          ++ (bytes "HTTP/1.1 200 OK\r\nConnection: close\r\nContent-Length: "
            ++ bytes (toString (fileBytes f).length) ++ bytes "\r\nContent-Type: " ++ type
            ++ bytes "\r\n\r\n" ++ fileBytes f))
      ∧ Responds c s1 [200] := by
  obtain ⟨he, he0, hphp⟩ := lookup_letters ext type hl
  obtain ⟨rest, hh⟩ := simple_request_handled w x ext s c cs tail hc hreq hin hne hfl hroot hdot
    hqm hq h13 h0 he he0 hlen hF hR
  rw [if_neg hphp] at hh
  have hout := main_static_ok w ext (s.root ++ simpleTarget x ext) type
    { s with cfd := some { c with input := rest }, request := some (requestLine x ext ++ [0]) }
    { c with input := rest } f rfl hw hb hl hfo hf
  rw [fmt_i_small _ hsize] at hout
  refine ⟨_, hh, hout, ?_⟩
  refine ⟨_, 200, List.mem_singleton.2 rfl, hout, ?_⟩
  have e : bytes "HTTP/1.1 200 OK\r\nConnection: close\r\nContent-Length: "
      = bytes "HTTP/1.1 200 OK\r\n" ++ bytes "Connection: close\r\nContent-Length: " := by
    decide
  rw [e]
  simp only [List.append_assoc]
  exact responseStatus_200 _

/-- C18 (as amended): for every server state whose root holds no `.` and
every request `GET /x.ext HTTP/1.1` CRLF CRLF on an accepted connection,
received in any split into non-empty reads, whose request line has at most
8190 octets and whose `x` holds no `.`, `?`, `"`, CR or NUL, such that the
file root/x.ext exists, is readable, is opened and read without error and has
fewer than 2^31 octets, and `ext` is one of the extensions with a MIME
mapping, every write succeeding: the response status is 200 and the
Content-Length header is the size of the file in decimal; the response is the
status line, `Connection: close`, that Content-Length, the Content-Type of
`ext`, a blank line and the octets of the file. -/
theorem static_request_served (w : World) (x ext type : List octet) (s : Server) (c : Conn)
    (cs : List (List octet)) (tail : List ReadResult) (f : List FRead)
    (hin : c.input = cs.map ReadResult.octets ++ tail) (hw : c.wscript = [])
    (hne : ∀ ch ∈ cs, ch ≠ []) (hfl : cs.flatten = simpleRequest x ext)
    (hroot : 46 ∉ s.root)
    (hdot : 46 ∉ x) (hqm : 63 ∉ x) (hq : 34 ∉ x) (h13 : 13 ∉ x) (h0 : 0 ∉ x)
    (hlen : (requestLine x ext).length ≤ 8190)
    (hl : lookup ext = some type)
    (hF : w.access_F_OK (s.root ++ simpleTarget x ext) = true)
    (hR : w.access_R_OK (s.root ++ simpleTarget x ext) = true)
    (hfo : w.fopen (s.root ++ simpleTarget x ext) = some f)
    (hf : ∀ r ∈ f, r.ferror = false)
    (hsize : (fileBytes f).length < 2147483648) :
    ∃ s1, main_iteration w (some c) s = some s1
      ∧ s1.cfd.map (·.output) = some (c.output
          ++ (bytes "HTTP/1.1 200 OK\r\nConnection: close\r\nContent-Length: "
            ++ bytes (toString (fileBytes f).length) ++ bytes "\r\nContent-Type: " ++ type
            ++ bytes "\r\n\r\n" ++ fileBytes f))
      ∧ Responds c s1 [200] :=
  static_request_handled w x ext type (connected (some c) (reset s)).2 c cs tail f rfl rfl rfl
    hin hw hne hfl hroot hdot hqm hq h13 h0 hlen hl hF hR hfo hf hsize

set_option maxRecDepth 100000 in
/-- C18 (as amended), on `GET /index.html HTTP/1.1` under the root `/srv`,
received in two reads, the file `/srv/index.html` holding `hello`. -/
theorem static_request_served_witness :
    ∃ s1, main_iteration (oneFile (bytes "/srv/index.html")
          [{ octets := bytes "hello", ferror := false, feof := true }])
        (some { input := [ReadResult.octets (bytes "GET /index.h"),
          ReadResult.octets (bytes "tml HTTP/1.1\r\n\r\n")], wscript := [], output := [] })
        (serving (bytes "/srv")) = some s1
      ∧ s1.cfd.map (·.output) = some (bytes
          "HTTP/1.1 200 OK\r\nConnection: close\r\nContent-Length: 5\r\nContent-Type: text/html\r\n\r\nhello")
      ∧ Responds { input := [ReadResult.octets (bytes "GET /index.h"),
          ReadResult.octets (bytes "tml HTTP/1.1\r\n\r\n")], wscript := [], output := [] } s1 [200] := by
  obtain ⟨s1, h1, h2, h3⟩ := static_request_served (oneFile (bytes "/srv/index.html")
      [{ octets := bytes "hello", ferror := false, feof := true }])
    (bytes "index") (bytes "html") (bytes "text/html")
    (serving (bytes "/srv"))
    { input := [ReadResult.octets (bytes "GET /index.h"),
        ReadResult.octets (bytes "tml HTTP/1.1\r\n\r\n")], wscript := [], output := [] }
    [bytes "GET /index.h", bytes "tml HTTP/1.1\r\n\r\n"] []
    [{ octets := bytes "hello", ferror := false, feof := true }]
    (by decide) rfl (by decide) (by decide) (by decide) (by decide) (by decide) (by decide)
    (by decide) (by decide) (by decide) (by decide) (by decide) (by decide) (by decide)
    (by decide) (by decide)
  refine ⟨s1, h1, ?_, h3⟩
  rw [h2]
  decide

set_option maxRecDepth 100000 in
/-- C18, refuted as stated: under the root `/srv.d` the request
`GET /x.html HTTP/1.1` for the readable file `/srv.d/x.html`, and under the
root `/srv` the request `GET /a.b.html HTTP/1.1` for the readable file
`/srv/a.b.html`, get the response 501 (their extensions are `d/x.html` and
`b.html`), and under the root `/srv` the request `GET /a?b.html HTTP/1.1` for
the readable file `/srv/a?b.html` gets 404. -/
theorem static_request_not_served :
    (main_handle (oneFile (bytes "/srv.d/x.html")
          [{ octets := bytes "hello", ferror := false, feof := true }])
        { accepted [ReadResult.octets (bytes "GET /x.html HTTP/1.1\r\n\r\n")] with
          root := bytes "/srv.d" }).map (fun s1 => s1.cfd.map (·.output))
      = some (some (bytes "HTTP/1.1 501 Not Implemented\r\nConnection: close\r\nContent-Length: 101\r\nContent-Type: text/html\r\n\r\n<html><head><title>501 Not Implemented</title></head><body><h1>501 Not Implemented</h1></body></html>"))
    ∧ (main_handle (oneFile (bytes "/srv/a.b.html")
          [{ octets := bytes "hello", ferror := false, feof := true }])
        (accepted [ReadResult.octets (bytes "GET /a.b.html HTTP/1.1\r\n\r\n")])).map
          (fun s1 => s1.cfd.map (·.output))
      = some (some (bytes "HTTP/1.1 501 Not Implemented\r\nConnection: close\r\nContent-Length: 101\r\nContent-Type: text/html\r\n\r\n<html><head><title>501 Not Implemented</title></head><body><h1>501 Not Implemented</h1></body></html>"))
    ∧ (main_handle (oneFile (bytes "/srv/a?b.html")
          [{ octets := bytes "hello", ferror := false, feof := true }])
        (accepted [ReadResult.octets (bytes "GET /a?b.html HTTP/1.1\r\n\r\n")])).map
          (fun s1 => s1.cfd.map (·.output))
      = some (some (bytes "HTTP/1.1 404 Not Found\r\nConnection: close\r\nContent-Length: 89\r\nContent-Type: text/html\r\n\r\n<html><head><title>404 Not Found</title></head><body><h1>404 Not Found</h1></body></html>")) := by
  refine ⟨by decide, by decide, by decide⟩

theorem oneFile_fopen (path q : List octet) (file : List FRead) (h : q = path) :
    (oneFile path file).fopen q = some file := by
  unfold oneFile
  simp only
  rw [if_pos h]

theorem bigFile_length : (fileBytes bigFile).length = 2147483648 := by
  rw [bigFile_bytes, List.length_replicate]

theorem bigOutput_bytes : fileBytes bigOutput = CRLFCRLF ++ fileBytes bigFile := rfl

theorem bigOutput_length : (fileBytes bigOutput).length = 2147483652 := by
  have h4 : CRLFCRLF.length = 4 := by decide
  rw [bigOutput_bytes, List.length_append, bigFile_length, h4]

theorem bigOutput_ok : ∀ r ∈ bigOutput, r.ferror = false := by
  intro r h
  rcases List.mem_cons.1 h with h1 | h1
  · rw [h1]
  · exact bigFile_ok r h1

/-- C19, failing input: the file `/srv/x.html` holds 2^31 octets, read
without error, and the request `GET /x.html HTTP/1.1` for it is served with
status 200, Content-Type `text/html` and the octets of the file, every write
succeeding; the Content-Length written is `-2147483648`, not the length
2147483648 of the body in decimal. -/
theorem static_content_length_wraps :
    ∃ s1, main_handle (oneFile (bytes "/srv/x.html") bigFile)
        (accepted [ReadResult.octets (bytes "GET /x.html HTTP/1.1\r\n\r\n")]) = some s1
      ∧ (fileBytes bigFile).length = 2147483648
      ∧ s1.cfd.map (·.output) = some
          (bytes "HTTP/1.1 200 OK\r\nConnection: close\r\nContent-Length: -2147483648\r\nContent-Type: text/html\r\n\r\n"
            ++ fileBytes bigFile) := by
  obtain ⟨rest, hh⟩ := simple_request_handled (oneFile (bytes "/srv/x.html") bigFile)
    (bytes "x") (bytes "html")
    (accepted [ReadResult.octets (bytes "GET /x.html HTTP/1.1\r\n\r\n")])
    { input := [ReadResult.octets (bytes "GET /x.html HTTP/1.1\r\n\r\n")], wscript := [],
      output := [] }
    [bytes "GET /x.html HTTP/1.1\r\n\r\n"] [] rfl rfl (by decide) (by decide) (by decide)
    (by decide) (by decide) (by decide) (by decide) (by decide) (by decide) (by decide)
    (by decide) (by decide) (by decide) (by decide)
  rw [if_neg (by decide)] at hh
  have hout := main_static_ok (oneFile (bytes "/srv/x.html") bigFile) (bytes "html")
    ((accepted [ReadResult.octets (bytes "GET /x.html HTTP/1.1\r\n\r\n")]).root
      ++ simpleTarget (bytes "x") (bytes "html")) (bytes "text/html")
    { accepted [ReadResult.octets (bytes "GET /x.html HTTP/1.1\r\n\r\n")] with
      cfd := some { input := rest, wscript := [], output := [] },
      request := some (requestLine (bytes "x") (bytes "html") ++ [0]) }
    { input := rest, wscript := [], output := [] } bigFile rfl rfl rfl (by decide)
    (oneFile_fopen _ _ _ (by decide)) bigFile_ok
  rw [bigFile_length, fmt_i_big] at hout
  refine ⟨_, hh, bigFile_length, ?_⟩
  have e : ∀ z : List octet, ([] : List octet)
      ++ (bytes "HTTP/1.1 200 OK\r\nConnection: close\r\nContent-Length: " ++ bytes "-2147483648"
        ++ bytes "\r\nContent-Type: " ++ bytes "text/html" ++ bytes "\r\n\r\n" ++ z)
      = bytes "HTTP/1.1 200 OK\r\nConnection: close\r\nContent-Length: -2147483648\r\nContent-Type: text/html\r\n\r\n"
        ++ z := by
    intro z
    have e0 : bytes "HTTP/1.1 200 OK\r\nConnection: close\r\nContent-Length: -2147483648\r\nContent-Type: text/html\r\n\r\n"
        = bytes "HTTP/1.1 200 OK\r\nConnection: close\r\nContent-Length: " ++ bytes "-2147483648"
          ++ bytes "\r\nContent-Type: " ++ bytes "text/html" ++ bytes "\r\n\r\n" := by
      decide
    rw [e0, List.nil_append]
  exact hout.trans (congrArg some (e _))

/-- C20, failing input: the interpreter writes CRLF CRLF and then 2^31
octets, read without error, for the request `GET /x.php HTTP/1.1`; the first
CRLF CRLF of the captured output of size 2147483652 is at offset 0, the
response has status 200, every write succeeding, and the Content-Length
written is `-2147483648`: a negative number, not the count 2147483648 of the
octets after the terminator. -/
theorem dynamic_content_length_wraps :
    ∃ s1, main_handle (oneScript (bytes "/srv/x.php") bigOutput)
        (accepted [ReadResult.octets (bytes "GET /x.php HTTP/1.1\r\n\r\n")]) = some s1
      ∧ memmem (fileBytes bigOutput) CRLFCRLF = some 0
      ∧ (fileBytes bigOutput).length = 2147483652
      ∧ s1.cfd.map (·.output) = some
          (bytes "HTTP/1.1 200 OK\r\nConnection: close\r\nContent-Length: -2147483648\r\n"
            ++ fileBytes bigOutput) := by
  obtain ⟨rest, hh⟩ := simple_request_handled (oneScript (bytes "/srv/x.php") bigOutput)
    (bytes "x") (bytes "php")
    (accepted [ReadResult.octets (bytes "GET /x.php HTTP/1.1\r\n\r\n")])
    { input := [ReadResult.octets (bytes "GET /x.php HTTP/1.1\r\n\r\n")], wscript := [],
      output := [] }
    [bytes "GET /x.php HTTP/1.1\r\n\r\n"] [] rfl rfl (by decide) (by decide) (by decide)
    (by decide) (by decide) (by decide) (by decide) (by decide) (by decide) (by decide)
    (by decide) (by decide) (by decide) (by decide)
  rw [if_pos (by decide)] at hh
  have hk : memmem (fileBytes bigOutput) CRLFCRLF = some 0 := by
    rw [bigOutput_bytes]
    exact memmem_append_of_some _ CRLFCRLF_ne_nil (by decide)
  have hout := main_dynamic_ok (oneScript (bytes "/srv/x.php") bigOutput) []
    ((accepted [ReadResult.octets (bytes "GET /x.php HTTP/1.1\r\n\r\n")]).root
      ++ simpleTarget (bytes "x") (bytes "php"))
    { accepted [ReadResult.octets (bytes "GET /x.php HTTP/1.1\r\n\r\n")] with
      cfd := some { input := rest, wscript := [], output := [] },
      request := some (requestLine (bytes "x") (bytes "php") ++ [0]) }
    { input := rest, wscript := [], output := [] } bigOutput 0 rfl rfl rfl rfl
    bigOutput_ok hk
  have e1 : (((fileBytes bigOutput).length : Int) - (((0 : Nat) : Int) + 4))
      = ((2147483648 : Nat) : Int) := by
    rw [bigOutput_length]
    norm_num
  rw [e1, fmt_i_big] at hout
  refine ⟨_, hh, hk, bigOutput_length, ?_⟩
  have e : ∀ z : List octet, ([] : List octet)
      ++ (bytes "HTTP/1.1 200 OK\r\nConnection: close\r\nContent-Length: " ++ bytes "-2147483648"
        ++ bytes "\r\n" ++ z)
      = bytes "HTTP/1.1 200 OK\r\nConnection: close\r\nContent-Length: -2147483648\r\n" ++ z := by
    intro z
    have e0 : bytes "HTTP/1.1 200 OK\r\nConnection: close\r\nContent-Length: -2147483648\r\n"
        = bytes "HTTP/1.1 200 OK\r\nConnection: close\r\nContent-Length: " ++ bytes "-2147483648"
          ++ bytes "\r\n" := by
      decide
    rw [e0, List.nil_append]
  exact hout.trans (congrArg some (e _))

/-! ## Further claims about `parse` and the request line -/

set_option maxRecDepth 100000 in
/-- C29, failing input `GETHTTP/1.1 /x` CRLF CRLF: the request line passes the
length, method, space-slash, quote and version checks; its first `/`, at
offset 7, is the one inside the match of HTTP/1.1, which starts at offset 3,
so the computed target length is 3 - 7 = -4 and `char abs_path[ln_abs_path]`
is an array of negative size: the behaviour is undefined. -/
theorem main_slash_after_version_undefined (w : World) :
    main_line (bytes "GETHTTP/1.1 /x\r\n" ++ [0]) = Checked.ok (bytes "GETHTTP/1.1 /x\r\n")
    ∧ strncmp (bytes "GETHTTP/1.1 /x\r\n") (bytes "GET") 3 = 0
    ∧ strchr (bytes "GETHTTP/1.1 /x\r\n") 32 = some 11
    ∧ strncmp (((bytes "GETHTTP/1.1 /x\r\n").drop 11).take 2) (bytes " /") 2 = 0
    ∧ strchr (bytes "GETHTTP/1.1 /x\r\n") 34 = none
    ∧ strcasestr (bytes "GETHTTP/1.1 /x\r\n") (bytes "HTTP/1.1") = some 3
    ∧ strchr (bytes "GETHTTP/1.1 /x\r\n") 47 = some 7
    ∧ main_validate (bytes "GETHTTP/1.1 /x\r\n") = Checked.undefined
    ∧ main_handle w (accepted [ReadResult.octets (bytes "GETHTTP/1.1 /x\r\n\r\n")]) = none := by
  refine ⟨by decide, by decide, by decide, by decide, by decide, by decide, by decide,
    by decide, ?_⟩
  rfl

/-- C28: for every byte stream whose first CRLF CRLF starts at offset `k` and
on which `parse` succeeds, the resulting request buffer is the first `k`
octets of the stream followed by CRLF and a NUL octet (every header line
before the blank line is kept), and `parse` returns `k + 3`, the length of
that buffer. -/
theorem parse_success_length (s : Server) (c : Conn) (k : Nat) (hc : s.cfd = some c)
    (hk : memmem (received c.input) CRLFCRLF = some k) (hok : (parse s).1 ≠ -1) :
    (parse s).2.request = some ((received c.input).take k ++ bytes "\r\n" ++ [0])
    ∧ (parse s).1 = ((k + 3 : Nat) : Int)
    ∧ ((received c.input).take k ++ bytes "\r\n" ++ [0]).length = k + 3 := by
  have h4 : CRLFCRLF.length = 4 := by decide
  have hkl := memmem_some_length CRLFCRLF_ne_nil hk
  have e2 : bytes "\r\n" = [13, 10] := by decide
  unfold parse at hok ⊢
  rw [hc] at hok ⊢
  simp only at hok ⊢
  by_cases hr : s.request.isSome = true
  · rw [if_pos hr] at hok
    simp at hok
  · rw [if_neg hr] at hok ⊢
    obtain ⟨p, h1, h2, h3⟩ := parseLoop_success c s c.input none (by decide) hok
    simp only [Option.getD_none, List.nil_append] at h1 h3
    rw [hk] at h1
    cases h1
    refine ⟨?_, h2, ?_⟩
    · rw [h3, e2]
      simp
    · rw [e2]
      simp only [List.length_append, List.length_take, List.length_cons, List.length_nil]
      omega

set_option maxRecDepth 100000 in
/-- C28, on a request with one header line, received in two reads. -/
theorem parse_success_length_witness :
    (parse (accepted [ReadResult.octets (bytes "GET / HTTP/1.1\r\nHo"),
        ReadResult.octets (bytes "st: x\r\n\r\n")])).2.request
      = some (bytes "GET / HTTP/1.1\r\nHost: x\r\n" ++ [0])
    ∧ (parse (accepted [ReadResult.octets (bytes "GET / HTTP/1.1\r\nHo"),
        ReadResult.octets (bytes "st: x\r\n\r\n")])).1 = 26 := by
  have h := parse_success_length (accepted [ReadResult.octets (bytes "GET / HTTP/1.1\r\nHo"),
        ReadResult.octets (bytes "st: x\r\n\r\n")])
    { input := [ReadResult.octets (bytes "GET / HTTP/1.1\r\nHo"),
        ReadResult.octets (bytes "st: x\r\n\r\n")], wscript := [], output := [] } 23 rfl
    (by decide) (by decide)
  refine ⟨h.1.trans (by decide), h.2.1⟩

theorem cstr_eq_take (l : List octet) : cstr l = l.take (l.indexOf 0) := by
  induction l with
  | nil => rfl
  | cons x xs ih =>
    unfold cstr at ih ⊢
    by_cases hx : x = 0
    · subst hx
      simp
    · rw [List.takeWhile_cons, List.indexOf_cons_ne _ hx, List.take_succ_cons, ih]
      simp [hx]

/-- Searching the octets before offset `i`: the first occurrence `j` in the
whole list is found exactly when it ends within them. -/
theorem memmem_take (l t : List octet) (i j : Nat) (ht : t ≠ [])
    (h : memmem l t = some j) :
    memmem (l.take i) t = if j + t.length ≤ i then some j else none := by
  have hl := memmem_some_length ht h
  by_cases hji : j + t.length ≤ i
  · rw [if_pos hji]
    by_cases hil : i ≤ l.length
    · have e : l = l.take i ++ l.drop i := (List.take_append_drop i l).symm
      rw [e] at h
      exact memmem_of_append h (by rw [List.length_take]; omega)
    · rw [List.take_of_length_le (by omega)]
      exact h
  · rw [if_neg hji, memmem_eq_none_iff]
    intro q hq
    have hq1 := prefix_drop_length hq ht
    rw [List.length_take] at hq1
    have hq2 : t <+: l.drop q := by
      have := prefix_drop_append (l.drop i) hq
      rwa [List.take_append_drop] at this
    have := (memmem_eq_some_iff l t j).1 h
    by_cases hqj : q < j
    · exact this.2 q hqj hq2
    · omega

/-- C30: for every byte stream on which `parse` succeeds, the request buffer
contains CRLF, first at some offset `j`, and the step that locates the
request line answers 400 exactly when a NUL octet occurs in the buffer before
that first CRLF; when the byte stream contains no NUL octet the step finds
the CRLF and its 400 branch is not taken. -/
theorem main_line_400_iff (s : Server) (c : Conn) (hc : s.cfd = some c)
    (hok : (parse s).1 ≠ -1) :
    ∃ req j, (parse s).2.request = some req
      ∧ strstr req (bytes "\r\n") = some j
      ∧ (main_line req = Checked.error 400 ↔ req.indexOf 0 < j)
      ∧ (0 ∉ received c.input →
          strstr (cstr req) (bytes "\r\n") = some j ∧ main_line req ≠ Checked.error 400) := by
  have e2 : bytes "\r\n" = [13, 10] := by decide
  have hne : ([13, 10] : List octet) ≠ [] := by decide
  have hlen2 : ([13, 10] : List octet).length = 2 := rfl
  unfold parse at hok ⊢
  rw [hc] at hok ⊢
  simp only at hok ⊢
  by_cases hr : s.request.isSome = true
  · rw [if_pos hr] at hok
    simp at hok
  · rw [if_neg hr] at hok ⊢
    obtain ⟨p, _, _, h3⟩ := parseLoop_success c s c.input none (by decide) hok
    simp only [Option.getD_none, List.nil_append] at h3
    generalize hpre : (received c.input).take p = pre at h3
    have hpre0 : 0 ∉ received c.input → 0 ∉ pre := by
      intro h hm
      rw [← hpre] at hm
      exact h (List.mem_of_mem_take hm)
    generalize hreq : pre ++ [13, 10, 0] = req at h3
    have hpl : pre.length + 3 = req.length := by
      rw [← hreq]
      simp
    have hat : ([13, 10] : List octet) <+: req.drop pre.length := by
      rw [← hreq, List.drop_left]
      exact ⟨[0], rfl⟩
    have h0 : (0 : octet) ∈ req := by
      rw [← hreq]
      simp
    cases hm : memmem req [13, 10] with
    | none => exact absurd hat ((memmem_eq_none_iff _ _).1 hm _)
    | some j =>
      have hj := (memmem_eq_some_iff _ _ _).1 hm
      have hjp : j ≤ pre.length := Nat.le_of_not_lt fun h => hj.2 _ h hat
      have h13 : req[j + 0]? = some 13 := prefix_getElem? hj.1 (by decide)
      have h10 : req[j + 1]? = some 10 := prefix_getElem? hj.1 (by decide)
      have hi0 : req[req.indexOf 0]? = some 0 := List.getElem?_indexOf h0
      have hline : main_line req
          = if j + 2 ≤ req.indexOf 0 then
              (if j + 2 > LimitRequestLine then Checked.error 414
               else Checked.ok ((cstr req).take (j + 2)))
            else Checked.error 400 := by
        unfold main_line strstr
        simp only
        rw [e2, cstr_eq_take, memmem_take req [13, 10] (req.indexOf 0) j hne hm, hlen2]
        by_cases hle : j + 2 ≤ req.indexOf 0
        · rw [if_pos hle, if_pos hle]
        · rw [if_neg hle, if_neg hle]
      refine ⟨req, j, h3, ?_, ?_, ?_⟩
      · unfold strstr
        rw [e2]
        exact hm
      · rw [hline]
        constructor
        · intro h
          by_cases hle : j + 2 ≤ req.indexOf 0
          · rw [if_pos hle] at h
            split at h <;> cases h
          · rcases Nat.lt_trichotomy (req.indexOf 0) j with h1 | h1 | h1
            · exact h1
            · rw [h1, ← Nat.add_zero j, h13] at hi0
              exact absurd hi0 (by decide)
            · have h2 : req.indexOf 0 = j + 1 := by omega
              rw [h2, h10] at hi0
              exact absurd hi0 (by decide)
        · intro h
          rw [if_neg (by omega)]
      · intro hnul
        have hidx : req.indexOf 0 = pre.length + 2 := by
          have e : req = (pre ++ [13, 10]) ++ 0 :: [] := by
            rw [← hreq]
            simp
          rw [e, indexOf_split]
          · simp
          · intro hm0
            rcases List.mem_append.1 hm0 with h1 | h1
            · exact hpre0 hnul h1
            · revert h1
              decide
        constructor
        · unfold strstr
          rw [e2, cstr_eq_take, memmem_take req [13, 10] (req.indexOf 0) j hne hm, hlen2,
            if_pos (by omega)]
        · rw [hline, if_pos (by omega)]
          split <;> intro h <;> cases h

set_option maxRecDepth 100000 in
/-- C30, on `GET / HTTP/1.1` (no NUL octet: the request line is found) and on
`GET` NUL `/ HTTP/1.1` (a NUL octet before the first CRLF: 400). -/
theorem main_line_400_iff_witness :
    main_line (bytes "GET / HTTP/1.1\r\n" ++ [0]) ≠ Checked.error 400
    ∧ main_line (bytes "GET\x00/ HTTP/1.1\r\n" ++ [0]) = Checked.error 400 := by
  constructor
  · obtain ⟨req, j, h1, _, _, h4⟩ := main_line_400_iff
      (accepted [ReadResult.octets (bytes "GET / HTTP/1.1\r\n\r\n")])
      { input := [ReadResult.octets (bytes "GET / HTTP/1.1\r\n\r\n")], wscript := [],
        output := [] } rfl (by decide)
    have e : (parse (accepted [ReadResult.octets (bytes "GET / HTTP/1.1\r\n\r\n")])).2.request
        = some (bytes "GET / HTTP/1.1\r\n" ++ [0]) := by decide
    rw [e] at h1
    cases h1
    exact (h4 (by decide)).2
  · obtain ⟨req, j, h1, h2, h3, _⟩ := main_line_400_iff
      (accepted [ReadResult.octets (bytes "GET\x00/ HTTP/1.1\r\n\r\n")])
      { input := [ReadResult.octets (bytes "GET\x00/ HTTP/1.1\r\n\r\n")], wscript := [],
        output := [] } rfl (by decide)
    have e : (parse (accepted [ReadResult.octets (bytes "GET\x00/ HTTP/1.1\r\n\r\n")])).2.request
        = some (bytes "GET\x00/ HTTP/1.1\r\n" ++ [0]) := by decide
    rw [e] at h1
    cases h1
    have e3 : strstr (bytes "GET\x00/ HTTP/1.1\r\n" ++ [0]) (bytes "\r\n") = some 14 := by
      decide
    rw [e3] at h2
    cases h2
    exact h3.2 (by decide)

/-! ## The claims about `error` -/

/-- C23: for every code outside [400, 599], for every code in that range that
is not one of the ten supported codes, and whenever no client connection is
open, `error(code)` returns failure and leaves the state as it is, so that no
octets are written to the connection. -/
theorem error_unsupported (code : Nat) (s : Server)
    (h : s.cfd = none ∨ code < 400 ∨ code > 599
      ∨ code ∉ [400, 403, 404, 405, 413, 414, 418, 500, 501, 505]) :
    error code s = (false, s) := by
  unfold error
  cases hc : s.cfd with
  | none => rfl
  | some c =>
    simp only
    by_cases hr : code < 400 ∨ code > 599
    · rw [if_pos hr]
    · rw [if_neg hr]
      have hn : code ∉ [400, 403, 404, 405, 413, 414, 418, 500, 501, 505] := by
        rcases h with h | h | h | h
        · rw [hc] at h
          cases h
        · exact absurd (Or.inl h) hr
        · exact absurd (Or.inr h) hr
        · exact h
      simp only [List.mem_cons, List.mem_singleton, List.mem_nil_iff, or_false, not_or] at hn
      have hp : phrase code = none := by
        unfold phrase
        simp only [hn, if_false]
      rw [hp]

/-- C23, on the code 200 (outside the range), the code 402 (in the range, not
supported) and the code 404 without client connection. -/
theorem error_unsupported_witness :
    error 200 (serving (bytes "/srv")) = (false, serving (bytes "/srv"))
    ∧ error 402 (serving (bytes "/srv")) = (false, serving (bytes "/srv"))
    ∧ error 404 (reset (serving (bytes "/srv"))) = (false, reset (serving (bytes "/srv"))) :=
  ⟨error_unsupported 200 _ (Or.inr (Or.inl (by decide))),
    error_unsupported 402 _ (Or.inr (Or.inr (Or.inr (by decide)))),
    error_unsupported 404 _ (Or.inl rfl)⟩

set_option maxRecDepth 100000 in
theorem error_table : ∀ cp ∈ [(400, bytes "Bad Request"), (403, bytes "Forbidden"),
      (404, bytes "Not Found"), (405, bytes "Method Not Allowed"),
      (413, bytes "Request Entity Too Large"), (414, bytes "Request-URI Too Long"),
      (418, bytes "I'm a teapot"), (500, bytes "Internal Server Error"),
      (501, bytes "Not Implemented"), (505, bytes "HTTP Version Not Supported")],
    phrase cp.1 = some cp.2 ∧ 400 ≤ cp.1 ∧ cp.1 ≤ 599
    ∧ (errorWrites cp.1 cp.2).flatten
        = bytes "HTTP/1.1 " ++ bytes (toString cp.1) ++ bytes " " ++ cp.2 ++ bytes "\r\n"
          ++ bytes "Connection: close\r\n"
          ++ bytes "Content-Length: "
          ++ bytes (toString (bytes "<html><head><title>" ++ bytes (toString cp.1) ++ bytes " "
              ++ cp.2 ++ bytes "</title></head><body><h1>" ++ bytes (toString cp.1) ++ bytes " "
              ++ cp.2 ++ bytes "</h1></body></html>").length)
          ++ bytes "\r\n"
          ++ bytes "Content-Type: text/html\r\n"
          ++ bytes "\r\n"
          ++ (bytes "<html><head><title>" ++ bytes (toString cp.1) ++ bytes " "
              ++ cp.2 ++ bytes "</title></head><body><h1>" ++ bytes (toString cp.1) ++ bytes " "
              ++ cp.2 ++ bytes "</h1></body></html>")
    ∧ (bytes "<html><head><title>" ++ bytes (toString cp.1) ++ bytes " "
              ++ cp.2 ++ bytes "</title></head><body><h1>" ++ bytes (toString cp.1) ++ bytes " "
              ++ cp.2 ++ bytes "</h1></body></html>").length + 1 = 72 + 2 * cp.2.length := by
  decide

/-- A run of writes all of which succeed appends every piece. -/
theorem sendAll_ok : ∀ (ws : List (List octet)) (c : Conn),
    (∀ b ∈ c.wscript.take ws.length, b = true) →
    sendAll ws c = (true, { c with wscript := c.wscript.drop ws.length,
                                   output := c.output ++ ws.flatten })
  | [], c, _ => by simp [sendAll]
  | bs :: ws, c, h => by
    rw [sendAll, send]
    cases hw : c.wscript with
    | nil =>
      simp only
      rw [sendAll_ok ws _ (by simp)]
      simp [List.append_assoc]
    | cons b rest =>
      rw [hw] at h
      have hb : b = true := h b (by simp)
      subst hb
      simp only
      rw [sendAll_ok ws _ (fun b hb => h b (by
        simp only [List.length_cons, List.take_succ_cons]
        exact List.mem_cons_of_mem _ hb))]
      simp [List.append_assoc]

/-- When its six writes succeed `error` appends the whole response. -/
theorem error_ok (code : Nat) (phr : List octet) (s : Server) (c : Conn)
    (hc : s.cfd = some c) (hw : ∀ b ∈ c.wscript.take 6, b = true) (h1 : 400 ≤ code)
    (h2 : code ≤ 599) (hp : phrase code = some phr) :
    error code s =
      (true, { s with cfd := some { c with wscript := c.wscript.drop 6,
                                           output := c.output ++ (errorWrites code phr).flatten } }) := by
  unfold error
  rw [hc]
  simp only
  rw [if_neg (by omega), hp]
  simp only
  rw [sendAll_ok (errorWrites code phr) c hw]
  rfl

theorem log10_status (code : Nat) (h1 : 400 ≤ code) (h2 : code ≤ 599) : Nat.log 10 code = 2 :=
  Nat.log_eq_of_pow_le_of_lt_pow (by omega) (by omega)

/-- C22: for every code among 400, 403, 404, 405, 413, 414, 418, 500, 501 and
505, with the reason phrase `phr` that the switch of `error` fixes for it
(404 Not Found, 405 Method Not Allowed), `error(code)` on an open connection
whose writes succeed returns true and writes exactly: the status line
`HTTP/1.1 code phr`, `Connection: close`, `Content-Length: n`,
`Content-Type: text/html`, a blank line, and the body
`<html><head><title>code phr</title></head><body><h1>code phr</h1></body></html>`,
where `n` is the length of that body in decimal; the body and its NUL fit the
capacity declared for `content`. -/
theorem error_response (code : Nat) (s : Server) (c : Conn)
    (hcode : code ∈ [400, 403, 404, 405, 413, 414, 418, 500, 501, 505])
    (hc : s.cfd = some c) (hw : ∀ b ∈ c.wscript.take 6, b = true) :
    phrase 404 = some (bytes "Not Found") ∧ phrase 405 = some (bytes "Method Not Allowed")
    ∧ ∃ phr body, phrase code = some phr
      ∧ body = bytes "<html><head><title>" ++ bytes (toString code) ++ bytes " " ++ phr
          ++ bytes "</title></head><body><h1>" ++ bytes (toString code) ++ bytes " " ++ phr
          ++ bytes "</h1></body></html>"
      ∧ (error code s).1 = true
      ∧ (error code s).2.cfd.map (·.output) = some (c.output
          ++ (bytes "HTTP/1.1 " ++ bytes (toString code) ++ bytes " " ++ phr ++ bytes "\r\n"
            ++ bytes "Connection: close\r\n"
            ++ bytes "Content-Length: " ++ bytes (toString body.length) ++ bytes "\r\n"
            ++ bytes "Content-Type: text/html\r\n"
            ++ bytes "\r\n"
            ++ body))
      ∧ (body.length : Int) + 1 ≤ error_capacity code phr := by
  refine ⟨by decide, by decide, ?_⟩
  have hex : ∃ phr, (code, phr) ∈ [(400, bytes "Bad Request"), (403, bytes "Forbidden"),
      (404, bytes "Not Found"), (405, bytes "Method Not Allowed"),
      (413, bytes "Request Entity Too Large"), (414, bytes "Request-URI Too Long"),
      (418, bytes "I'm a teapot"), (500, bytes "Internal Server Error"),
      (501, bytes "Not Implemented"), (505, bytes "HTTP Version Not Supported")] := by
    simp only [List.mem_cons, List.mem_singleton, List.mem_nil_iff, or_false] at hcode
    rcases hcode with h | h | h | h | h | h | h | h | h | h <;> subst h
    · exact ⟨bytes "Bad Request", by decide⟩
    · exact ⟨bytes "Forbidden", by decide⟩
    · exact ⟨bytes "Not Found", by decide⟩
    · exact ⟨bytes "Method Not Allowed", by decide⟩
    · exact ⟨bytes "Request Entity Too Large", by decide⟩
    · exact ⟨bytes "Request-URI Too Long", by decide⟩
    · exact ⟨bytes "I'm a teapot", by decide⟩
    · exact ⟨bytes "Internal Server Error", by decide⟩
    · exact ⟨bytes "Not Implemented", by decide⟩
    · exact ⟨bytes "HTTP Version Not Supported", by decide⟩
  obtain ⟨phr, hmem⟩ := hex
  obtain ⟨hp, h1, h2, hresp, hlen⟩ := error_table (code, phr) hmem
  simp only at hp h1 h2 hresp hlen
  refine ⟨phr, _, hp, rfl, ?_, ?_, ?_⟩
  · rw [error_ok code phr s c hc hw h1 h2 hp]
  · rw [error_ok code phr s c hc hw h1 h2 hp, hresp]
    rfl
  · have h73 : (bytes
        "<html><head><title>%i %s</title></head><body><h1>%i %s</h1></body></html>").length
        = 73 := by decide
    have hphr : 2 ≤ phr.length ∧ phr.length ≤ 26 := by
      simp only [List.mem_cons, List.mem_singleton, List.mem_nil_iff, or_false,
        Prod.mk.injEq] at hmem
      rcases hmem with h | h | h | h | h | h | h | h | h | h <;> rw [h.2] <;> decide
    unfold error_capacity
    simp only
    rw [h73, log10_status code h1 h2]
    omega

set_option maxRecDepth 100000 in
/-- C22, on `error(404)` with a connection whose first six writes succeed. -/
theorem error_response_witness :
    (error 404
        { root := bytes "/srv",
          cfd := some { input := [], wscript := [true, true, true, true, true, true, false], output := [] },
          request := none, file := none, body := none }).1 = true
    ∧ (error 404
        { root := bytes "/srv",
          cfd := some { input := [], wscript := [true, true, true, true, true, true, false], output := [] },
          request := none, file := none, body := none }).2.cfd.map
          (·.output)
      = some (bytes "HTTP/1.1 404 Not Found\r\nConnection: close\r\nContent-Length: 89\r\nContent-Type: text/html\r\n\r\n<html><head><title>404 Not Found</title></head><body><h1>404 Not Found</h1></body></html>")
    ∧ (90 : Int) ≤ error_capacity 404 (bytes "Not Found") := by
  obtain ⟨h404, _, phr, body, hp, hb, h1, h2, h3⟩ := error_response 404
        { root := bytes "/srv",
          cfd := some { input := [], wscript := [true, true, true, true, true, true, false], output := [] },
          request := none, file := none, body := none }
    { input := [], wscript := [true, true, true, true, true, true, false], output := [] }
    (by decide) rfl (by decide)
  rw [h404] at hp
  cases hp
  subst hb
  refine ⟨h1, h2.trans (by decide), ?_⟩
  have e : ((bytes "<html><head><title>" ++ bytes (toString 404) ++ bytes " " ++ bytes "Not Found"
      ++ bytes "</title></head><body><h1>" ++ bytes (toString 404) ++ bytes " " ++ bytes "Not Found"
      ++ bytes "</h1></body></html>").length : Int) + 1 = 90 := by decide
  rw [e] at h3
  exact h3

/-! ## The claims about `reset` and the independence of the requests -/

theorem error_fields (code : Nat) (s : Server) :
    (error code s).2.root = s.root ∧ (error code s).2.request = s.request
    ∧ (error code s).2.file = s.file ∧ (error code s).2.body = s.body := by
  unfold error
  split
  · exact ⟨rfl, rfl, rfl, rfl⟩
  · split
    · exact ⟨rfl, rfl, rfl, rfl⟩
    · split <;> exact ⟨rfl, rfl, rfl, rfl⟩

theorem parseLoop_fields (c : Conn) : ∀ (input : List ReadResult) (request : Option (List octet))
    (s : Server), (parseLoop input c request s).2.root = s.root
      ∧ (parseLoop input c request s).2.file = s.file
      ∧ (parseLoop input c request s).2.body = s.body
  | [], _, _ => ⟨rfl, rfl, rfl⟩
  | ReadResult.error :: rest, request, s => by
    rw [parseLoop]
    obtain ⟨h1, _, h3, h4⟩ := error_fields 500
      { s with cfd := some { c with input := rest }, request := request }
    exact ⟨h1, h3, h4⟩
  | ReadResult.octets chunk :: rest, request, s => by
    rw [parseLoop]
    simp only
    split
    · split
      · exact ⟨rfl, rfl, rfl⟩
      · split
        · obtain ⟨h1, _, h3, h4⟩ := error_fields 413
            { s with cfd := some { c with input := rest },
                     request := some (request.getD [] ++ chunk) }
          exact ⟨h1, h3, h4⟩
        · exact parseLoop_fields c rest _ s
    · exact ⟨rfl, rfl, rfl⟩

theorem parse_fields (s : Server) :
    (parse s).2.root = s.root ∧ (parse s).2.file = s.file ∧ (parse s).2.body = s.body := by
  unfold parse
  split
  · exact ⟨rfl, rfl, rfl⟩
  · split
    · exact ⟨rfl, rfl, rfl⟩
    · exact parseLoop_fields _ _ _ s

theorem loadLoop_root : ∀ (f : List FRead) (body : Option (List octet)) (s : Server),
    (loadLoop f body s).2.root = s.root
  | [], _, _ => rfl
  | r :: rest, body, s => by
    rw [loadLoop]
    by_cases h1 : r.ferror = true
    · rw [if_pos h1]
    · rw [if_neg h1]
      by_cases h2 : r.feof = true
      · simp only [h2, if_true]
      · simp only [h2, Bool.false_eq_true, if_false]
        exact loadLoop_root rest _ s

theorem load_root (s : Server) : (load s).2.root = s.root := by
  unfold load
  split
  · rfl
  · split
    · rfl
    · exact loadLoop_root _ _ s

theorem main_static_root (w : World) (extension path : List octet) (s : Server) :
    (main_static w extension path s).root = s.root := by
  unfold main_static
  split
  · exact (error_fields 501 s).1
  · split
    · exact (error_fields 500 s).1
    · rename_i f _
      have hr : (load { s with file := some f }).2.root = s.root := load_root _
      simp only
      split
      · exact ((error_fields 500 _).1).trans hr
      · split
        · exact hr
        · exact hr

theorem main_dynamic_root (w : World) (query path : List octet) (s : Server) :
    (main_dynamic w query path s).root = s.root := by
  unfold main_dynamic
  simp only
  split
  · exact (error_fields 500 s).1
  · rename_i f _
    have hr : (load { s with file := some f }).2.root = s.root := load_root _
    split
    · exact ((error_fields 500 _).1).trans hr
    · split
      · exact ((error_fields 500 _).1).trans hr
      · split
        · exact hr
        · exact hr

theorem main_serve_root (w : World) (abs_path query : List octet) (s s1 : Server)
    (h : main_serve w abs_path query s = some s1) : s1.root = s.root := by
  unfold main_serve at h
  simp only at h
  split at h
  · cases h; exact (error_fields 404 s).1
  · split at h
    · cases h; exact (error_fields 403 s).1
    · split at h
      · cases h
      · split at h
        · cases h; exact main_dynamic_root w _ _ s
        · cases h; exact main_static_root w _ _ s

theorem main_respond_root (w : World) (s s1 : Server) (h : main_respond w s = some s1) :
    s1.root = s.root := by
  unfold main_respond at h
  split at h
  · cases h
  · cases h; exact (error_fields _ s).1
  · split at h
    · cases h
    · cases h; exact (error_fields _ s).1
    · exact main_serve_root w _ _ s s1 h

theorem main_handle_root (w : World) (s s1 : Server) (h : main_handle w s = some s1) :
    s1.root = s.root := by
  unfold main_handle at h
  simp only at h
  split at h
  · cases h; exact (parse_fields s).1
  · exact (main_respond_root w _ s1 h).trans (parse_fields s).1

theorem main_iteration_root (w : World) (a : Option Conn) (s s1 : Server)
    (h : main_iteration w a s = some s1) : s1.root = s.root := by
  unfold main_iteration at h
  cases a with
  | none =>
    simp only [connected, Bool.false_eq_true, if_false] at h
    cases h
    rfl
  | some c =>
    simp only [connected, if_true] at h
    have hh := main_handle_root w _ s1 h
    exact hh

theorem main_loop_root (w : World) : ∀ (accepts : List (Option Conn)) (s s1 : Server),
    main_loop w accepts s = some s1 → s1.root = s.root
  | [], s, s1, h => by
    rw [main_loop] at h
    cases h
    rfl
  | a :: rest, s, s1, h => by
    rw [main_loop] at h
    cases hi : main_iteration w a s with
    | none => rw [hi] at h; cases h
    | some s2 =>
      rw [hi] at h
      exact (main_loop_root w rest s2 s1 h).trans (main_iteration_root w a s s2 hi)

theorem reset_eq_of_root {s s0 : Server} (h : s.root = s0.root) : reset s = reset s0 := by
  unfold reset
  rw [h]

/-- C25: handling a request is independent of the requests handled before:
for every sequence `before` of connections handled since the state `s0`, the
iteration of the serve loop that handles the connection `a` (the reads that
deliver the request, the writes) in the state `s` reached after them is the
iteration in `s0`, the file system and the interpreter being the same; in
particular the octets written on the connection, the status, the
Content-Length and the body, are the same each time the request is issued. -/
theorem main_iteration_independent (w : World) (before : List (Option Conn)) (s0 s : Server)
    (a : Option Conn) (h : main_loop w before s0 = some s) :
    main_iteration w a s = main_iteration w a s0
    ∧ (main_iteration w a s).map (fun s1 => s1.cfd.map (·.output))
        = (main_iteration w a s0).map (fun s1 => s1.cfd.map (·.output)) := by
  have hr := reset_eq_of_root (main_loop_root w before s0 s h)
  have e : main_iteration w a s = main_iteration w a s0 := by
    unfold main_iteration
    rw [hr]
  exact ⟨e, by rw [e]⟩

set_option maxRecDepth 100000 in
/-- C25, on the request `GET /index.html HTTP/1.1` issued after a request
answered with 405 and a first `GET /index.html HTTP/1.1` answered with 200. -/
theorem main_iteration_independent_witness :
    main_loop (oneFile (bytes "/srv/index.html")
        [{ octets := bytes "hello", ferror := false, feof := true }])
      [some { input := [ReadResult.octets (bytes "POST / HTTP/1.1\r\n\r\n")], wscript := [],
              output := [] },
       some { input := [ReadResult.octets (bytes "GET /index.html HTTP/1.1\r\n\r\n")],
              wscript := [], output := [] }]
      (serving (bytes "/srv"))
      = some
        { root := bytes "/srv",
          cfd := some { input := [], wscript := [], output := bytes "HTTP/1.1 200 OK\r\nConnection: close\r\nContent-Length: 5\r\nContent-Type: text/html\r\n\r\nhello" },
          request := some (bytes "GET /index.html HTTP/1.1\r\n" ++ [0]),
          file := some [],
          body := some (bytes "hello") }
    ∧ main_iteration (oneFile (bytes "/srv/index.html")
        [{ octets := bytes "hello", ferror := false, feof := true }])
      (some { input := [ReadResult.octets (bytes "GET /index.html HTTP/1.1\r\n\r\n")],
              wscript := [], output := [] })
        { root := bytes "/srv",
          cfd := some { input := [], wscript := [], output := bytes "HTTP/1.1 200 OK\r\nConnection: close\r\nContent-Length: 5\r\nContent-Type: text/html\r\n\r\nhello" },
          request := some (bytes "GET /index.html HTTP/1.1\r\n" ++ [0]),
          file := some [],
          body := some (bytes "hello") }
      = main_iteration (oneFile (bytes "/srv/index.html")
        [{ octets := bytes "hello", ferror := false, feof := true }])
      (some { input := [ReadResult.octets (bytes "GET /index.html HTTP/1.1\r\n\r\n")],
              wscript := [], output := [] })
      (serving (bytes "/srv")) :=
  ⟨by decide,
    (main_iteration_independent (oneFile (bytes "/srv/index.html")
        [{ octets := bytes "hello", ferror := false, feof := true }])
      [some { input := [ReadResult.octets (bytes "POST / HTTP/1.1\r\n\r\n")], wscript := [],
              output := [] },
       some { input := [ReadResult.octets (bytes "GET /index.html HTTP/1.1\r\n\r\n")],
              wscript := [], output := [] }]
      (serving (bytes "/srv")) _ _ (by decide)).1⟩

/-- C26: for every server state, after `reset` the per-request state is the
initial one (body, file and request are absent, the client descriptor is -1)
and `reset` is idempotent; every iteration of the serve loop starts with
`reset`, whatever the state the iteration before left, so that an iteration
on an accepted connection `c` is the handling of `c` in the reset state; there
`parse` is entered without request buffer and runs its loop, it leaves the
body absent, and `load`, called after it on the opened file `f`, is entered
without body and runs its loop: the branches for a request already parsed and
for a body already loaded are not taken. -/
theorem reset_per_request (w : World) (s : Server) (a : Option Conn) (c : Conn)
    (f : List FRead) :
    reset s = { root := s.root, cfd := none, request := none, file := none, body := none }
    ∧ reset (reset s) = reset s
    ∧ main_iteration w a s = main_iteration w a (reset s)
    ∧ main_iteration w (some c) s = main_handle w { reset s with cfd := some c }
    ∧ ({ reset s with cfd := some c } : Server).request = none
    ∧ parse { reset s with cfd := some c } = parseLoop c.input c none { reset s with cfd := some c }
    ∧ (parse { reset s with cfd := some c }).2.body = none
    ∧ load { (parse { reset s with cfd := some c }).2 with file := some f }
        = loadLoop f none { (parse { reset s with cfd := some c }).2 with file := some f } := by
  have hb : (parse { reset s with cfd := some c }).2.body = none := (parse_fields _).2.2
  refine ⟨rfl, rfl, rfl, rfl, rfl, parse_eq_parseLoop _ c rfl rfl, hb, ?_⟩
  unfold load
  simp only [hb, Option.isSome_none, Bool.false_eq_true, if_false]

/-! ## The size of the request buffer -/

theorem parseReads_bound : ∀ (input : List ReadResult) (request : Option (List octet)),
    (∀ ch, ReadResult.octets ch ∈ input → ch.length ≤ 512) →
    (request.getD []).length ≤ 212890 →
    ∀ ba ∈ parseReads input request,
      ba.1.length ≤ 212890 ∧ ba.2.length ≤ ba.1.length + 512 ∧ ba.2.length ≤ 213402
  | [], _, _, _ => by simp [parseReads]
  | ReadResult.error :: _, _, _, _ => by simp [parseReads]
  | ReadResult.octets chunk :: rest, request, hread, hreq => by
    have hch : chunk.length ≤ 512 := hread chunk (List.mem_cons_self _ _)
    have hrest : ∀ ch, ReadResult.octets ch ∈ rest → ch.length ≤ 512 :=
      fun ch h => hread ch (List.mem_cons_of_mem _ h)
    intro ba hba
    rw [parseReads] at hba
    by_cases hpos : chunk.length > 0
    · rw [if_pos hpos] at hba
      simp only at hba
      rcases List.mem_cons.1 hba with h | h
      · rw [h]
        simp only [List.length_append]
        omega
      · split at h
        · cases h
        · rw [limit_eq] at h
          split at h
          · cases h
          · rename_i hlim
            exact parseReads_bound rest (some (request.getD [] ++ chunk)) hrest
              (by simp only [Option.getD_some]; omega) ba h
    · rw [if_neg hpos] at hba
      cases hba

theorem parseLoop_request_bound (c : Conn) (s : Server) : ∀ (input : List ReadResult)
    (request : Option (List octet)),
    (∀ ch, ReadResult.octets ch ∈ input → ch.length ≤ 512) →
    (request.getD []).length ≤ 212890 →
    ((parseLoop input c request s).2.request.getD []).length ≤ 213402
  | [], request, _, hreq => by
    rw [parseLoop]
    simp only
    omega
  | ReadResult.error :: rest, request, _, hreq => by
    rw [parseLoop, (error_fields 500 _).2.1]
    simp only
    omega
  | ReadResult.octets chunk :: rest, request, hread, hreq => by
    have hch : chunk.length ≤ 512 := hread chunk (List.mem_cons_self _ _)
    have hrest : ∀ ch, ReadResult.octets ch ∈ rest → ch.length ≤ 512 :=
      fun ch h => hread ch (List.mem_cons_of_mem _ h)
    have hbuf : (request.getD [] ++ chunk).length ≤ 213402 := by
      rw [List.length_append]
      omega
    rw [parseLoop]
    simp only
    split
    · split
      · simp only [Option.getD_some, List.length_set, List.length_take]
        omega
      · rw [limit_eq]
        split
        · rw [(error_fields 413 _).2.1]
          exact hbuf
        · exact parseLoop_request_bound c s rest (some (request.getD [] ++ chunk)) hrest
            (by simp only [Option.getD_some]; omega)
    · simp only
      omega

/-- C27: for every sequence of reads each of which delivers at most 512
octets, the request buffer accumulated by `parse` never holds more than
8190 + 50 * 4094 + 512 = 213402 octets: before each read that delivers octets
the accumulated length is at most 212890, the read adds at most 512 octets
before the size check runs, and the buffer `parse` leaves has at most 213402
octets. -/
theorem parse_buffer_bound (input : List ReadResult)
    (hread : ∀ ch, ReadResult.octets ch ∈ input → ch.length ≤ 512) :
    LimitRequestLine + LimitRequestFields * LimitRequestFieldSize + OCTETS = 213402
    ∧ (∀ ba ∈ parseReads input none,
        ba.1.length ≤ 212890 ∧ ba.2.length ≤ ba.1.length + 512 ∧ ba.2.length ≤ 213402)
    ∧ ∀ (s : Server) (c : Conn), s.cfd = some c → s.request = none → c.input = input →
        ((parse s).2.request.getD []).length ≤ 213402 := by
  refine ⟨by decide, parseReads_bound input none hread (by simp), ?_⟩
  intro s c hc hreq hin
  rw [parse_eq_parseLoop s c hc hreq, hin]
  exact parseLoop_request_bound c s input none hread (by simp)

set_option maxRecDepth 100000 in
/-- C27, on 415 reads of 512 octets `a` followed by a read of 412 octets,
212892 octets in all. -/
theorem parse_buffer_bound_witness :
    (∀ ba ∈ parseReads ((longRequest 412).map ReadResult.octets) none,
        ba.1.length ≤ 212890 ∧ ba.2.length ≤ ba.1.length + 512 ∧ ba.2.length ≤ 213402)
    ∧ ((parse (accepted ((longRequest 412).map ReadResult.octets))).2.request.getD []).length
        ≤ 213402 := by
  have h := parse_buffer_bound ((longRequest 412).map ReadResult.octets) (by
    intro ch hch
    obtain ⟨l, hl, he⟩ := List.mem_map.1 hch
    cases he
    unfold longRequest at hl
    rcases List.mem_append.1 hl with h1 | h1
    · rw [(List.mem_replicate.1 h1).2, List.length_replicate]
    · rw [List.mem_singleton.1 h1, List.length_replicate]
      decide)
  exact ⟨h.2.1, h.2.2 _ _ rfl rfl rfl⟩

/-! ## The claim about the dynamic response -/

theorem toDigitsCore_digits : ∀ (fuel n : Nat) (ds : List Char),
    (∀ c ∈ ds, 48 ≤ c.toNat ∧ c.toNat ≤ 57) →
    ∀ c ∈ Nat.toDigitsCore 10 fuel n ds, 48 ≤ c.toNat ∧ c.toNat ≤ 57
  | 0, _, ds, h => by
    intro c hc
    rw [Nat.toDigitsCore] at hc
    exact h c hc
  | fuel + 1, n, ds, h => by
    have hd : 48 ≤ (Nat.digitChar (n % 10)).toNat ∧ (Nat.digitChar (n % 10)).toNat ≤ 57 := by
      have hlt : n % 10 < 10 := Nat.mod_lt _ (by decide)
      generalize n % 10 = m at hlt
      interval_cases m <;> decide
    have hds : ∀ c ∈ Nat.digitChar (n % 10) :: ds, 48 ≤ c.toNat ∧ c.toNat ≤ 57 := by
      intro c hc
      rcases List.mem_cons.1 hc with h1 | h1
      · rw [h1]
        exact hd
      · exact h c h1
    intro c hc
    rw [Nat.toDigitsCore] at hc
    split at hc
    · exact hds c hc
    · exact toDigitsCore_digits fuel _ _ hds c hc

/-- The decimal digits of a number are octets from 48 to 57. -/
theorem toString_digits (n : Nat) : ∀ x ∈ bytes (toString n), 48 ≤ x ∧ x ≤ 57 := by
  intro x hx
  have e : bytes (toString n) = (Nat.toDigits 10 n).map Char.toNat := rfl
  rw [e] at hx
  obtain ⟨c, hc, rfl⟩ := List.mem_map.1 hx
  exact toDigitsCore_digits (n + 1) n [] (by simp) c hc

theorem getElem?_after_head (L d out : List octet) (j : Nat) :
    (L ++ (d ++ (13 :: 10 :: out)))[L.length + d.length + j]? = (13 :: 10 :: out)[j]? := by
  rw [List.getElem?_append_right (by omega), List.getElem?_append_right (by omega)]
  congr 1
  omega

theorem take_two_of_getElem? (out : List octet) (a b : octet) (h0 : out[0]? = some a)
    (h1 : out[1]? = some b) : out.take 2 = [a, b] := by
  cases out with
  | nil => simp at h0
  | cons x xs =>
    cases xs with
    | nil => simp at h1
    | cons y ys =>
      simp only [List.getElem?_cons_zero, List.getElem?_cons_succ, Option.some.injEq] at h0 h1
      rw [h0, h1]
      rfl

set_option maxRecDepth 100000 in
theorem head_cr : ∀ q, q < 52 →
    (bytes "HTTP/1.1 200 OK\r\nConnection: close\r\nContent-Length: ")[q]? = some 13 →
    q + 2 < 52
    ∧ (bytes "HTTP/1.1 200 OK\r\nConnection: close\r\nContent-Length: ")[q + 2]? ≠ some 13 := by
  decide

/-- The first CRLF CRLF of a response made of the status line,
`Connection: close`, `Content-Length: d` with decimal digits `d`, and the
octets `out` that do not begin with CRLF, is the first CRLF CRLF of `out`. -/
theorem memmem_after_head (d out : List octet) (k : Nat)
    (hd : ∀ x ∈ d, 48 ≤ x ∧ x ≤ 57) (hk : memmem out CRLFCRLF = some k)
    (hstart : out.take 2 ≠ [13, 10]) :
    memmem (bytes "HTTP/1.1 200 OK\r\nConnection: close\r\nContent-Length: "
        ++ (d ++ (13 :: 10 :: out))) CRLFCRLF
      = some ((bytes "HTTP/1.1 200 OK\r\nConnection: close\r\nContent-Length: ").length
          + d.length + 2 + k) := by
  have hL : (bytes "HTTP/1.1 200 OK\r\nConnection: close\r\nContent-Length: ").length = 52 := by
    decide
  have hcr := head_cr
  generalize bytes "HTTP/1.1 200 OK\r\nConnection: close\r\nContent-Length: " = L at hL hcr ⊢
  have hko := (memmem_eq_some_iff _ _ _).1 hk
  have e : L ++ (d ++ (13 :: 10 :: out)) = (L ++ (d ++ [13, 10])) ++ out := by simp
  have eH : (L ++ (d ++ [13, 10])).length = L.length + d.length + 2 := by
    simp only [List.length_append, List.length_cons, List.length_nil]
    omega
  rw [memmem_eq_some_iff]
  constructor
  · rw [e, ← eH, List.drop_append]
    exact hko.1
  · intro q hq hpre
    rw [CRLFCRLF_eq] at hpre
    have g0 := prefix_getElem? (i := 0) hpre (by decide)
    have g1 := prefix_getElem? (i := 1) hpre (by decide)
    have g2 := prefix_getElem? (i := 2) hpre (by decide)
    have g3 := prefix_getElem? (i := 3) hpre (by decide)
    simp only [List.getElem?_cons_zero, List.getElem?_cons_succ, Nat.add_zero] at g0 g1 g2 g3
    by_cases h1 : q < L.length
    · rw [List.getElem?_append_left h1] at g0
      obtain ⟨h2, h3⟩ := hcr q (by omega) g0
      rw [List.getElem?_append_left (by omega)] at g2
      exact h3 g2
    · by_cases h2 : q < L.length + d.length
      · rw [List.getElem?_append_right (by omega), List.getElem?_append_left (by omega)] at g0
        have := (hd 13 (List.getElem?_mem g0)).1
        exact absurd this (by decide)
      · by_cases h3 : q < L.length + d.length + 2
        · obtain ⟨j, hj, hqj⟩ : ∃ j, j < 2 ∧ q = L.length + d.length + j :=
            ⟨q - (L.length + d.length), by omega, by omega⟩
          subst hqj
          rw [getElem?_after_head] at g0
          have e2 : L.length + d.length + j + 2 = L.length + d.length + (j + 2) := by omega
          have e3 : L.length + d.length + j + 3 = L.length + d.length + (j + 3) := by omega
          rw [e2, getElem?_after_head] at g2
          rw [e3, getElem?_after_head] at g3
          interval_cases j
          · simp only [List.getElem?_cons_succ] at g2 g3
            exact hstart (take_two_of_getElem? out 13 10 g2 g3)
          · simp at g0
        · rw [CRLFCRLF_eq] at hko
          obtain ⟨i, hqi⟩ : ∃ i, q = (L ++ (d ++ [13, 10])).length + i :=
            ⟨q - (L.length + d.length + 2), by omega⟩
          rw [e, hqi, List.drop_append] at hpre
          exact hko.2 i (by omega) hpre

/-- C21 (as amended): for every successful dynamic response, every write
succeeding, whose captured interpreter output does not begin with CRLF and
has fewer than 2^31 octets after its first CRLF CRLF, at offset `k`: the
response is the status line, `Connection: close` and `Content-Length`,
written by the server, followed by the whole captured output; the header
block of the response ends at the first CRLF CRLF of the output and holds
the three lines of the server (none of them a Content-Type) followed by the
header lines of the interpreter; the octets after the header block are the
captured output after its first CRLF CRLF, and their number is the
Content-Length. -/
theorem dynamic_response_body (w : World) (query path : List octet) (s : Server) (c : Conn)
    (f : List FRead) (k : Nat) (hc : s.cfd = some c) (hw : c.wscript = []) (hb : s.body = none)
    (hpo : w.popen (main_command query path) = some f) (hf : ∀ r ∈ f, r.ferror = false)
    (hk : memmem (fileBytes f) CRLFCRLF = some k)
    (hstart : (fileBytes f).take 2 ≠ bytes "\r\n")
    (hsize : (fileBytes f).length - (k + 4) < 2147483648) :
    ∃ head resp,
      head = bytes "HTTP/1.1 200 OK\r\nConnection: close\r\nContent-Length: "
          ++ bytes (toString ((fileBytes f).length - (k + 4))) ++ bytes "\r\n"
      ∧ resp = head ++ fileBytes f
      ∧ (main_dynamic w query path s).cfd.map (·.output) = some (c.output ++ resp)
      ∧ memmem resp CRLFCRLF = some (head.length + k)
      ∧ resp.take (head.length + k) = head ++ (fileBytes f).take k
      ∧ resp.drop (head.length + k + 4) = (fileBytes f).drop (k + 4)
      ∧ (resp.drop (head.length + k + 4)).length = (fileBytes f).length - (k + 4) := by
  have h4 : CRLFCRLF.length = 4 := by decide
  have e2 : bytes "\r\n" = [13, 10] := by decide
  have hkl := memmem_some_length CRLFCRLF_ne_nil hk
  rw [h4] at hkl
  have hout := main_dynamic_ok w query path s c f k hc hw hb hpo hf hk
  have ecast : ((fileBytes f).length : Int) - ((k : Int) + 4)
      = (((fileBytes f).length - (k + 4) : Nat) : Int) := by omega
  rw [ecast, fmt_i_small _ hsize] at hout
  rw [e2] at hstart
  have hm := memmem_after_head (bytes (toString ((fileBytes f).length - (k + 4)))) (fileBytes f) k
    (toString_digits _) hk hstart
  generalize bytes (toString ((fileBytes f).length - (k + 4))) = d at hout hm ⊢
  generalize bytes "HTTP/1.1 200 OK\r\nConnection: close\r\nContent-Length: " = L at hout hm ⊢
  rw [e2] at hout ⊢
  have e : L ++ (d ++ (13 :: 10 :: fileBytes f)) = L ++ d ++ [13, 10] ++ fileBytes f := by simp
  have el : (L ++ d ++ [13, 10]).length = L.length + d.length + 2 := by
    simp only [List.length_append, List.length_cons, List.length_nil]
  rw [e, ← el] at hm
  refine ⟨_, _, rfl, rfl, hout, hm, ?_, ?_, ?_⟩
  · rw [List.take_append]
  · rw [Nat.add_assoc, List.drop_append]
  · rw [Nat.add_assoc, List.drop_append, List.length_drop]

set_option maxRecDepth 100000 in
/-- C21 (as amended), on an interpreter that writes `X-Powered-By: PHP`, a
blank line and `hi`. -/
theorem dynamic_response_body_witness :
    (main_dynamic (oneScript (bytes "/srv/run.php")
          [{ octets := bytes "X-Powered-By: PHP\r\n\r\nhi", ferror := false, feof := true }])
        (bytes "x=1") (bytes "/srv/run.php") (serving (bytes "/srv"))).cfd.map (·.output)
      = some (bytes "HTTP/1.1 200 OK\r\nConnection: close\r\nContent-Length: 2\r\nX-Powered-By: PHP\r\n\r\nhi")
    ∧ memmem (bytes "HTTP/1.1 200 OK\r\nConnection: close\r\nContent-Length: 2\r\nX-Powered-By: PHP\r\n\r\nhi")
        CRLFCRLF = some 72
    ∧ (bytes "HTTP/1.1 200 OK\r\nConnection: close\r\nContent-Length: 2\r\nX-Powered-By: PHP\r\n\r\nhi").drop
        (72 + 4) = bytes "hi" := by
  obtain ⟨head, resp, h1, h2, h3, h4, _, h6, _⟩ := dynamic_response_body
    (oneScript (bytes "/srv/run.php")
      [{ octets := bytes "X-Powered-By: PHP\r\n\r\nhi", ferror := false, feof := true }])
    (bytes "x=1") (bytes "/srv/run.php") (serving (bytes "/srv"))
    { input := [], wscript := [], output := [] }
    [{ octets := bytes "X-Powered-By: PHP\r\n\r\nhi", ferror := false, feof := true }] 17
    rfl rfl rfl rfl (by decide) (by decide) (by decide) (by decide)
  subst h1
  subst h2
  have e : bytes "HTTP/1.1 200 OK\r\nConnection: close\r\nContent-Length: "
        ++ bytes (toString ((fileBytes
          [{ octets := bytes "X-Powered-By: PHP\r\n\r\nhi", ferror := false, feof := true }]).length
            - (17 + 4))) ++ bytes "\r\n"
        ++ fileBytes
          [{ octets := bytes "X-Powered-By: PHP\r\n\r\nhi", ferror := false, feof := true }]
      = bytes "HTTP/1.1 200 OK\r\nConnection: close\r\nContent-Length: 2\r\nX-Powered-By: PHP\r\n\r\nhi" := by
    decide
  rw [e] at h3 h4 h6
  exact ⟨h3, h4.trans (by decide), h6.trans (by decide)⟩

set_option maxRecDepth 100000 in
/-- C21, refuted as stated: when the interpreter writes
`Content-Type: text/html`, a blank line and `hi` for the request
`GET /run.php?x=1 HTTP/1.1`, the response holds the header line
`Content-Type: text/html`; and when the interpreter writes a blank line at
once (CRLF CRLF and `hi`), the header block of the response ends two octets
before the output and the octets after it are CRLF and `hi`, four octets
under a Content-Length of 2. -/
theorem dynamic_response_content_type :
    (main_handle (oneScript (bytes "/srv/run.php")
          [{ octets := bytes "Content-Type: text/html\r\n\r\nhi", ferror := false, feof := true }])
        (accepted [ReadResult.octets (bytes "GET /run.php?x=1 HTTP/1.1\r\n\r\n")])).map
          (fun s1 => s1.cfd.map (·.output))
      = some (some (bytes "HTTP/1.1 200 OK\r\nConnection: close\r\nContent-Length: 2\r\nContent-Type: text/html\r\n\r\nhi"))
    ∧ memmem (bytes "HTTP/1.1 200 OK\r\nConnection: close\r\nContent-Length: 2\r\nContent-Type: text/html\r\n\r\nhi")
        (bytes "\r\nContent-Type: text/html\r\n") = some 53
    ∧ (main_handle (oneScript (bytes "/srv/run.php")
          [{ octets := bytes "\r\n\r\nhi", ferror := false, feof := true }])
        (accepted [ReadResult.octets (bytes "GET /run.php?x=1 HTTP/1.1\r\n\r\n")])).map
          (fun s1 => s1.cfd.map (·.output))
      = some (some (bytes "HTTP/1.1 200 OK\r\nConnection: close\r\nContent-Length: 2\r\n\r\n\r\nhi"))
    ∧ memmem (bytes "HTTP/1.1 200 OK\r\nConnection: close\r\nContent-Length: 2\r\n\r\n\r\nhi")
        CRLFCRLF = some 53
    ∧ (bytes "HTTP/1.1 200 OK\r\nConnection: close\r\nContent-Length: 2\r\n\r\n\r\nhi").drop (53 + 4)
        = bytes "\r\nhi" := by
  refine ⟨by decide, by decide, by decide, by decide, by decide⟩

/-! ## The claim about `Connection: close` -/

theorem sendAll_output : ∀ (ws : List (List octet)) (c : Conn),
    ∃ t, (sendAll ws c).2.output = c.output ++ t
  | [], c => ⟨[], by simp [sendAll]⟩
  | bs :: ws, ⟨i, [], o⟩ => by
    rw [sendAll, send]
    simp only
    obtain ⟨t, ht⟩ := sendAll_output ws ⟨i, [], o ++ bs⟩
    exact ⟨bs ++ t, by rw [ht]; simp⟩
  | bs :: ws, ⟨i, false :: r, o⟩ => by
    rw [sendAll, send]
    exact ⟨[], by simp⟩
  | bs :: ws, ⟨i, true :: r, o⟩ => by
    rw [sendAll, send]
    simp only
    obtain ⟨t, ht⟩ := sendAll_output ws ⟨i, r, o ++ bs⟩
    exact ⟨bs ++ t, by rw [ht]; simp⟩

/-- A run of writes that starts with the pieces `a` and `b` writes nothing,
or `a` alone when the second write fails, or `a` and `b` and more. -/
theorem sendAll_two (a b : List octet) (rest : List (List octet)) : ∀ c : Conn,
    ∃ resp, (sendAll (a :: b :: rest) c).2.output = c.output ++ resp
      ∧ (resp = [] ∨ (resp = a ∧ c.wscript[1]? = some false) ∨ (a ++ b) <+: resp)
  | ⟨i, [], o⟩ => by
    rw [sendAll_wscript_nil _ _ rfl]
    refine ⟨a ++ (b ++ rest.flatten), by simp, Or.inr (Or.inr ?_)⟩
    rw [← List.append_assoc]
    exact List.prefix_append _ _
  | ⟨i, false :: r, o⟩ => by
    rw [sendAll, send]
    exact ⟨[], by simp, Or.inl rfl⟩
  | ⟨i, [true], o⟩ => by
    rw [sendAll, send]
    simp only
    rw [sendAll_wscript_nil _ _ rfl]
    refine ⟨a ++ (b ++ rest.flatten), by simp, Or.inr (Or.inr ?_)⟩
    rw [← List.append_assoc]
    exact List.prefix_append _ _
  | ⟨i, true :: false :: r, o⟩ => by
    rw [sendAll, send]
    simp only
    rw [sendAll, send]
    exact ⟨a, by simp, Or.inr (Or.inl ⟨rfl, by simp⟩)⟩
  | ⟨i, true :: true :: r, o⟩ => by
    rw [sendAll, send]
    simp only
    rw [sendAll, send]
    simp only
    obtain ⟨t, ht⟩ := sendAll_output rest ⟨i, r, o ++ a ++ b⟩
    exact ⟨a ++ b ++ t, by rw [ht]; simp, Or.inr (Or.inr (List.prefix_append _ _))⟩

theorem closes_nothing (s1 : Server) (c : Conn) (h : s1.cfd = some c) (ws : List Bool) :
    ClosesAfterStatus c.output ws s1 :=
  ⟨[], by rw [h]; simp, Or.inl rfl⟩

theorem error_closes (code : Nat) (s : Server) (c : Conn) (hc : s.cfd = some c) :
    ClosesAfterStatus c.output c.wscript (error code s).2 := by
  unfold error
  rw [hc]
  simp only
  split
  · exact closes_nothing s c hc _
  · cases hp : phrase code with
    | none => exact closes_nothing s c hc _
    | some phr =>
      simp only
      obtain ⟨resp, h1, h2⟩ := sendAll_two
        (bytes "HTTP/1.1 " ++ fmt_i code ++ bytes " " ++ phr ++ bytes "\r\n")
        (bytes "Connection: close\r\n")
        [bytes "Content-Length: " ++ fmt_i ((errorContent code phr).length : Int) ++ bytes "\r\n",
          bytes "Content-Type: text/html\r\n", bytes "\r\n", errorContent code phr] c
      refine ⟨resp, ?_, ?_⟩
      · simp only [Option.map_some', Option.some.injEq]
        exact h1
      · rcases h2 with h | h | h
        · exact Or.inl h
        · exact Or.inr ⟨_, Or.inr ⟨code, phr, hp, rfl⟩, Or.inl h⟩
        · exact Or.inr ⟨_, Or.inr ⟨code, phr, hp, rfl⟩, Or.inr h⟩

theorem parseLoop_closes (c : Conn) : ∀ (input : List ReadResult)
    (request : Option (List octet)) (s : Server),
    ((parseLoop input c request s).1 = -1 →
        ClosesAfterStatus c.output c.wscript (parseLoop input c request s).2)
    ∧ ((parseLoop input c request s).1 ≠ -1 →
        ∃ c1, (parseLoop input c request s).2.cfd = some c1 ∧ c1.output = c.output
          ∧ c1.wscript = c.wscript)
  | [], request, s => by
    rw [parseLoop]
    exact ⟨fun _ => closes_nothing _ { c with input := [] } rfl _, fun h => absurd rfl h⟩
  | ReadResult.error :: rest, request, s => by
    rw [parseLoop]
    exact ⟨fun _ => error_closes 500 _ { c with input := rest } rfl, fun h => absurd rfl h⟩
  | ReadResult.octets chunk :: rest, request, s => by
    rw [parseLoop]
    simp only
    split
    · split
      · constructor
        · intro h
          simp only at h
          omega
        · intro _
          exact ⟨{ c with input := rest }, rfl, rfl, rfl⟩
      · split
        · exact ⟨fun _ => error_closes 413 _ { c with input := rest } rfl,
            fun h => absurd rfl h⟩
        · exact parseLoop_closes c rest _ s
    · exact ⟨fun _ => closes_nothing _ { c with input := rest } rfl _, fun h => absurd rfl h⟩

theorem main_static_closes (w : World) (extension path : List octet) (s : Server) (c : Conn)
    (hc : s.cfd = some c) :
    ClosesAfterStatus c.output c.wscript (main_static w extension path s) := by
  unfold main_static
  split
  · exact error_closes 501 s c hc
  · split
    · exact error_closes 500 s c hc
    · rename_i type _ _ f _
      have hcfd : (load { s with file := some f }).2.cfd = some c := by rw [load_cfd]; exact hc
      simp only
      split
      · exact error_closes 500 _ c hcfd
      · rw [hcfd]
        simp only
        obtain ⟨resp, h1, h2⟩ := sendAll_two (bytes "HTTP/1.1 200 OK\r\n")
          (bytes "Connection: close\r\n")
          [bytes "Content-Length: " ++ fmt_i (load { s with file := some f }).1 ++ bytes "\r\n",
            bytes "Content-Type: " ++ type ++ bytes "\r\n\r\n",
            (load { s with file := some f }).2.body.getD []] c
        refine ⟨resp, ?_, ?_⟩
        · simp only [Option.map_some', Option.some.injEq]
          exact h1
        · rcases h2 with h | h | h
          · exact Or.inl h
          · exact Or.inr ⟨_, Or.inl rfl, Or.inl h⟩
          · exact Or.inr ⟨_, Or.inl rfl, Or.inr h⟩

theorem main_dynamic_closes (w : World) (query path : List octet) (s : Server) (c : Conn)
    (hc : s.cfd = some c) :
    ClosesAfterStatus c.output c.wscript (main_dynamic w query path s) := by
  unfold main_dynamic
  simp only
  split
  · exact error_closes 500 s c hc
  · rename_i f _
    have hcfd : (load { s with file := some f }).2.cfd = some c := by rw [load_cfd]; exact hc
    split
    · exact error_closes 500 _ c hcfd
    · split
      · exact error_closes 500 _ c hcfd
      · rename_i _ needle _
        rw [hcfd]
        simp only
        obtain ⟨resp, h1, h2⟩ := sendAll_two (bytes "HTTP/1.1 200 OK\r\n")
          (bytes "Connection: close\r\n")
          [bytes "Content-Length: "
              ++ fmt_i ((load { s with file := some f }).1 - ((needle : Int) + 4)) ++ bytes "\r\n",
            (load { s with file := some f }).2.body.getD []] c
        refine ⟨resp, ?_, ?_⟩
        · simp only [Option.map_some', Option.some.injEq]
          exact h1
        · rcases h2 with h | h | h
          · exact Or.inl h
          · exact Or.inr ⟨_, Or.inl rfl, Or.inl h⟩
          · exact Or.inr ⟨_, Or.inl rfl, Or.inr h⟩

theorem main_serve_closes (w : World) (abs_path query : List octet) (s s1 : Server) (c : Conn)
    (hc : s.cfd = some c) (h : main_serve w abs_path query s = some s1) :
    ClosesAfterStatus c.output c.wscript s1 := by
  unfold main_serve at h
  simp only at h
  split at h
  · cases h; exact error_closes 404 s c hc
  · split at h
    · cases h; exact error_closes 403 s c hc
    · split at h
      · cases h
      · split at h
        · cases h; exact main_dynamic_closes w _ _ s c hc
        · cases h; exact main_static_closes w _ _ s c hc

theorem main_respond_closes (w : World) (s s1 : Server) (c : Conn) (hc : s.cfd = some c)
    (h : main_respond w s = some s1) : ClosesAfterStatus c.output c.wscript s1 := by
  unfold main_respond at h
  split at h
  · cases h
  · cases h; exact error_closes _ s c hc
  · split at h
    · cases h
    · cases h; exact error_closes _ s c hc
    · exact main_serve_closes w _ _ s s1 c hc h

theorem main_handle_closes (w : World) (s s1 : Server) (c : Conn) (hc : s.cfd = some c)
    (hreq : s.request = none) (h : main_handle w s = some s1) :
    ClosesAfterStatus c.output c.wscript s1 := by
  unfold main_handle at h
  simp only at h
  rw [parse_eq_parseLoop s c hc hreq] at h
  obtain ⟨h1, h2⟩ := parseLoop_closes c c.input none s
  split at h
  · rename_i hm
    cases h
    exact h1 hm
  · rename_i hm
    obtain ⟨c1, hc1, ho, hws⟩ := h2 hm
    have := main_respond_closes w _ s1 c1 hc1 h
    rw [ho, hws] at this
    exact this

/-- C24: every response the server writes in an iteration of the serve loop,
a static 200, a dynamic 200 or an error response, has the header line
`Connection: close` immediately after its status line, for every request and
every outcome in which a status line is written and the following write
succeeds: the octets `resp` written on the accepted connection are none, or a
status line alone when the write after it failed, or they start with a status
line followed by `Connection: close` CRLF. -/
theorem connection_close_after_status (w : World) (s s1 : Server) (c : Conn)
    (h : main_iteration w (some c) s = some s1) :
    ∃ resp, s1.cfd.map (·.output) = some (c.output ++ resp)
      ∧ (resp = []
        ∨ ∃ line,
            (line = bytes "HTTP/1.1 200 OK\r\n"
              ∨ ∃ code phr, phrase code = some phr
                  ∧ line = bytes "HTTP/1.1 " ++ fmt_i code ++ bytes " " ++ phr ++ bytes "\r\n")
            ∧ ((resp = line ∧ c.wscript[1]? = some false)
              ∨ (line ++ bytes "Connection: close\r\n") <+: resp)) :=
  main_handle_closes w (connected (some c) (reset s)).2 s1 c rfl rfl h

set_option maxRecDepth 100000 in
/-- C24, on `GET /x.html HTTP/1.1` for a file that does not exist, the third
write failing: the status line of the 404 response and `Connection: close`
are written. -/
theorem connection_close_after_status_witness :
    main_iteration noFiles
        (some { input := [ReadResult.octets (bytes "GET /x.html HTTP/1.1\r\n\r\n")],
                wscript := [true, true, false], output := [] })
        (serving (bytes "/srv"))
      = some
        { root := bytes "/srv",
          cfd := some { input := [], wscript := [], output := bytes "HTTP/1.1 404 Not Found\r\nConnection: close\r\n" },
          request := some (bytes "GET /x.html HTTP/1.1\r\n" ++ [0]),
          file := none,
          body := none }
    ∧ ∃ resp, some (bytes "HTTP/1.1 404 Not Found\r\nConnection: close\r\n") = some ([] ++ resp)
      ∧ (resp = []
        ∨ ∃ line,
            (line = bytes "HTTP/1.1 200 OK\r\n"
              ∨ ∃ code phr, phrase code = some phr
                  ∧ line = bytes "HTTP/1.1 " ++ fmt_i code ++ bytes " " ++ phr ++ bytes "\r\n")
            ∧ ((resp = line ∧ [true, true, false][1]? = some false)
              ∨ (line ++ bytes "Connection: close\r\n") <+: resp)) :=
  ⟨by decide,
    connection_close_after_status noFiles (serving (bytes "/srv"))
      { root := bytes "/srv",
        cfd := some { input := [], wscript := [], output := bytes "HTTP/1.1 404 Not Found\r\nConnection: close\r\n" },
        request := some (bytes "GET /x.html HTTP/1.1\r\n" ++ [0]),
        file := none,
        body := none }
      { input := [ReadResult.octets (bytes "GET /x.html HTTP/1.1\r\n\r\n")],
        wscript := [true, true, false], output := [] }
      (by decide)⟩

/-! ## The claims about `load` and the capacities of the buffers -/

theorem loadLoop_error : ∀ (pre : List FRead) (r : FRead) (rest : List FRead)
    (body : Option (List octet)) (s : Server),
    (∀ x ∈ pre, x.ferror = false ∧ x.feof = false) → r.ferror = true →
    (loadLoop (pre ++ r :: rest) body s).1 = -1
    ∧ (loadLoop (pre ++ r :: rest) body s).2.body = none
  | [], r, rest, body, s, _, hr => by
    rw [List.nil_append, loadLoop, if_pos hr]
    exact ⟨rfl, rfl⟩
  | x :: pre, r, rest, body, s, hpre, hr => by
    obtain ⟨h1, h2⟩ := hpre x (List.mem_cons_self _ _)
    rw [List.cons_append, loadLoop]
    simp only [h1, h2, Bool.false_eq_true, if_false]
    exact loadLoop_error pre r rest _ s (fun y hy => hpre y (List.mem_cons_of_mem _ hy)) hr

/-- C33: for every file (or pipe) whose content is delivered by a sequence of
reads that ends in end-of-file without read error, `load`, called with the
file open and no body loaded, returns the total number of octets and leaves
in `body` the concatenation of the octets read, in order (size 0 for an empty
file); it returns -1 when no file is open, when a body is already loaded, and
when a read signals an error, and after a read error the body is absent. -/
theorem load_contract (s : Server) (f : List FRead) :
    (s.body = none → (∀ r ∈ f, r.ferror = false) →
        (load { s with file := some f }).1 = ((fileBytes f).length : Int)
        ∧ (load { s with file := some f }).2.body.getD [] = fileBytes f)
    ∧ (s.body = none → fileBytes f = [] → (∀ r ∈ f, r.ferror = false) →
        (load { s with file := some f }).1 = 0)
    ∧ (s.file = none → load s = (-1, s))
    ∧ (s.body.isSome = true → load s = (-1, s))
    ∧ (∀ pre r rest, s.body = none → f = pre ++ r :: rest →
        (∀ x ∈ pre, x.ferror = false ∧ x.feof = false) → r.ferror = true →
        (load { s with file := some f }).1 = -1
        ∧ (load { s with file := some f }).2.body = none) := by
  refine ⟨?_, ?_, ?_, ?_, ?_⟩
  · intro hb hf
    exact ⟨(load_ok s f hb hf).1, (load_ok s f hb hf).2.1⟩
  · intro hb h0 hf
    rw [(load_ok s f hb hf).1, h0]
    rfl
  · intro h
    unfold load
    rw [h]
  · intro h
    unfold load
    cases hfile : s.file with
    | none => rfl
    | some g =>
      simp only
      rw [if_pos h]
  · intro pre r rest hb hf hpre hr
    have h := loadLoop_error pre r rest none { s with file := some f } hpre hr
    unfold load
    simp only [hb, Option.isSome_none, Bool.false_eq_true, if_false] at h ⊢
    rw [hf] at h ⊢
    exact h

set_option maxRecDepth 100000 in
/-- C33, on a file of 5 octets read in two reads, on an empty file, without
open file, with a body already loaded, and on a read error after a first
read. -/
theorem load_contract_witness :
    (load { serving (bytes "/srv") with file := some [
          { octets := bytes "hel", ferror := false, feof := false },
          { octets := bytes "lo", ferror := false, feof := true }] }).1 = 5
    ∧ (load { serving (bytes "/srv") with file := some [
          { octets := bytes "hel", ferror := false, feof := false },
          { octets := bytes "lo", ferror := false, feof := true }] }).2.body.getD []
        = bytes "hello"
    ∧ (load { serving (bytes "/srv") with file := some [
          { octets := [], ferror := false, feof := true }] }).1 = 0
    ∧ load (serving (bytes "/srv")) = (-1, serving (bytes "/srv"))
    ∧ (load { serving (bytes "/srv") with file := some [
          { octets := bytes "hel", ferror := false, feof := false },
          { octets := [], ferror := true, feof := false }] }).2.body = none := by
  have h1 := (load_contract (serving (bytes "/srv"))
    [{ octets := bytes "hel", ferror := false, feof := false },
      { octets := bytes "lo", ferror := false, feof := true }]).1 rfl (by decide)
  have h2 := (load_contract (serving (bytes "/srv"))
    [{ octets := [], ferror := false, feof := true }]).2.1 rfl (by decide) (by decide)
  have h3 := (load_contract (serving (bytes "/srv")) []).2.2.1 rfl
  have h4 := (load_contract (serving (bytes "/srv"))
    [{ octets := bytes "hel", ferror := false, feof := false },
      { octets := [], ferror := true, feof := false }]).2.2.2.2
    [{ octets := bytes "hel", ferror := false, feof := false }]
    { octets := [], ferror := true, feof := false } [] rfl rfl (by decide) rfl
  exact ⟨h1.1.trans (by decide), h1.2.trans (by decide), h2, h3, h4.2⟩

/-- The target length computed from an accepted request line is the length of
the extracted target plus one. -/
theorem main_validate_length (line : List octet) (a : List octet × Int)
    (h : main_validate line = Checked.ok a) : a.2 = (a.1.length : Int) + 1 := by
  obtain ⟨_, sp, n1, sl, _, _, _, hver, _, hpos, ha, _⟩ := main_validate_ok line a h
  have h8 : ((bytes "HTTP/1.1").map tolower).length = 8 := by decide
  have hne : (bytes "HTTP/1.1").map tolower ≠ [] := by decide
  unfold strcasestr at hver
  have hl := memmem_some_length hne hver
  rw [h8, List.length_map] at hl
  rw [ha]
  simp only [List.length_take, List.length_drop]
  omega

/-- The capacity declared for `path` against the size of the resolved path
with its NUL: one octet short when the target has no query, enough when it
has one. -/
theorem main_path_capacity_cases (root line : List octet) (a : List octet × Int)
    (h : main_validate line = Checked.ok a)
    (hsmall : root.length + a.1.length < 18446744073709551616) :
    (63 ∉ a.1 →
      main_path_capacity root a.2 + 1 = ((root ++ (main_query a.1).1).length : Int) + 1)
    ∧ (63 ∈ a.1 →
      ((root ++ (main_query a.1).1).length : Int) + 1 ≤ main_path_capacity root a.2) := by
  have hlen := main_validate_length line a h
  have hcap : main_path_capacity root a.2 = (root.length : Int) + (a.1.length : Int) := by
    unfold main_path_capacity
    rw [hlen]
    omega
  constructor
  · intro hq
    rw [hcap, main_query_none _ hq, List.length_append]
    push_cast
    rfl
  · intro hq
    have hp : (main_query a.1).1 = a.1.take (a.1.indexOf 63) := by
      unfold main_query
      rw [strchr_of_mem (by decide) hq]
    have hi : a.1.indexOf 63 < a.1.length := List.indexOf_lt_length.2 hq
    rw [hcap, hp, List.length_append, List.length_take]
    omega

set_option maxRecDepth 100000 in
/-- C32, failing input `GET /index.html HTTP/1.1` under the root `/srv`: the
request line is accepted with the target `/index.html` and the computed
target length 12, the query-stripped path is `/index.html`, the capacity
declared for `path` is 4 + 12 - 1 = 15, and the resolved path
`/srv/index.html` with its terminating NUL takes 16 octets. -/
theorem main_path_one_short :
    main_validate (bytes "GET /index.html HTTP/1.1\r\n") = Checked.ok (bytes "/index.html", 12)
    ∧ main_query (bytes "/index.html") = (bytes "/index.html", [])
    ∧ main_path_capacity (bytes "/srv") 12 = 15
    ∧ (bytes "/srv" ++ bytes "/index.html").length + 1 = 16
    ∧ bytes "/srv" ++ bytes "/index.html" = bytes "/srv/index.html" := by
  refine ⟨by decide, by decide, by decide, by decide, by decide⟩

theorem sprintf_s_cons (c : octet) (rest : List octet) (args : List (List octet))
    (hc : c ≠ 37) : sprintf_s (c :: rest) args = c :: sprintf_s rest args := by
  rw [sprintf_s]
  intro r a as h
  cases h
  exact absurd rfl hc

theorem sprintf_s_lit : ∀ (pre : List octet) (args : List (List octet)), 37 ∉ pre →
    sprintf_s pre args = pre
  | [], _, _ => by rw [sprintf_s]
  | c :: pre, args, h => by
    have hc : c ≠ 37 := fun e => h (by rw [e]; exact List.mem_cons_self _ _)
    rw [sprintf_s_cons c pre args hc, sprintf_s_lit pre args (fun hm => h (List.mem_cons_of_mem _ hm))]

theorem sprintf_s_conv : ∀ (pre rest a : List octet) (args : List (List octet)), 37 ∉ pre →
    sprintf_s (pre ++ 37 :: 115 :: rest) (a :: args) = pre ++ a ++ sprintf_s rest args
  | [], rest, a, args, _ => by
    rw [List.nil_append, sprintf_s, List.nil_append]
  | c :: pre, rest, a, args, h => by
    have hc : c ≠ 37 := fun e => h (by rw [e]; exact List.mem_cons_self _ _)
    rw [List.cons_append, sprintf_s_cons c _ _ hc,
      sprintf_s_conv pre rest a args (fun hm => h (List.mem_cons_of_mem _ hm))]
    simp

/-- The command printed by `sprintf` from the format of `main`. -/
theorem sprintf_s_command (query path : List octet) :
    sprintf_s main_command_format [query, path] = main_command query path := by
  have e : main_command_format
      = bytes "QUERY_STRING=\"" ++ 37 :: 115
          :: (bytes "\" REDIRECT_STATUS=200 SCRIPT_FILENAME=\"" ++ 37 :: 115 :: bytes "\" php-cgi") := by
    decide
  rw [e, sprintf_s_conv _ _ _ _ (by decide), sprintf_s_conv _ _ _ _ (by decide),
    sprintf_s_lit _ _ (by decide)]
  unfold main_command
  simp only [List.append_assoc]

theorem main_command_length (query path : List octet) :
    (main_command query path).length = 62 + query.length + path.length := by
  have e1 : (bytes "QUERY_STRING=\"").length = 14 := by decide
  have e2 : (bytes "\" REDIRECT_STATUS=200 SCRIPT_FILENAME=\"").length = 39 := by decide
  have e3 : (bytes "\" php-cgi").length = 9 := by decide
  unfold main_command
  simp only [List.length_append, e1, e2, e3]
  omega

/-- C34: for every accepted request whose extension equals `php` ignoring
case, with query `q` and resolved path root ++ `p`, the serve loop takes the
dynamic branch and hands to `popen` the command that `sprintf` prints from the
format: when `popen` fails on that command the response is the 500 error, and
when it succeeds the output loaded and sent is the one of the interpreter
started with that command; nothing else of the interpreter is consulted.  The
command is exactly
`QUERY_STRING="q" REDIRECT_STATUS=200 SCRIPT_FILENAME="path" php-cgi`, with
`q` and the path inserted octet for octet, and its length plus the
terminating NUL is the capacity declared for `command`, also when `q` is
empty. -/
theorem main_command_exact (w : World) (p query pre ext : List octet) (s : Server)
    (hsplit : s.root ++ p = pre ++ 46 :: ext) (hpre : 46 ∉ pre)
    (hF : w.access_F_OK (s.root ++ p) = true) (hR : w.access_R_OK (s.root ++ p) = true)
    (hphp : strcasecmp (bytes "php") ext = 0)
    (hsmall : (s.root ++ p).length + query.length + 63 < 18446744073709551616) :
    main_serve w p query s = some (main_dynamic w query (s.root ++ p) s)
    ∧ (∃ F : Option (List FRead) → Server, ∀ w1 : World,
        main_dynamic w1 query (s.root ++ p) s
          = F (w1.popen (sprintf_s main_command_format [query, s.root ++ p])))
    ∧ sprintf_s main_command_format [query, s.root ++ p]
        = bytes "QUERY_STRING=\"" ++ query ++ bytes "\" REDIRECT_STATUS=200 SCRIPT_FILENAME=\""
          ++ (s.root ++ p) ++ bytes "\" php-cgi"
    ∧ ((sprintf_s main_command_format [query, s.root ++ p]).length : Int) + 1
        = main_command_capacity query (s.root ++ p)
    ∧ ((sprintf_s main_command_format [[], s.root ++ p]).length : Int) + 1
        = main_command_capacity [] (s.root ++ p)
    ∧ (w.popen (sprintf_s main_command_format [query, s.root ++ p]) = none →
        main_serve w p query s = some (error 500 s).2)
    ∧ (∀ (c : Conn) (f : List FRead) (k : Nat),
        w.popen (sprintf_s main_command_format [query, s.root ++ p]) = some f →
        s.cfd = some c → c.wscript = [] → s.body = none → (∀ r ∈ f, r.ferror = false) →
        memmem (fileBytes f) CRLFCRLF = some k →
        ∃ s1, main_serve w p query s = some s1
          ∧ s1.cfd.map (·.output) = some
              (c.output ++ (bytes "HTTP/1.1 200 OK\r\nConnection: close\r\nContent-Length: "
                ++ fmt_i (((fileBytes f).length : Int) - ((k : Int) + 4)) ++ bytes "\r\n"
                ++ fileBytes f))) := by
  have h66 : main_command_format.length = 66 := by decide
  have hcap : ∀ q : List octet, (s.root ++ p).length + q.length + 63 < 18446744073709551616 →
      ((sprintf_s main_command_format [q, s.root ++ p]).length : Int) + 1
        = main_command_capacity q (s.root ++ p) := by
    intro q hq
    rw [sprintf_s_command, main_command_length]
    unfold main_command_capacity
    rw [h66]
    omega
  have hserve : main_serve w p query s = some (main_dynamic w query (s.root ++ p) s) := by
    rw [main_serve_of_split w p query pre ext s hsplit hpre hF hR, if_pos hphp]
  refine ⟨hserve, ?_, ?_, hcap query hsmall, hcap [] ?_, ?_, ?_⟩
  · refine ⟨fun o => main_dynamic ⟨fun _ => false, fun _ => false, fun _ => none, fun _ => o⟩
      query (s.root ++ p) s, fun w1 => ?_⟩
    rw [sprintf_s_command]
    rfl
  · rw [sprintf_s_command]
    rfl
  · simp only [List.length_nil]
    omega
  · intro hpo
    rw [sprintf_s_command] at hpo
    rw [hserve]
    unfold main_dynamic
    simp only
    rw [hpo]
  · intro c f k hpo hc hw hb hf hk
    rw [sprintf_s_command] at hpo
    exact ⟨_, hserve, main_dynamic_ok w query (s.root ++ p) s c f k hc hw hb hpo hf hk⟩

set_option maxRecDepth 100000 in
/-- C34, on the script `/srv/run.php` with an empty query and with the query
`x=1`: the commands and their capacities; the response when the interpreter
can be started with the command for the query `x=1` only (its output is
sent), and when it can be started with the command for the query `x=2` only
(500). -/
theorem main_command_exact_witness :
    sprintf_s main_command_format [[], bytes "/srv/run.php"]
      = bytes "QUERY_STRING=\"\" REDIRECT_STATUS=200 SCRIPT_FILENAME=\"/srv/run.php\" php-cgi"
    ∧ main_command_capacity [] (bytes "/srv/run.php") = 75
    ∧ sprintf_s main_command_format [bytes "x=1", bytes "/srv/run.php"]
      = bytes "QUERY_STRING=\"x=1\" REDIRECT_STATUS=200 SCRIPT_FILENAME=\"/srv/run.php\" php-cgi"
    ∧ main_command_capacity (bytes "x=1") (bytes "/srv/run.php") = 78
    ∧ (∃ s1, main_serve (oneCommand (bytes "/srv/run.php")
          (bytes "QUERY_STRING=\"x=1\" REDIRECT_STATUS=200 SCRIPT_FILENAME=\"/srv/run.php\" php-cgi")
          [{ octets := bytes "X-Powered-By: PHP\r\n\r\nhi", ferror := false, feof := true }])
        (bytes "/run.php") (bytes "x=1") (serving (bytes "/srv")) = some s1
      ∧ s1.cfd.map (·.output) = some (bytes
          "HTTP/1.1 200 OK\r\nConnection: close\r\nContent-Length: 2\r\nX-Powered-By: PHP\r\n\r\nhi"))
    ∧ main_serve (oneCommand (bytes "/srv/run.php")
          (bytes "QUERY_STRING=\"x=2\" REDIRECT_STATUS=200 SCRIPT_FILENAME=\"/srv/run.php\" php-cgi")
          [{ octets := bytes "X-Powered-By: PHP\r\n\r\nhi", ferror := false, feof := true }])
        (bytes "/run.php") (bytes "x=1") (serving (bytes "/srv"))
      = some (error 500 (serving (bytes "/srv"))).2 := by
  have h1 := main_command_exact (oneScript (bytes "/srv/run.php") []) (bytes "/run.php") []
    (bytes "/srv/run") (bytes "php") (serving (bytes "/srv")) (by decide) (by decide)
    (by decide) (by decide) (by decide) (by decide)
  have h2 := main_command_exact (oneCommand (bytes "/srv/run.php")
      (bytes "QUERY_STRING=\"x=1\" REDIRECT_STATUS=200 SCRIPT_FILENAME=\"/srv/run.php\" php-cgi")
      [{ octets := bytes "X-Powered-By: PHP\r\n\r\nhi", ferror := false, feof := true }])
    (bytes "/run.php") (bytes "x=1") (bytes "/srv/run") (bytes "php") (serving (bytes "/srv"))
    (by decide) (by decide) (by decide) (by decide) (by decide) (by decide)
  have h3 := main_command_exact (oneCommand (bytes "/srv/run.php")
      (bytes "QUERY_STRING=\"x=2\" REDIRECT_STATUS=200 SCRIPT_FILENAME=\"/srv/run.php\" php-cgi")
      [{ octets := bytes "X-Powered-By: PHP\r\n\r\nhi", ferror := false, feof := true }])
    (bytes "/run.php") (bytes "x=1") (bytes "/srv/run") (bytes "php") (serving (bytes "/srv"))
    (by decide) (by decide) (by decide) (by decide) (by decide) (by decide)
  obtain ⟨s1, hs1, hout⟩ := h2.2.2.2.2.2.2 { input := [], wscript := [], output := [] }
    [{ octets := bytes "X-Powered-By: PHP\r\n\r\nhi", ferror := false, feof := true }] 17
    (by decide) rfl rfl rfl (by decide) (by decide)
  exact ⟨h1.2.2.1.trans (by decide), h1.2.2.2.1.symm.trans (by decide),
    h2.2.2.1.trans (by decide), h2.2.2.2.1.symm.trans (by decide),
    ⟨s1, hs1, hout.trans (by decide)⟩, h3.2.2.2.2.2.1 (by decide)⟩

/-! ## The termination of `parse` -/

theorem sendAll_keeps_input : ∀ (ws : List (List octet)) (c : Conn),
    (sendAll ws c).2.input = c.input
  | [], c => by simp [sendAll]
  | bs :: ws, ⟨i, [], o⟩ => by
    rw [sendAll, send]
    simp only
    exact sendAll_keeps_input ws ⟨i, [], o ++ bs⟩
  | bs :: ws, ⟨i, false :: r, o⟩ => by
    rw [sendAll, send]
  | bs :: ws, ⟨i, true :: r, o⟩ => by
    rw [sendAll, send]
    simp only
    exact sendAll_keeps_input ws ⟨i, r, o ++ bs⟩

theorem error_keeps_input (code : Nat) (s : Server) :
    (error code s).2.cfd.map (·.input) = s.cfd.map (·.input) := by
  unfold error
  cases hc : s.cfd with
  | none => simp [hc]
  | some c =>
    simp only
    split
    · simp [hc]
    · split
      · simp [hc]
      · simp only [Option.map_some', Option.some.injEq]
        exact sendAll_keeps_input _ c

theorem parseReadCount_nil (request : Option (List octet)) :
    parseReadCount [] request = 1 := by
  simp [parseReadCount]

theorem parseReadCount_error (rest : List ReadResult) (request : Option (List octet)) :
    parseReadCount (ReadResult.error :: rest) request = 1 := by
  simp [parseReadCount]

theorem parseReadCount_bound : ∀ (input : List ReadResult) (request : Option (List octet)),
    (request.getD []).length ≤ 212890 →
    parseReadCount input request + (request.getD []).length ≤ 212891
  | [], _, h => by
    rw [parseReadCount_nil]
    omega
  | ReadResult.error :: _, _, h => by
    rw [parseReadCount_error]
    omega
  | ReadResult.octets chunk :: rest, request, h => by
    rw [parseReadCount]
    simp only
    split
    · rename_i hpos
      split
      · omega
      · rw [limit_eq]
        split
        · omega
        · rename_i hlim
          have hl : (request.getD [] ++ chunk).length = (request.getD []).length + chunk.length :=
            List.length_append _ _
          have ih := parseReadCount_bound rest (some (request.getD [] ++ chunk))
            (by simp only [Option.getD_some]; omega)
          simp only [Option.getD_some] at ih
          omega
    · omega

theorem parseReads_before : ∀ (input : List ReadResult) (request : Option (List octet)),
    (request.getD []).length ≤ 212890 →
    ∀ ba ∈ parseReads input request, ba.1.length ≤ 212890 ∧ ba.1.length + 1 ≤ ba.2.length
  | [], _, _ => by simp [parseReads]
  | ReadResult.error :: _, _, _ => by simp [parseReads]
  | ReadResult.octets chunk :: rest, request, hreq => by
    intro ba hba
    rw [parseReads] at hba
    by_cases hpos : chunk.length > 0
    · rw [if_pos hpos] at hba
      simp only at hba
      rcases List.mem_cons.1 hba with h | h
      · rw [h]
        simp only [List.length_append]
        omega
      · split at h
        · cases h
        · rw [limit_eq] at h
          split at h
          · cases h
          · exact parseReads_before rest (some (request.getD [] ++ chunk))
              (by simp only [Option.getD_some]; omega) ba h
    · rw [if_neg hpos] at hba
      cases hba

/-- The reads left on the socket after `parse` are those after the calls
counted by `parseReadCount`. -/
theorem parseLoop_input (c : Conn) (s : Server) : ∀ (input : List ReadResult)
    (request : Option (List octet)),
    (parseLoop input c request s).2.cfd.map (·.input)
      = some (input.drop (parseReadCount input request))
  | [], request => by
    rw [parseLoop]
    rfl
  | ReadResult.error :: rest, request => by
    rw [parseLoop, parseReadCount_error, error_keeps_input]
    rfl
  | ReadResult.octets chunk :: rest, request => by
    rw [parseLoop, parseReadCount]
    simp only
    split
    · split
      · rfl
      · split
        · rw [error_keeps_input]
          rfl
        · rw [parseLoop_input c s rest _, Nat.add_comm, List.drop_succ_cons]
    · rfl

/-- The reads after the call at which `parse` returns have no effect on its
outcome. -/
theorem parseLoop_append (c : Conn) (s : Server) (tail : List ReadResult) :
    ∀ (input : List ReadResult) (request : Option (List octet)),
    parseReadCount input request ≤ input.length →
    parseReadCount (input ++ tail) request = parseReadCount input request
    ∧ parseOutcome (parseLoop (input ++ tail) c request s)
        = parseOutcome (parseLoop input c request s)
  | [], request, h => by
    rw [parseReadCount_nil] at h
    simp at h
  | ReadResult.error :: rest, request, _ => by
    rw [List.cons_append, parseLoop, parseLoop, parseReadCount_error, parseReadCount_error]
    refine ⟨rfl, ?_⟩
    unfold parseOutcome
    simp only [if_true]
    rw [error_output_input, error_output_input 500 s c rest request]
  | ReadResult.octets chunk :: rest, request, h => by
    rw [List.cons_append, parseLoop, parseLoop, parseReadCount, parseReadCount]
    rw [parseReadCount] at h
    simp only at h ⊢
    split
    · rw [if_pos (by assumption)] at h
      split
      · exact ⟨rfl, rfl⟩
      · rename_i hm
        rw [hm] at h
        simp only at h
        split
        · refine ⟨rfl, ?_⟩
          unfold parseOutcome
          simp only [if_true]
          rw [error_output_input, error_output_input 413 s c rest]
        · rw [if_neg (by assumption)] at h
          have ih := parseLoop_append c s tail rest (some (request.getD [] ++ chunk))
            (by simp only [List.length_cons] at h; omega)
          exact ⟨by rw [ih.1], ih.2⟩
    · exact ⟨rfl, rfl⟩

/-- C31: `parse` terminates on every input: for every sequence of read
results, finite (`input`, after which `read` returns 0) or infinite (`reads`),
the loop returns after at most 212891 calls of `read`: the calls are counted
by `parseReadCount`, which says how many reads `parse` consumes; every read
after which the loop goes on found at most 212890 octets accumulated and added
at least one octet; so what comes after the first 212891 read results has no
effect on the number of calls nor on the outcome of `parse`. -/
theorem parse_terminates (input : List ReadResult) (c : Conn) (s : Server) :
    parseReadCount input none ≤ 212891
    ∧ (parseLoop input c none s).2.cfd.map (·.input)
        = some (input.drop (parseReadCount input none))
    ∧ (∀ s1 : Server, s1.cfd = some c → s1.request = none → c.input = input →
        parse s1 = parseLoop input c none s1)
    ∧ (∀ ba ∈ parseReads input none, ba.1.length ≤ 212890 ∧ ba.1.length + 1 ≤ ba.2.length)
    ∧ (∀ tail, 212891 ≤ input.length →
        parseReadCount (input ++ tail) none = parseReadCount input none
        ∧ parseOutcome (parseLoop (input ++ tail) c none s)
            = parseOutcome (parseLoop input c none s))
    ∧ (∀ (reads : Nat → ReadResult) (n : Nat), 212891 ≤ n →
        parseReadCount ((List.range n).map reads) none
          = parseReadCount ((List.range 212891).map reads) none
        ∧ parseOutcome (parseLoop ((List.range n).map reads) c none s)
            = parseOutcome (parseLoop ((List.range 212891).map reads) c none s)) := by
  have hb : ∀ l : List ReadResult, parseReadCount l none ≤ 212891 := by
    intro l
    have := parseReadCount_bound l none (by simp)
    omega
  refine ⟨hb input, parseLoop_input c s input none, ?_, parseReads_before input none (by simp),
    ?_, ?_⟩
  · intro s1 hc hreq hin
    rw [parse_eq_parseLoop s1 c hc hreq, hin]
  · intro tail hlen
    exact parseLoop_append c s tail input none (le_trans (hb input) hlen)
  · intro reads n hn
    obtain ⟨m, rfl⟩ : ∃ m, n = 212891 + m := ⟨n - 212891, by omega⟩
    rw [List.range_add, List.map_append]
    exact parseLoop_append c s _ _ none
      (le_trans (hb _) (by rw [List.length_map, List.length_range]))

end Webserver
